import Mathlib

/-!
# SmartVote: entity store, effective roles, election lifecycle and tallying

A shallow embedding of the store-manipulating handlers of `src/script.js`.

Modelling conventions.

* The four module-level arrays `users`, `elections`, `applications`, `votes` and the
  module-level `currentUser` form the `State`.  JavaScript objects become structures; a
  property that some constructor of the object leaves out is an `Option` (`none` is
  `undefined`).
* Ids are JavaScript strings.  The ids the application produces are `super-admin-1`,
  `user-<ms>`, `election-<ms>`, `application-<ms>`, `vote-<ms>` and the sentinel
  `none-of-above`, but a handler takes whatever string it is called with.
* The plain object used as a dictionary in `getElectionResults` is the list of its own
  properties in the order of their creation, together with what it inherits from
  `Object.prototype`; `Object.entries` lists the array indices first, in ascending order,
  and then the other keys in the order of their creation.
* Numbers are IEEE-754 doubles.  Vote counts stay below `2^32` (the length of an array) and
  are natural numbers; what `Number.parseInt` returns is a `JsNumber`.
* The object `currentUser` is kept as a value of its own: a write through `currentUser`
  reaches the row of `users` where the handler copies it back
  (`users[i] = { ...currentUser }`).  That a login makes `currentUser` and a row of `users`
  one object is not modelled; it concerns `profilePhoto` of the row (`handlePhotoUpload`)
  and `approved` of `currentUser` (`approveUser` on the logged-in user), which no theorem
  below reads.
* `Date.now()`, `new Date().toISOString()`, `Math.random()`, `navigator.userAgent`,
  `confirm` and `prompt` are inputs (`Env`); all clock readings inside one handler
  invocation are one reading.
* DOM rendering, toasts, notifications and `localStorage.setItem` do not touch the store
  and are left out; what a handler reports is kept as an `Outcome`.
* A handler returns the store it leaves behind together with its `Outcome`; an uncaught
  `TypeError` keeps the mutations made before it was thrown.
-/

namespace SmartVote

/-- Ids are strings. -/
abbrev Id := String

/-- A row of `users`. -/
structure User where
  id : Id
  username : String
  password : String
  prn : String
  branch : String
  role : String
  email : String
  approved : Bool
  createdAt : String
  faceRegistered : Bool
  fingerprintRegistered : Bool
  faceData : Option String
  fingerprintData : Option String
  bio : Option String
  phone : Option String
  year : Option String
  achievements : Option String
  profilePhoto : Option String
  deriving DecidableEq, Repr

/-- A JavaScript number as `Number.parseInt` returns it: `NaN`, a finite integer, the
negative zero, or an infinity. -/
inductive JsNumber where
  | nan
  | finite (value : Int)
  | negativeZero
  | infinity (negative : Bool)
  deriving DecidableEq, Repr

/-- The comparison `x > 0`. -/
def JsNumber.isPositive : JsNumber → Bool
  | .finite value => decide (0 < value)
  | .infinity negative => !negative
  | _ => false

/-- A row of `elections`.  `maxCandidates` and `maxVoters` come from `Number.parseInt`. -/
structure Election where
  id : Id
  name : String
  description : String
  active : Bool
  maxCandidates : JsNumber
  maxVoters : JsNumber
  createdAt : String
  closedAt : Option String
  deriving DecidableEq, Repr

/-- A row of `applications` (a candidacy record). -/
structure Application where
  id : Id
  userId : Id
  electionId : Id
  approved : Bool
  rejected : Option Bool
  appliedAt : String
  active : Option Bool
  electionClosed : Option Bool
  closedAt : Option String
  promotedBy : Option Id
  promotionMessage : Option String
  approvedAt : Option String
  approvedBy : Option Id
  rejectedAt : Option String
  rejectedBy : Option Id
  rejectionReason : Option String
  applicationMessage : Option String
  qualifications : Option String
  goals : Option String
  type : Option String
  deriving DecidableEq, Repr

/-- A row of `votes`. -/
structure Vote where
  id : Id
  voterId : Id
  electionId : Id
  candidateId : Id
  votedAt : String
  receiptId : String
  ipAddress : String
  userAgent : String
  verified : Bool
  deriving DecidableEq, Repr

/-- The module-level mutable state of `script.js`. -/
structure State where
  currentUser : Option User
  users : List User
  elections : List Election
  applications : List Application
  votes : List Vote
  deriving DecidableEq, Repr

/-- The inputs a handler reads from the browser. -/
structure Env where
  now : Nat
  iso : String
  random : String
  userAgent : String
  confirm : Bool
  prompt : Option String
  deriving DecidableEq, Repr

/-- What a handler reports: a success toast, an error toast followed by an early return,
a return without any report, or an uncaught `TypeError`. -/
inductive Outcome where
  | success (title : String)
  | error (title : String)
  | silent
  | typeError
  deriving DecidableEq, Repr

/-! ## Dynamic role system -/

/-- The function `getEffectiveUserRole(user)`; `none` is `null`. -/
def getEffectiveUserRole (s : State) (user : Option User) : Option String :=
  match user with
  | none => none
  | some user =>
    if user.role == "super-admin" || user.role == "admin" then
      some user.role
    else
      let activeCandidacies := s.applications.filter fun app =>
        app.userId == user.id &&
        app.approved &&
        (app.active != some false) &&
        (s.elections.find? fun election => election.id == app.electionId && election.active).isSome
      if activeCandidacies.length > 0 then
        some "candidate"
      else
        some user.role

/-- The function `isActiveCandidate(user)`. -/
def isActiveCandidate (s : State) (user : Option User) : Bool :=
  let effectiveRole := getEffectiveUserRole s user
  effectiveRole == some "candidate"

/-- The function `getUserActiveCandidacies(user)`. -/
def getUserActiveCandidacies (s : State) (user : User) : List Application :=
  s.applications.filter fun app =>
    app.userId == user.id &&
    app.approved &&
    (app.active != some false) &&
    (s.elections.find? fun election => election.id == app.electionId && election.active).isSome

/-- An active candidacy of a user, in the words of the specification: the application
belongs to the user, is approved, is not switched off, and refers to an election that
exists and is active. -/
def IsActiveCandidacy (s : State) (user : User) (app : Application) : Prop :=
  app.userId = user.id ∧ app.approved = true ∧ app.active ≠ some false ∧
    ∃ election ∈ s.elections, election.id = app.electionId ∧ election.active = true

instance (s : State) (user : User) (app : Application) :
    Decidable (IsActiveCandidacy s user app) := by
  unfold IsActiveCandidacy; infer_instance

/-- The condition of the eligibility rule: the user has an active candidacy. -/
def HasActiveCandidacy (s : State) (user : User) : Prop :=
  ∃ app ∈ s.applications, IsActiveCandidacy s user app

instance (s : State) (user : User) : Decidable (HasActiveCandidacy s user) := by
  unfold HasActiveCandidacy; infer_instance

/-! ## Tallying -/

/-- A JavaScript value as it occurs in the dictionary of `getElectionResults`: `undefined`, a
number, an object or function inherited from `Object.prototype` (`inherited name` is
`({})[name]`), or a string: `text name ones` is `String(({})[name])` followed by `ones`
characters `1`. -/
inductive Value where
  | undefined
  | number (n : Nat)
  | inherited (name : String)
  | text (name : String) (ones : Nat)
  deriving DecidableEq, Repr

/-- The methods every plain object inherits from `Object.prototype`: writable data
properties that hold functions. -/
def objectPrototypeMethods : List String :=
  ["constructor", "hasOwnProperty", "isPrototypeOf", "propertyIsEnumerable", "toLocaleString",
    "toString", "valueOf", "__defineGetter__", "__defineSetter__", "__lookupGetter__",
    "__lookupSetter__"]

/-- The property names of `Object.prototype`: the accessor `__proto__` and the methods. -/
def objectPrototypeKeys : List String :=
  "__proto__" :: objectPrototypeMethods

/-- The read `obj[key]` on a plain object with the own properties `obj`: the own property,
else what `Object.prototype` holds under that name, else `undefined`. -/
def getProperty (obj : List (Id × Value)) (key : Id) : Value :=
  match obj.lookup key with
  | some value => value
  | none => if objectPrototypeKeys.contains key then .inherited key else .undefined

/-- The expression `(value || 0) + 1`: `undefined` and `0` give `1`, a number `n` gives
`n + 1`, and `+` turns an object, a function or a string into its string form followed by
`1`. -/
def orZeroPlusOne : Value → Value
  | .undefined => .number 1
  | .number n => .number (n + 1)
  | .inherited name => .text name 1
  | .text name ones => .text name (ones + 1)

/-- Writing an own property: an existing key keeps its place, a new key goes last. -/
def setOwn (obj : List (Id × Value)) (key : Id) (value : Value) : List (Id × Value) :=
  match obj with
  | [] => [(key, value)]
  | (k, v) :: rest => if k == key then (k, value) :: rest else (k, v) :: setOwn rest key value

/-- Assignment `obj[key] = value` of a number or a string on a plain object.  The key
`__proto__` reaches the setter of `Object.prototype`, which ignores a value that is neither
an object nor `null`; every other key becomes or stays an own property. -/
def assign (obj : List (Id × Value)) (key : Id) (value : Value) : List (Id × Value) :=
  if key == "__proto__" then obj else setOwn obj key value

/-- The body of the `forEach` of `getElectionResults`:
`candidateVotes[vote.candidateId] = (candidateVotes[vote.candidateId] || 0) + 1`. -/
def countVote (candidateVotes : List (Id × Value)) (vote : Vote) : List (Id × Value) :=
  assign candidateVotes vote.candidateId
    (orZeroPlusOne (getProperty candidateVotes vote.candidateId))

/-- The dictionary `candidateVotes` that `getElectionResults(electionId)` builds with its
`forEach`: its own properties in the order of their creation. -/
def candidateVotes (s : State) (electionId : Id) : List (Id × Value) :=
  let electionVotes := s.votes.filter fun v => v.electionId == electionId
  electionVotes.foldl countVote []

/-- The array index a property key denotes, if it is one: the key is the decimal numeral of
a number below `2^32 - 1`. -/
def arrayIndex (key : String) : Option Nat :=
  let n := key.toList.foldl (fun acc d => acc * 10 + (d.toNat - '0'.toNat)) 0
  if toString n == key && n < 4294967295 then some n else none

/-- Ascending order of the array indices of two properties. -/
def indexAscending (a b : Id × Value) : Prop :=
  (arrayIndex a.1).getD 0 ≤ (arrayIndex b.1).getD 0

instance : DecidableRel indexAscending := fun a b => by
  unfold indexAscending; infer_instance

instance : IsTotal (Id × Value) indexAscending :=
  ⟨fun a b => Nat.le_total ((arrayIndex a.1).getD 0) ((arrayIndex b.1).getD 0)⟩

instance : IsTrans (Id × Value) indexAscending := ⟨fun _ _ _ hab hbc => Nat.le_trans hab hbc⟩

/-- The list `Object.entries(obj)` of a plain object with the own properties `obj`: the
properties whose key is an array index in ascending order of the index, then the other
properties in the order of their creation. -/
def objectEntries (obj : List (Id × Value)) : List (Id × Value) :=
  (obj.filter fun p => (arrayIndex p.1).isSome).insertionSort indexAscending ++
    obj.filter fun p => (arrayIndex p.1).isNone

/-- An element of the list `getElectionResults` returns: `{ candidate, votes }`. -/
structure ResultEntry where
  candidate : Option User
  votes : Value
  deriving DecidableEq, Repr

/-- The `.map` callback of `getElectionResults`. -/
def toResultEntry (s : State) (entry : Id × Value) : ResultEntry :=
  { candidate := s.users.find? fun u => u.id == entry.1, votes := entry.2 }

/-- The conversion `ToNumber` that the subtraction of the comparator applies to `votes`;
`none` is `NaN`. -/
def Value.toNumber : Value → Option Nat
  | .number n => some n
  | _ => none

/-- The order of the comparator `(a, b) => b.votes - a.votes`: `a` may stand before `b`
when the comparator is not positive; a comparator result `NaN` counts as zero. -/
def votesDescending (a b : ResultEntry) : Prop :=
  match a.votes.toNumber, b.votes.toNumber with
  | some m, some n => n ≤ m
  | _, _ => True

instance : DecidableRel votesDescending := fun a b => by
  unfold votesDescending; split <;> infer_instance

/-- The function `getElectionResults(electionId)`.  `Array.prototype.sort` is a stable sort.
When every count is a number the comparator is a total preorder, for which every stable
sort returns the same list, here computed by insertion sort.  When a count is a string the
comparator is not consistent and the language leaves the order to the implementation;
insertion sort is then one of the orders allowed. -/
def getElectionResults (s : State) (electionId : Id) : List ResultEntry :=
  ((objectEntries (candidateVotes s electionId)).map (toResultEntry s)).insertionSort
    votesDescending

/-- The comparator of `getElectionResults` read on pairs of a key and a numeric count. -/
def countDescending (a b : Id × Nat) : Prop := b.2 ≤ a.2

instance : DecidableRel countDescending := fun a b => by
  unfold countDescending; infer_instance

instance : IsTotal (Id × Nat) countDescending := ⟨fun a b => Nat.le_total b.2 a.2⟩

instance : IsTrans (Id × Nat) countDescending := ⟨fun _ _ _ hab hbc => Nat.le_trans hbc hab⟩

/-- The position at which a candidate id first appears among the votes of an election
(the number of those votes when it does not appear). -/
def firstAppearance (s : State) (electionId : Id) (candidateId : Id) : Nat :=
  ((s.votes.filter fun v => v.electionId == electionId).map (·.candidateId)).indexOf candidateId

/-- The order of `Object.entries` on the keys of the dictionary of an election: an array
index stands before every key that is none, two array indices stand in ascending order,
and two other keys stand in the order in which they first appear among the votes of the
election. -/
def entriesBefore (s : State) (electionId : Id) (a b : Id) : Prop :=
  match arrayIndex a, arrayIndex b with
  | some i, some j => i < j
  | some _, none => True
  | none, some _ => False
  | none, none => firstAppearance s electionId a < firstAppearance s electionId b

instance (s : State) (electionId : Id) (a b : Id) :
    Decidable (entriesBefore s electionId a b) := by
  unfold entriesBefore; split <;> infer_instance

/-- The function `getElectionCandidates(electionId)`. -/
def getElectionCandidates (s : State) (electionId : Id) : List User :=
  let approvedApplications := s.applications.filter fun a => a.electionId == electionId && a.approved
  approvedApplications.filterMap fun app => s.users.find? fun u => u.id == app.userId

/-! ## Election lifecycle -/

/-- The handler `cleanupElectionCandidateStatus(electionId)`, on the `applications` array. -/
def cleanupElectionCandidateStatus (env : Env) (applications : List Application)
    (electionId : Id) : List Application :=
  applications.map fun app =>
    if app.electionId == electionId then
      { app with active := some false, electionClosed := some true, closedAt := some env.iso }
    else app

/-- The handler `toggleElection(electionId)`.  After `active` has been flipped, `!elections[i].active`
is the value `wasActive` read before the flip. -/
def toggleElection (env : Env) (s : State) (electionId : Id) : State × Outcome :=
  let electionIndex := s.elections.findIdx fun e => e.id == electionId
  if h : electionIndex < s.elections.length then
    let wasActive := s.elections[electionIndex].active
    if wasActive then
      ({ s with
          elections := s.elections.modify
            (fun e => { e with active := !e.active, closedAt := some env.iso }) electionIndex
          applications := cleanupElectionCandidateStatus env s.applications electionId },
        .success "Election Updated")
    else
      ({ s with
          elections := s.elections.modify
            (fun e => { e with active := !e.active, closedAt := none }) electionIndex },
        .success "Election Updated")
  else (s, .silent)

/-- The `field` argument of `updateElectionLimits`. -/
inductive LimitField where
  | maxCandidates
  | maxVoters
  deriving DecidableEq, Repr

/-- The number of binary digits of a natural number. -/
def binaryLength (n : Nat) : Nat := (Nat.toDigits 2 n).length

/-- The Number value for a natural number: the nearest double, a tie going to the even
significand; `none` is `Infinity`.  Integers up to `2^53` are exact. -/
def roundToDouble (n : Nat) : Option Nat :=
  if n ≤ 2 ^ 53 then some n
  else
    let shift := binaryLength n - 53
    let q := n / 2 ^ shift
    let r := n % 2 ^ shift
    let half := 2 ^ (shift - 1)
    let q := if r > half || (r == half && q % 2 == 1) then q + 1 else q
    if binaryLength (q * 2 ^ shift) ≤ 1024 then some (q * 2 ^ shift) else none

/-- White space skipped by `Number.parseInt`. -/
def isJsWhiteSpace (c : Char) : Bool :=
  c == ' ' || c == '\t' || c == '\n' || c == '\r' || c.toNat == 0x0B || c.toNat == 0x0C ||
  c.toNat == 0xA0 || c.toNat == 0xFEFF || c.toNat == 0x1680 ||
  (0x2000 ≤ c.toNat && c.toNat ≤ 0x200A) || c.toNat == 0x2028 || c.toNat == 0x2029 ||
  c.toNat == 0x202F || c.toNat == 0x205F || c.toNat == 0x3000

/-- The value of a digit in the given radix, if it is one. -/
def digitValue (radix : Nat) (c : Char) : Option Nat :=
  let v :=
    if '0' ≤ c && c ≤ '9' then some (c.toNat - '0'.toNat)
    else if 'a' ≤ c && c ≤ 'z' then some (c.toNat - 'a'.toNat + 10)
    else if 'A' ≤ c && c ≤ 'Z' then some (c.toNat - 'A'.toNat + 10)
    else none
  v.filter fun d => d < radix

/-- The longest prefix of digits, as their values. -/
def leadingDigits (radix : Nat) : List Char → List Nat
  | [] => []
  | c :: cs =>
    match digitValue radix c with
    | some d => d :: leadingDigits radix cs
    | none => []

/-- The last step of `Number.parseInt`: the Number value of the integer read, with its
sign. -/
def signedNumber (negative : Bool) (mathInt : Nat) : JsNumber :=
  match roundToDouble mathInt with
  | none => .infinity negative
  | some m =>
    if negative then (if m == 0 then .negativeZero else .finite (-(m : Int)))
    else .finite (m : Int)

/-- The function `Number.parseInt(string)` without a radix: white space is skipped, a sign
and a `0x` are read, then the longest run of digits; what follows the digits is ignored.
The integer read is taken exactly before it is rounded to a double (for a decimal numeral
of more than 20 significant digits the language also allows an implementation to round the
numeral first). -/
def parseInt (string : String) : JsNumber :=
  let s := string.toList.dropWhile isJsWhiteSpace
  let (negative, s) :=
    match s with
    | '-' :: rest => (true, rest)
    | '+' :: rest => (false, rest)
    | _ => (false, s)
  let (radix, s) :=
    match s with
    | '0' :: 'x' :: rest => (16, rest)
    | '0' :: 'X' :: rest => (16, rest)
    | _ => (10, s)
  let z := leadingDigits radix s
  if z.isEmpty then .nan
  else
    let mathInt : Nat := z.foldl (fun acc d => acc * radix + d) 0
    signedNumber negative mathInt

/-- The sign step of `parseInt`: whether a leading `-` was read, and what follows the
sign. -/
def stripSign (s : List Char) : Bool × List Char :=
  match s with
  | '-' :: rest => (true, rest)
  | '+' :: rest => (false, rest)
  | _ => (false, s)

/-- The radix step of `parseInt`: radix 16 after a leading `0x` or `0X`, radix 10
otherwise, and what is left to read. -/
def stripHexMarker (s : List Char) : Nat × List Char :=
  match s with
  | '0' :: 'x' :: rest => (16, rest)
  | '0' :: 'X' :: rest => (16, rest)
  | _ => (10, s)

/-- The handler `updateElectionLimits(electionId, field, value)`. -/
def updateElectionLimits (s : State) (electionId : Id) (field : LimitField) (value : String) :
    State × Outcome :=
  let electionIndex := s.elections.findIdx fun e => e.id == electionId
  if electionIndex < s.elections.length && (parseInt value).isPositive then
    ({ s with
        elections := s.elections.modify
          (fun e =>
            match field with
            | .maxCandidates => { e with maxCandidates := parseInt value }
            | .maxVoters => { e with maxVoters := parseInt value })
          electionIndex },
      .success "Election Updated")
  else (s, .silent)

/-- The handler `handleCreateElection(event)`, with the values of its form fields.  `toLowerCase` is
taken on ASCII letters. -/
def handleCreateElection (env : Env) (s : State) (name description maxCandidates maxVoters : String)
    (active : Bool) : State × Outcome :=
  let maxCandidates := parseInt maxCandidates
  let maxVoters := parseInt maxVoters
  if s.elections.any fun e => e.name.toLower == name.toLower then
    (s, .error "Election Exists")
  else
    let newElection : Election :=
      { id := "election-" ++ toString env.now
        name := name
        description := description
        active := active
        maxCandidates := maxCandidates
        maxVoters := maxVoters
        createdAt := env.iso
        closedAt := none }
    ({ s with elections := s.elections ++ [newElection] }, .success "Election Created")

/-! ## Sessions and registration -/

/-- The handler `handleLogin(event)`, with the values of its form fields. -/
def handleLogin (s : State) (username password : String) : State × Outcome :=
  match s.users.find? fun u => u.username == username && u.password == password with
  | none => (s, .error "Login Failed")
  | some user =>
    if !user.approved && user.role != "super-admin" then (s, .error "Account Pending")
    else ({ s with currentUser := some user }, .success "Login Successful")

/-- The handler `logout()`. -/
def logout (s : State) : State × Outcome :=
  ({ s with currentUser := none }, .success "Logged Out")

/-- The handler `loginWithFingerprint()`, once the platform has produced an assertion with the given
credential id; the stored `fingerprintData` is identified with its credential id. -/
def loginWithFingerprint (s : State) (assertionId : String) : State × Outcome :=
  let fingerprintUsers := s.users.filter fun user =>
    user.fingerprintRegistered && user.fingerprintData.isSome
  if fingerprintUsers.length == 0 then (s, .error "Login Failed")
  else
    match fingerprintUsers.find? fun user =>
        user.fingerprintData == some assertionId && user.approved with
    | some matchedUser => ({ s with currentUser := some matchedUser }, .success "Login Successful")
    | none => (s, .error "Login Failed")

/-- JavaScript truthiness of a value that is a string or `null`. -/
def truthy (x : Option String) : Bool :=
  match x with
  | none => false
  | some d => d != ""

/-- The handler `verifyFace()`, with `isMatch` the verdict of `simulateFaceMatch` against the captured
frame for each stored face. -/
def verifyFace (s : State) (isMatch : String → Bool) : State × Outcome :=
  let matchedUser := s.users.find? fun user =>
    user.faceRegistered && truthy user.faceData && (user.faceData.map isMatch == some true)
  match matchedUser with
  | some matchedUser =>
    if matchedUser.approved then
      ({ s with currentUser := some matchedUser }, .success "Login Successful")
    else (s, .error "Verification Failed")
  | none => (s, .error "Verification Failed")

/-- The handler `handleRegister(event)`, with the values of its form fields and of the module-level
`registrationFaceData` and `registrationFingerprintData`. -/
def handleRegister (env : Env) (s : State)
    (username password confirmPassword prn branch role : String)
    (registrationFaceData registrationFingerprintData : Option String) : State × Outcome :=
  if password != confirmPassword then (s, .error "Registration Failed")
  else if s.users.any fun u => u.username == username || u.prn == prn then
    (s, .error "Registration Failed")
  else
    let newUser : User :=
      { id := "user-" ++ toString env.now
        username := username
        password := password
        prn := prn
        branch := branch
        role := role
        email := username ++ "@college.edu"
        approved := false
        createdAt := env.iso
        faceRegistered := truthy registrationFaceData
        faceData := registrationFaceData
        fingerprintRegistered := registrationFingerprintData.isSome
        fingerprintData := registrationFingerprintData
        bio := none
        phone := none
        year := none
        achievements := none
        profilePhoto := none }
    ({ s with users := s.users ++ [newUser] }, .success "Registration Successful")

/-- The branch of `captureFace()` that stores a new face for the logged-in user. -/
def captureFace (s : State) (processedImageData : String) : State × Outcome :=
  match s.currentUser with
  | none => (s, .silent)
  | some currentUser =>
    let currentUser := { currentUser with faceData := some processedImageData, faceRegistered := true }
    let userIndex := s.users.findIdx fun u => u.id == currentUser.id
    ({ s with
        currentUser := some currentUser
        users := if userIndex < s.users.length then s.users.set userIndex currentUser else s.users },
      .success "Face Updated")

/-- The `onload` callback of `handlePhotoUpload(event)`. -/
def handlePhotoUpload (s : State) (photo : String) : State × Outcome :=
  match s.currentUser with
  | none => (s, .typeError)
  | some currentUser =>
    ({ s with currentUser := some { currentUser with profilePhoto := some photo } }, .silent)

/-- The handler `handleProfileUpdate(event)`, with the values of its form fields. -/
def handleProfileUpdate (s : State) (bio phone year achievements : String) : State × Outcome :=
  match s.currentUser with
  | none => (s, .typeError)
  | some currentUser =>
    let currentUser :=
      { currentUser with
        bio := some bio, phone := some phone, year := some year, achievements := some achievements }
    let userIndex := s.users.findIdx fun u => u.id == currentUser.id
    ({ s with
        currentUser := some currentUser
        users := if userIndex < s.users.length then s.users.set userIndex currentUser else s.users },
      .success "Profile Updated")

/-! ## User administration -/

/-- The handler `approveUser(userId)`. -/
def approveUser (s : State) (userId : Id) : State × Outcome :=
  let userIndex := s.users.findIdx fun u => u.id == userId
  if userIndex < s.users.length then
    ({ s with users := s.users.modify (fun u => { u with approved := true }) userIndex },
      .success "User Approved")
  else (s, .silent)

/-- The handler `rejectUser(userId)`. -/
def rejectUser (s : State) (userId : Id) : State × Outcome :=
  ({ s with users := s.users.filter fun u => u.id != userId }, .success "User Rejected")

/-- The handler `deleteUser(userId)`. -/
def deleteUser (env : Env) (s : State) (userId : Id) : State × Outcome :=
  match s.users.find? fun u => u.id == userId with
  | none => (s, .silent)
  | some user =>
    if user.role == "super-admin" then (s, .error "Cannot Delete")
    else if env.confirm then
      ({ s with
          users := s.users.filter fun u => u.id != userId
          applications := s.applications.filter fun a => a.userId != userId
          votes := s.votes.filter fun v => v.voterId != userId },
        .success "User Deleted")
    else (s, .silent)

/-- The handler `deleteElection(electionId)`. -/
def deleteElection (env : Env) (s : State) (electionId : Id) : State × Outcome :=
  match s.elections.find? fun e => e.id == electionId with
  | none => (s, .silent)
  | some _ =>
    if env.confirm then
      ({ s with
          elections := s.elections.filter fun e => e.id != electionId
          applications := s.applications.filter fun a => a.electionId != electionId
          votes := s.votes.filter fun v => v.electionId != electionId },
        .success "Election Deleted")
    else (s, .silent)

/-! ## Candidacy -/

/-- The handler `approveApplication(applicationId)`. -/
def approveApplication (s : State) (applicationId : Id) : State × Outcome :=
  let appIndex := s.applications.findIdx fun a => a.id == applicationId
  if appIndex < s.applications.length then
    ({ s with applications := s.applications.modify (fun a => { a with approved := true }) appIndex },
      .success "Application Approved")
  else (s, .silent)

/-- The handler `rejectApplication(applicationId)`. -/
def rejectApplication (s : State) (applicationId : Id) : State × Outcome :=
  ({ s with applications := s.applications.filter fun a => a.id != applicationId },
    .success "Application Rejected")

/-- The handler `applyToElection(electionId)`. -/
def applyToElection (env : Env) (s : State) (electionId : Id) : State × Outcome :=
  match s.currentUser with
  | none => (s, .typeError)
  | some currentUser =>
    let existingApplication := s.applications.find? fun a =>
      a.userId == currentUser.id && a.electionId == electionId
    if existingApplication.isSome then (s, .error "Already Applied")
    else
      let newApplication : Application :=
        { id := "application-" ++ toString env.now
          userId := currentUser.id
          electionId := electionId
          approved := false
          rejected := none
          appliedAt := env.iso
          active := none
          electionClosed := none
          closedAt := none
          promotedBy := none
          promotionMessage := none
          approvedAt := none
          approvedBy := none
          rejectedAt := none
          rejectedBy := none
          rejectionReason := none
          applicationMessage := none
          qualifications := none
          goals := none
          type := none }
      ({ s with applications := s.applications ++ [newApplication] }, .success "Application Submitted")

/-- The handler `handleCandidateApplication(event, electionId)`, with the values of its form fields. -/
def handleCandidateApplication (env : Env) (s : State) (electionId : Id)
    (applicationMessage qualifications goals : String) : State × Outcome :=
  match s.currentUser with
  | none => (s, .typeError)
  | some currentUser =>
    let newApplication : Application :=
      { id := "application-" ++ toString env.now
        userId := currentUser.id
        electionId := electionId
        approved := false
        rejected := some false
        appliedAt := env.iso
        active := none
        electionClosed := none
        closedAt := none
        promotedBy := none
        promotionMessage := none
        approvedAt := none
        approvedBy := none
        rejectedAt := none
        rejectedBy := none
        rejectionReason := none
        applicationMessage := some applicationMessage
        qualifications := some qualifications
        goals := some goals
        type := some "voter-application" }
    ({ s with applications := s.applications ++ [newApplication] }, .success "Application Submitted")

/-- The application object that `handlePromoteVoter` and `handleAddCandidate` build. -/
def promotedApplication (env : Env) (currentUser : User) (voterId electionId : Id)
    (message : String) : Application :=
  { id := "application-" ++ toString env.now
    userId := voterId
    electionId := electionId
    approved := true
    rejected := none
    appliedAt := env.iso
    active := some true
    electionClosed := none
    closedAt := none
    promotedBy := some currentUser.id
    promotionMessage := some message
    approvedAt := none
    approvedBy := none
    rejectedAt := none
    rejectedBy := none
    rejectionReason := none
    applicationMessage := none
    qualifications := none
    goals := none
    type := none }

/-- The handler `handlePromoteVoter(event)`, with the values of its form fields.  The toasts read
`voter.username` and `election.name`, which throws when either lookup found nothing. -/
def handlePromoteVoter (env : Env) (s : State) (voterId electionId : Id) (message : String) :
    State × Outcome :=
  let voter := s.users.find? fun u => u.id == voterId
  let election := s.elections.find? fun e => e.id == electionId
  let existingApplication := s.applications.find? fun a =>
    a.userId == voterId && a.electionId == electionId
  if existingApplication.isSome then
    (s, if voter.isSome && election.isSome then .error "Already a Candidate" else .typeError)
  else
    match s.currentUser with
    | none => (s, .typeError)
    | some currentUser =>
      let newApplication := promotedApplication env currentUser voterId electionId message
      ({ s with applications := s.applications ++ [newApplication] },
        if voter.isSome && election.isSome then .success "Voter Promoted" else .typeError)

/-- The handler `handleAddCandidate(event, electionId)`, with the values of its form fields. -/
def handleAddCandidate (env : Env) (s : State) (electionId voterId : Id) (message : String) :
    State × Outcome :=
  let voter := s.users.find? fun u => u.id == voterId
  let election := s.elections.find? fun e => e.id == electionId
  match s.currentUser with
  | none => (s, .typeError)
  | some currentUser =>
    let newApplication := promotedApplication env currentUser voterId electionId message
    ({ s with applications := s.applications ++ [newApplication] },
      if voter.isSome && election.isSome then .success "Candidate Added" else .typeError)

/-- The handler `removeCandidateFromElection(applicationId, electionId)`.  The callback of the votes
filter reads `application.userId`: with no such application it throws at the first vote,
after `applications` has been reassigned. -/
def removeCandidateFromElection (env : Env) (s : State) (applicationId electionId : Id) :
    State × Outcome :=
  let application := s.applications.find? fun a => a.id == applicationId
  if env.confirm then
    let applications := s.applications.filter fun a => a.id != applicationId
    match application with
    | some application =>
      ({ s with
          applications := applications
          votes := s.votes.filter fun v =>
            !(v.candidateId == application.userId && v.electionId == electionId) },
        .success "Candidate Removed")
    | none =>
      if s.votes.isEmpty then
        ({ s with applications := applications, votes := [] }, .success "Candidate Removed")
      else ({ s with applications := applications }, .typeError)
  else (s, .silent)

/-- Negation `!x` for a property that is a boolean or `undefined`. -/
def jsNot (x : Option Bool) : Bool :=
  match x with
  | some b => !b
  | none => true

/-- The handler `toggleCandidateAccess(applicationId, electionId)`. -/
def toggleCandidateAccess (s : State) (applicationId _electionId : Id) : State × Outcome :=
  let appIndex := s.applications.findIdx fun a => a.id == applicationId
  if appIndex < s.applications.length then
    ({ s with
        applications := s.applications.modify
          (fun a => { a with active := some (jsNot a.active) }) appIndex },
      .success "Access Updated")
  else (s, .silent)

/-- The handler `approveVoterApplication(applicationId)`.  `currentUser.id` is read after `approved`
and `approvedAt` have been written. -/
def approveVoterApplication (env : Env) (s : State) (applicationId : Id) : State × Outcome :=
  let appIndex := s.applications.findIdx fun a => a.id == applicationId
  if appIndex < s.applications.length then
    match s.currentUser with
    | none =>
      ({ s with
          applications := s.applications.modify
            (fun a => { a with approved := true, approvedAt := some env.iso }) appIndex },
        .typeError)
    | some currentUser =>
      ({ s with
          applications := s.applications.modify
            (fun a =>
              { a with
                approved := true, approvedAt := some env.iso
                approvedBy := some currentUser.id, active := some true })
            appIndex },
        .success "Application Approved")
  else (s, .silent)

/-- The handler `rejectVoterApplication(applicationId)`; `env.prompt` is the answer to the prompt,
`none` when it was cancelled. -/
def rejectVoterApplication (env : Env) (s : State) (applicationId : Id) : State × Outcome :=
  match env.prompt with
  | none => (s, .silent)
  | some reason =>
    let appIndex := s.applications.findIdx fun a => a.id == applicationId
    if appIndex < s.applications.length then
      match s.currentUser with
      | none =>
        ({ s with
            applications := s.applications.modify
              (fun a => { a with rejected := some true, rejectedAt := some env.iso }) appIndex },
          .typeError)
      | some currentUser =>
        ({ s with
            applications := s.applications.modify
              (fun a =>
                { a with
                  rejected := some true, rejectedAt := some env.iso
                  rejectedBy := some currentUser.id, rejectionReason := some reason
                  active := some false })
              appIndex },
          .success "Application Rejected")
    else (s, .silent)

/-! ## Voting -/

/-- The object `newVote` that `castVote` builds for the logged-in user. -/
def newVote (env : Env) (currentUser : User) (electionId candidateId : Id) : Vote :=
  let receiptId := "RCP-" ++ toString env.now ++ "-" ++ env.random
  { id := "vote-" ++ toString env.now
    voterId := currentUser.id
    electionId := electionId
    candidateId := candidateId
    votedAt := env.iso
    receiptId := receiptId
    ipAddress := "127.0.0.1"
    userAgent := env.userAgent
    verified := true }

/-- The handler `castVote(electionId, candidateId)`.  Without a logged-in user `currentUser.id`
throws before anything is written. -/
def castVote (env : Env) (s : State) (electionId candidateId : Id) : State × Outcome :=
  match s.currentUser with
  | none => (s, .typeError)
  | some currentUser =>
    let existingVote := s.votes.find? fun v =>
      v.voterId == currentUser.id && v.electionId == electionId
    if existingVote.isSome then (s, .error "Already Voted")
    else
      ({ s with votes := s.votes ++ [newVote env currentUser electionId candidateId] },
        .success "Vote Cast Successfully")

/-! ## Startup -/

/-- What `localStorage` holds under the four keys `smartvote-users`, `smartvote-elections`,
`smartvote-applications` and `smartvote-votes`, as `JSON.parse` reads it back; `none` is a
key that was never written, for which `initializeData` parses `"[]"`. -/
structure Persisted where
  users : Option (List User)
  elections : Option (List Election)
  applications : Option (List Application)
  votes : Option (List Vote)
  deriving DecidableEq, Repr

/-- The object `defaultSuperAdmin` of `initializeData`. -/
def defaultSuperAdmin (env : Env) : User :=
  { id := "super-admin-1"
    username := "admin"
    password := "admin123"
    prn := "ADMIN001"
    branch := "Administration"
    role := "super-admin"
    email := "admin@college.edu"
    approved := true
    createdAt := env.iso
    faceRegistered := false
    fingerprintRegistered := false
    faceData := none
    fingerprintData := none
    bio := none
    phone := none
    year := none
    achievements := none
    profilePhoto := none }

/-- The function `initializeData()`: load the four tables, and create the default super
admin when no user was loaded.  It does not write `currentUser`. -/
def initializeData (env : Env) (s : State) (stored : Persisted) : State :=
  let users := stored.users.getD []
  let elections := stored.elections.getD []
  let applications := stored.applications.getD []
  let votes := stored.votes.getD []
  if users.length == 0 then
    { s with
      users := users ++ [defaultSuperAdmin env]
      elections := elections, applications := applications, votes := votes }
  else
    { s with users := users, elections := elections, applications := applications, votes := votes }

/-! ## Handlers as operations on the store -/

/-- One invocation of a handler of `script.js` that writes `currentUser` or one of the four
tables, with its arguments.  `initializeData`, which runs once when the page loads and
reads the tables back from `localStorage`, is not an operation on a running store. -/
inductive Op where
  | handleLogin (username password : String)
  | logout
  | loginWithFingerprint (assertionId : String)
  | verifyFace (isMatch : String → Bool)
  | handleRegister (username password confirmPassword prn branch role : String)
      (registrationFaceData registrationFingerprintData : Option String)
  | captureFace (processedImageData : String)
  | handlePhotoUpload (photo : String)
  | handleProfileUpdate (bio phone year achievements : String)
  | approveUser (userId : Id)
  | rejectUser (userId : Id)
  | deleteUser (userId : Id)
  | deleteElection (electionId : Id)
  | handleCreateElection (name description maxCandidates maxVoters : String) (active : Bool)
  | toggleElection (electionId : Id)
  | updateElectionLimits (electionId : Id) (field : LimitField) (value : String)
  | approveApplication (applicationId : Id)
  | rejectApplication (applicationId : Id)
  | applyToElection (electionId : Id)
  | handleCandidateApplication (electionId : Id) (applicationMessage qualifications goals : String)
  | handlePromoteVoter (voterId electionId : Id) (message : String)
  | handleAddCandidate (electionId voterId : Id) (message : String)
  | removeCandidateFromElection (applicationId electionId : Id)
  | toggleCandidateAccess (applicationId electionId : Id)
  | approveVoterApplication (applicationId : Id)
  | rejectVoterApplication (applicationId : Id)
  | castVote (electionId candidateId : Id)

/-- Run one handler. -/
def step (env : Env) (s : State) : Op → State × Outcome
  | .handleLogin username password => handleLogin s username password
  | .logout => logout s
  | .loginWithFingerprint assertionId => loginWithFingerprint s assertionId
  | .verifyFace isMatch => verifyFace s isMatch
  | .handleRegister username password confirmPassword prn branch role face fingerprint =>
    handleRegister env s username password confirmPassword prn branch role face fingerprint
  | .captureFace processedImageData => captureFace s processedImageData
  | .handlePhotoUpload photo => handlePhotoUpload s photo
  | .handleProfileUpdate bio phone year achievements =>
    handleProfileUpdate s bio phone year achievements
  | .approveUser userId => approveUser s userId
  | .rejectUser userId => rejectUser s userId
  | .deleteUser userId => deleteUser env s userId
  | .deleteElection electionId => deleteElection env s electionId
  | .handleCreateElection name description maxCandidates maxVoters active =>
    handleCreateElection env s name description maxCandidates maxVoters active
  | .toggleElection electionId => toggleElection env s electionId
  | .updateElectionLimits electionId field value => updateElectionLimits s electionId field value
  | .approveApplication applicationId => approveApplication s applicationId
  | .rejectApplication applicationId => rejectApplication s applicationId
  | .applyToElection electionId => applyToElection env s electionId
  | .handleCandidateApplication electionId applicationMessage qualifications goals =>
    handleCandidateApplication env s electionId applicationMessage qualifications goals
  | .handlePromoteVoter voterId electionId message =>
    handlePromoteVoter env s voterId electionId message
  | .handleAddCandidate electionId voterId message =>
    handleAddCandidate env s electionId voterId message
  | .removeCandidateFromElection applicationId electionId =>
    removeCandidateFromElection env s applicationId electionId
  | .toggleCandidateAccess applicationId electionId =>
    toggleCandidateAccess s applicationId electionId
  | .approveVoterApplication applicationId => approveVoterApplication env s applicationId
  | .rejectVoterApplication applicationId => rejectVoterApplication env s applicationId
  | .castVote electionId candidateId => castVote env s electionId candidateId

/-- Run a sequence of handler invocations, each with the browser inputs it sees. -/
def run (s : State) : List (Env × Op) → State
  | [] => s
  | (env, op) :: rest => run (step env s op).1 rest

/-- At most one vote per (`voterId`, `electionId`) pair. -/
def VotesUnique (s : State) : Prop :=
  ∀ voterId electionId : Id,
    (s.votes.filter fun v => v.voterId == voterId && v.electionId == electionId).length ≤ 1

/-- At most one application per (`userId`, `electionId`) pair. -/
def ApplicationsUnique (s : State) : Prop :=
  ∀ userId electionId : Id,
    (s.applications.filter fun a => a.userId == userId && a.electionId == electionId).length ≤ 1

/-- The operations that remove votes: `deleteUser`, `deleteElection` and
`removeCandidateFromElection`. -/
def Op.removesVotes : Op → Bool
  | .deleteUser _ => true
  | .deleteElection _ => true
  | .removeCandidateFromElection _ _ => true
  | _ => false

/-- No dangling foreign key: the `userId` and `electionId` of every application and the
`voterId`, `electionId` and `candidateId` of every vote, the sentinel `none-of-above`
apart, are ids of rows of `users` and `elections`. -/
def NoDanglingKey (s : State) : Prop :=
  (∀ a ∈ s.applications,
    (∃ u ∈ s.users, u.id = a.userId) ∧ (∃ e ∈ s.elections, e.id = a.electionId)) ∧
  (∀ v ∈ s.votes,
    (∃ u ∈ s.users, u.id = v.voterId) ∧ (∃ e ∈ s.elections, e.id = v.electionId) ∧
      (v.candidateId = "none-of-above" ∨ ∃ u ∈ s.users, u.id = v.candidateId))

instance (s : State) : Decidable (NoDanglingKey s) := by
  unfold NoDanglingKey; infer_instance

/-- The receipt ids of the votes table are pairwise distinct. -/
def ReceiptsDistinct (s : State) : Prop :=
  (s.votes.map (·.receiptId)).Nodup

instance (s : State) : Decidable (ReceiptsDistinct s) := by
  unfold ReceiptsDistinct; infer_instance

/-- A limit of an election that is a number and at least 1. -/
def AtLeastOne : JsNumber → Prop
  | .finite n => 1 ≤ n
  | .infinity negative => negative = false
  | _ => False

instance (x : JsNumber) : Decidable (AtLeastOne x) := by
  cases x <;> unfold AtLeastOne <;> infer_instance

/-- Every election has `maxCandidates` at least 1 and `maxVoters` at least 1. -/
def LimitsAtLeastOne (s : State) : Prop :=
  ∀ e ∈ s.elections, AtLeastOne e.maxCandidates ∧ AtLeastOne e.maxVoters

instance (s : State) : Decidable (LimitsAtLeastOne s) := by
  unfold LimitsAtLeastOne; infer_instance

/-- The usernames of the users table are pairwise distinct, and so are its registration
ids (`prn`). -/
def UsersUnique (s : State) : Prop :=
  (s.users.map (·.username)).Nodup ∧ (s.users.map (·.prn)).Nodup

instance (s : State) : Decidable (UsersUnique s) := by
  unfold UsersUnique; infer_instance

/-! ## Sample data -/

/-- A voter row. -/
def sampleVoter (id username : String) : User :=
  { id := id, username := username, password := "pw", prn := "PRN-" ++ username
    branch := "CS", role := "voter", email := username ++ "@college.edu", approved := true
    createdAt := "2024-01-01T00:00:00.000Z", faceRegistered := false
    fingerprintRegistered := false, faceData := none, fingerprintData := none
    bio := none, phone := none, year := none, achievements := none, profilePhoto := none }

/-- An election row. -/
def sampleElection (id name : String) (active : Bool) : Election :=
  { id := id, name := name, description := "", active := active
    maxCandidates := .finite 2, maxVoters := .finite 100
    createdAt := "2024-01-01T00:00:00.000Z", closedAt := none }

/-- An approved, active candidacy created by promotion. -/
def sampleCandidacy (id userId electionId : String) : Application :=
  { id := id, userId := userId, electionId := electionId, approved := true, rejected := none
    appliedAt := "2024-01-02T00:00:00.000Z", active := some true, electionClosed := none
    closedAt := none, promotedBy := some "super-admin-1", promotionMessage := some ""
    approvedAt := none, approvedBy := none, rejectedAt := none, rejectedBy := none
    rejectionReason := none, applicationMessage := none, qualifications := none
    goals := none, type := none }

/-- A vote row. -/
def sampleVote (id voterId electionId candidateId : String) : Vote :=
  { id := id, voterId := voterId, electionId := electionId, candidateId := candidateId
    votedAt := "2024-01-03T00:00:00.000Z", receiptId := "RCP-" ++ id, ipAddress := "127.0.0.1"
    userAgent := "UA", verified := true }

/-- Browser inputs with every confirmation accepted. -/
def sampleEnv : Env :=
  { now := 1700000000000, iso := "2024-01-04T00:00:00.000Z", random := "ABCDEFGHI"
    userAgent := "UA", confirm := true, prompt := some "reason" }

/-- Two voters, one active election `E1` in which `V1` is a candidate and `V2` has voted
for `V1`; `V2` is logged in. -/
def sampleState : State :=
  { currentUser := some (sampleVoter "V2" "bob")
    users := [sampleVoter "V1" "alice", sampleVoter "V2" "bob"]
    elections := [sampleElection "E1" "Council" true, sampleElection "E2" "Senate" true]
    applications := [sampleCandidacy "A1" "V1" "E1"]
    votes := [sampleVote "vote-1" "V2" "E1" "V1"] }

/-- A store in which `V2` is logged in and election `E2` is closed. -/
def closedElectionState : State :=
  { sampleState with
    elections := [sampleElection "E1" "Council" true, sampleElection "E2" "Senate" false] }

/-- The sample store with four votes: two for `V1` and one for `none-of-above` in `E1`,
and one for `V1` in `E2`. -/
def tallyState : State :=
  { sampleState with
    votes :=
      [sampleVote "vote-1" "V2" "E1" "V1", sampleVote "vote-2" "V3" "E1" "none-of-above",
        sampleVote "vote-3" "V2" "E2" "V1", sampleVote "vote-4" "V4" "E1" "V1"] }

/-- The bootstrap super admin row. -/
def sampleAdmin : User :=
  { sampleVoter "super-admin-1" "admin" with role := "super-admin" }

/-- The sample store with the super admin added to `users` and logged in. -/
def adminState : State :=
  { sampleState with
    currentUser := some sampleAdmin
    users := [sampleAdmin, sampleVoter "V1" "alice", sampleVoter "V2" "bob"] }

/-- The sample store with `V1`, who has application `A1` in `E1`, logged in. -/
def candidateSession : State :=
  { sampleState with currentUser := some (sampleVoter "V1" "alice") }

/-- A self-application of `V2` to `E1` that an admin has rejected. -/
def sampleRejected : Application :=
  { sampleCandidacy "A2" "V2" "E1" with
    approved := false, rejected := some true, active := some false, promotedBy := none
    promotionMessage := none, rejectedAt := some "2024-01-03T00:00:00.000Z"
    rejectedBy := some "super-admin-1", rejectionReason := some "late"
    type := some "voter-application" }

/-- The admin store with the rejected application `A2` of `V2` in `E1`. -/
def rejectedState : State :=
  { adminState with applications := [sampleCandidacy "A1" "V1" "E1", sampleRejected] }

/-- An application of `V2` to `E2` made with `applyToElection` and approved with
`approveApplication`: approved, with `active` never written. -/
def sampleUnsetActive : Application :=
  { sampleCandidacy "A3" "V2" "E2" with
    active := none, promotedBy := none, promotionMessage := none }

/-- The admin store with the approved application `A3` whose `active` is unset. -/
def unsetActiveState : State :=
  { adminState with applications := [sampleCandidacy "A1" "V1" "E1", sampleUnsetActive] }

/-- The sample store before any vote has been cast. -/
def noVotesState : State :=
  { sampleState with votes := [] }

/-- A user who registered with the role `candidate`. -/
def sampleCandidateRole : User :=
  { sampleVoter "C1" "carol" with role := "candidate" }

/-- The admin store before any election has been created. -/
def noElectionsState : State :=
  { adminState with elections := [], applications := [], votes := [] }

/-- The sample store in which `V1` is a candidate in `E1` and in `E2`. -/
def twoCandidaciesState : State :=
  { sampleState with
    applications := [sampleCandidacy "A1" "V1" "E1", sampleCandidacy "A4" "V1" "E2"] }

/-- The sample store with two more users, whose ids are `10` and `9`, and one vote for each
of them in `E1`, the vote for `10` cast first. -/
def indexIdsState : State :=
  { sampleState with
    users :=
      [sampleVoter "V1" "alice", sampleVoter "V2" "bob", sampleVoter "10" "ten",
        sampleVoter "9" "nine"]
    votes := [sampleVote "vote-1" "V2" "E1" "10", sampleVote "vote-2" "V3" "E1" "9"] }

/-- Nothing stored yet: the first start of the application. -/
def nothingStored : Persisted :=
  { users := none, elections := none, applications := none, votes := none }

/-! ## Theorems: the dynamic role system -/

/-- The filter condition of `getEffectiveUserRole` and `getUserActiveCandidacies`, unfolded. -/
theorem activeCandidacy_pred_iff (s : State) (user : User) (app : Application) :
    (app.userId == user.id && app.approved && (app.active != some false) &&
        (s.elections.find? fun election => election.id == app.electionId && election.active).isSome)
        = true ↔
      IsActiveCandidacy s user app := by
  simp [IsActiveCandidacy, and_assoc]

/-- The value of `getEffectiveUserRole` on a user row. -/
theorem getEffectiveUserRole_some (s : State) (user : User) :
    getEffectiveUserRole s (some user) =
      some (if user.role = "admin" ∨ user.role = "super-admin" then user.role
            else if HasActiveCandidacy s user then "candidate" else user.role) := by
  unfold getEffectiveUserRole
  by_cases hrole : user.role = "admin" ∨ user.role = "super-admin"
  · rcases hrole with h | h <;> simp [h]
  · have h1 : user.role ≠ "admin" := fun h => hrole (Or.inl h)
    have h2 : user.role ≠ "super-admin" := fun h => hrole (Or.inr h)
    simp only [hrole, if_false]
    have hb : (user.role == "super-admin" || user.role == "admin") = false := by
      simp [h1, h2]
    simp only [hb, Bool.false_eq_true, if_false]
    by_cases hc : HasActiveCandidacy s user
    · simp only [hc, if_true]
      obtain ⟨app, hmem, hp⟩ := hc
      have hin : app ∈ s.applications.filter fun app =>
          app.userId == user.id && app.approved && (app.active != some false) &&
          (s.elections.find? fun election =>
            election.id == app.electionId && election.active).isSome :=
        List.mem_filter.mpr ⟨hmem, (activeCandidacy_pred_iff s user app).mpr hp⟩
      have hpos := List.length_pos_of_mem hin
      simp only [gt_iff_lt, hpos, if_true]
    · simp only [hc, if_false]
      have hnil : (s.applications.filter fun app =>
          app.userId == user.id && app.approved && (app.active != some false) &&
          (s.elections.find? fun election =>
            election.id == app.electionId && election.active).isSome) = [] := by
        rw [List.filter_eq_nil_iff]
        intro app hmem hp
        exact hc ⟨app, hmem, (activeCandidacy_pred_iff s user app).mp hp⟩
      simp only [hnil, List.length_nil, gt_iff_lt, lt_self_iff_false, if_false]

/-- C1. `getEffectiveUserRole(user)` returns `user.role` unchanged for `admin` and
`super-admin`; for every other role it returns `candidate` when some application of the
user is approved, not switched off and refers to an existing active election, and
`user.role` when there is none. -/
theorem getEffectiveUserRole_spec (s : State) (user : User) :
    getEffectiveUserRole s (some user) =
      some (if user.role = "admin" ∨ user.role = "super-admin" then user.role
            else if HasActiveCandidacy s user then "candidate" else user.role) :=
  getEffectiveUserRole_some s user

/-! ## Theorems: one vote per voter and election -/

theorem votesUnique_of_sublist {s t : State} (h : t.votes.Sublist s.votes) (hs : VotesUnique s) :
    VotesUnique t := by
  intro voterId electionId
  exact le_trans (List.Sublist.length_le (List.Sublist.filter _ h)) (hs voterId electionId)

/-- Every handler other than `castVote` leaves `votes` alone or filters it: it never adds a
vote and never changes one. -/
theorem step_votes_sublist (env : Env) (s : State) (op : Op) :
    (∃ electionId candidateId, op = .castVote electionId candidateId) ∨
      (step env s op).1.votes.Sublist s.votes := by
  cases op
  case castVote e c => exact Or.inl ⟨e, c, rfl⟩
  all_goals right
  all_goals simp only [step, handleLogin, logout, loginWithFingerprint, verifyFace, handleRegister,
    captureFace, handlePhotoUpload, handleProfileUpdate, approveUser, rejectUser, deleteUser,
    deleteElection, handleCreateElection, toggleElection, updateElectionLimits,
    approveApplication, rejectApplication, applyToElection, handleCandidateApplication,
    handlePromoteVoter, handleAddCandidate, removeCandidateFromElection, toggleCandidateAccess,
    approveVoterApplication, rejectVoterApplication]
  all_goals (repeat' split)
  all_goals first
    | exact List.Sublist.refl _
    | exact List.filter_sublist _
    | simp_all

theorem castVote_eq_of_no_vote (env : Env) (s : State) (currentUser : User)
    (electionId candidateId : Id) (hcu : s.currentUser = some currentUser)
    (hno : ∀ v ∈ s.votes, ¬ (v.voterId = currentUser.id ∧ v.electionId = electionId)) :
    castVote env s electionId candidateId =
      ({ s with votes := s.votes ++ [newVote env currentUser electionId candidateId] },
        .success "Vote Cast Successfully") := by
  have hfind : (s.votes.find? fun v =>
      v.voterId == currentUser.id && v.electionId == electionId) = none := by
    rw [List.find?_eq_none]
    intro v hv
    simpa using hno v hv
  simp [castVote, hcu, hfind]

theorem castVote_eq_of_vote (env : Env) (s : State) (currentUser : User)
    (electionId candidateId : Id) (hcu : s.currentUser = some currentUser)
    (hex : ∃ v ∈ s.votes, v.voterId = currentUser.id ∧ v.electionId = electionId) :
    castVote env s electionId candidateId = (s, .error "Already Voted") := by
  have hfind : (s.votes.find? fun v =>
      v.voterId == currentUser.id && v.electionId == electionId).isSome = true := by
    rw [List.find?_isSome]
    obtain ⟨v, hv, h1, h2⟩ := hex
    exact ⟨v, hv, by simp [h1, h2]⟩
  simp [castVote, hcu, hfind]

theorem castVote_votesUnique (env : Env) (s : State) (electionId candidateId : Id)
    (hs : VotesUnique s) : VotesUnique (castVote env s electionId candidateId).1 := by
  cases hcu : s.currentUser with
  | none => simpa [castVote, hcu] using hs
  | some currentUser =>
    by_cases hex : ∃ v ∈ s.votes, v.voterId = currentUser.id ∧ v.electionId = electionId
    · rw [castVote_eq_of_vote env s currentUser electionId candidateId hcu hex]
      exact hs
    · have hno : ∀ v ∈ s.votes, ¬ (v.voterId = currentUser.id ∧ v.electionId = electionId) :=
        fun v hv h => hex ⟨v, hv, h⟩
      rw [castVote_eq_of_no_vote env s currentUser electionId candidateId hcu hno]
      intro voterId electionId'
      simp only [List.filter_append, List.length_append]
      by_cases hpair : currentUser.id = voterId ∧ electionId = electionId'
      · obtain ⟨h1, h2⟩ := hpair
        subst h1 h2
        have hnil : (s.votes.filter fun v =>
            v.voterId == currentUser.id && v.electionId == electionId) = [] := by
          rw [List.filter_eq_nil_iff]
          intro v hv
          simpa using hno v hv
        rw [hnil, List.length_nil, Nat.zero_add]
        exact le_trans (List.length_filter_le _ _) (by simp)
      · have hnil : ([newVote env currentUser electionId candidateId].filter
            fun v => v.voterId == voterId && v.electionId == electionId') = [] := by
          rw [List.filter_eq_nil_iff]
          intro v hv
          rw [List.mem_singleton] at hv
          subst hv
          simpa [newVote] using fun h => (hpair ⟨h, ·⟩)
        rw [hnil]
        simpa using hs voterId electionId'

theorem step_votesUnique (env : Env) (s : State) (op : Op) (hs : VotesUnique s) :
    VotesUnique (step env s op).1 := by
  rcases step_votes_sublist env s op with ⟨e, c, rfl⟩ | hsub
  · exact castVote_votesUnique env s e c hs
  · exact votesUnique_of_sublist hsub hs

theorem run_votesUnique (trace : List (Env × Op)) :
    ∀ s : State, VotesUnique s → VotesUnique (run s trace) := by
  induction trace with
  | nil => intro s hs; exact hs
  | cons head rest ih =>
    intro s hs
    obtain ⟨env, op⟩ := head
    exact ih _ (step_votesUnique env s op hs)

/-- C2. At most one vote per (`voterId`, `electionId`) pair is an invariant of the store:
every handler preserves it, and it holds after every sequence of handler invocations that
starts from an empty `votes` table. -/
theorem votesUnique_invariant :
    (∀ (env : Env) (s : State) (op : Op), VotesUnique s → VotesUnique (step env s op).1) ∧
    (∀ (s : State) (trace : List (Env × Op)), s.votes = [] → VotesUnique (run s trace)) := by
  refine ⟨step_votesUnique, fun s trace h0 => run_votesUnique trace s ?_⟩
  intro voterId electionId
  simp [h0]

/-! ## Theorems: tallying -/

theorem keys_setOwn (obj : List (Id × Value)) (key : Id) (value : Value) :
    (setOwn obj key value).map Prod.fst =
      if key ∈ obj.map Prod.fst then obj.map Prod.fst else obj.map Prod.fst ++ [key] := by
  induction obj with
  | nil => simp [setOwn]
  | cons head rest ih =>
    obtain ⟨k, v⟩ := head
    by_cases h : k = key
    · subst h
      simp [setOwn]
    · have h' : ¬ key = k := fun h'' => h h''.symm
      simp only [setOwn, beq_iff_eq, h, if_false, List.map_cons, ih, List.mem_cons, h',
        false_or]
      split <;> simp

theorem mem_setOwn (obj : List (Id × Value)) (key : Id) (value : Value)
    (hnd : (obj.map Prod.fst).Nodup) (p : Id × Value) (hp : p ∈ setOwn obj key value) :
    (p.1 ≠ key ∧ p ∈ obj) ∨ p = (key, value) := by
  induction obj with
  | nil =>
    right
    simpa [setOwn] using hp
  | cons head rest ih =>
    obtain ⟨k, v⟩ := head
    rw [List.map_cons, List.nodup_cons] at hnd
    by_cases h : k = key
    · simp only [setOwn, beq_iff_eq, h, if_true, List.mem_cons] at hp
      rcases hp with hp | hp
      · exact Or.inr hp
      · left
        refine ⟨?_, List.mem_cons_of_mem _ hp⟩
        intro hk
        apply hnd.1
        rw [h, ← hk]
        exact List.mem_map.mpr ⟨p, hp, rfl⟩
    · simp only [setOwn, beq_iff_eq, h, if_false, List.mem_cons] at hp
      rcases hp with hp | hp
      · subst hp
        left
        exact ⟨h, List.mem_cons_self _ _⟩
      · rcases ih hnd.2 hp with ⟨h1, h2⟩ | h1
        · left
          exact ⟨h1, List.mem_cons_of_mem _ h2⟩
        · exact Or.inr h1

theorem mem_of_lookup_eq_some (obj : List (Id × Value)) (key : Id) (value : Value)
    (h : obj.lookup key = some value) : (key, value) ∈ obj := by
  induction obj with
  | nil => simp at h
  | cons head rest ih =>
    obtain ⟨k, v⟩ := head
    by_cases hk : key = k
    · subst hk
      simp only [List.lookup_cons, beq_self_eq_true, Option.some.injEq] at h
      subst h
      exact List.mem_cons_self _ _
    · have hk' : (key == k) = false := by simpa using hk
      simp only [List.lookup_cons, hk'] at h
      exact List.mem_cons_of_mem _ (ih h)

theorem not_mem_keys_of_lookup_eq_none (obj : List (Id × Value)) (key : Id)
    (h : obj.lookup key = none) : key ∉ obj.map Prod.fst := by
  induction obj with
  | nil => simp
  | cons head rest ih =>
    obtain ⟨k, v⟩ := head
    by_cases hk : key = k
    · subst hk
      simp [List.lookup_cons] at h
    · have hk' : (key == k) = false := by simpa using hk
      simp only [List.lookup_cons, hk'] at h
      simp only [List.map_cons, List.mem_cons, not_or]
      exact ⟨hk, ih h⟩

theorem getProperty_of_lookup_eq_some (obj : List (Id × Value)) (key : Id) (value : Value)
    (h : obj.lookup key = some value) : getProperty obj key = value := by
  simp [getProperty, h]

theorem getProperty_of_lookup_eq_none (obj : List (Id × Value)) (key : Id)
    (h : obj.lookup key = none) :
    getProperty obj key =
      if objectPrototypeKeys.contains key then Value.inherited key else Value.undefined := by
  simp [getProperty, h]

/-- A vote for `__proto__` leaves the dictionary as it is. -/
theorem countVote_proto (obj : List (Id × Value)) (v : Vote) (h : v.candidateId = "__proto__") :
    countVote obj v = obj := by
  simp [countVote, assign, h]

theorem countVote_of_ne_proto (obj : List (Id × Value)) (v : Vote)
    (h : v.candidateId ≠ "__proto__") :
    countVote obj v =
      setOwn obj v.candidateId (orZeroPlusOne (getProperty obj v.candidateId)) := by
  simp [countVote, assign, h]

theorem nodup_of_pairwise_indexOf_lt {ids keys : List Id}
    (h : keys.Pairwise fun a b => ids.indexOf a < ids.indexOf b) : keys.Nodup :=
  List.Pairwise.imp (fun {a b} hlt heq => by subst heq; exact lt_irrefl _ hlt) h

/-- What the dictionary holds after the `forEach` has run over the votes `vs`: its keys are
the candidate ids of `vs` other than `__proto__`, in the order of their first appearance; a
key that names a method of `Object.prototype` holds a string, every other key holds the
number of its votes. -/
theorem foldl_countVote_invariant (vs : List Vote) :
    (((vs.foldl countVote []).map Prod.fst).Pairwise fun a b =>
        (vs.map (·.candidateId)).indexOf a < (vs.map (·.candidateId)).indexOf b) ∧
      (∀ c, c ∈ (vs.foldl countVote []).map Prod.fst ↔
        c ∈ vs.map (·.candidateId) ∧ c ≠ "__proto__") ∧
      (∀ p ∈ vs.foldl countVote [],
        p.2 = if objectPrototypeKeys.contains p.1 then
            Value.text p.1 ((vs.map (·.candidateId)).count p.1)
          else Value.number ((vs.map (·.candidateId)).count p.1)) := by
  induction vs using List.reverseRecOn with
  | nil => simp
  | append_singleton vs v ih =>
    obtain ⟨hord, hkeys, hcount⟩ := ih
    have hnd := nodup_of_pairwise_indexOf_lt hord
    simp only [List.foldl_append, List.foldl_cons, List.foldl_nil, List.map_append,
      List.map_cons, List.map_nil]
    have hmono : ∀ a b, a ∈ (vs.foldl countVote []).map Prod.fst →
        b ∈ (vs.foldl countVote []).map Prod.fst →
        (vs.map (·.candidateId)).indexOf a < (vs.map (·.candidateId)).indexOf b →
        (vs.map (·.candidateId) ++ [v.candidateId]).indexOf a <
          (vs.map (·.candidateId) ++ [v.candidateId]).indexOf b := by
      intro a b ha hb hlt
      rw [List.indexOf_append_of_mem ((hkeys a).mp ha).1,
        List.indexOf_append_of_mem ((hkeys b).mp hb).1]
      exact hlt
    by_cases hproto : v.candidateId = "__proto__"
    · rw [countVote_proto _ v hproto]
      refine ⟨List.Pairwise.imp_of_mem (fun {a b} ha hb hlt => hmono a b ha hb hlt) hord, ?_, ?_⟩
      · intro c
        rw [hkeys c, List.mem_append, List.mem_singleton, hproto]
        constructor
        · rintro ⟨h1, h2⟩
          exact ⟨Or.inl h1, h2⟩
        · rintro ⟨h1 | h1, h2⟩
          · exact ⟨h1, h2⟩
          · exact absurd h1 h2
      · intro p hp
        have hp1 : p.1 ≠ "__proto__" :=
          ((hkeys p.1).mp (List.mem_map.mpr ⟨p, hp, rfl⟩)).2
        have hne : (v.candidateId == p.1) = false := by
          rw [hproto]
          simpa using fun h => hp1 h.symm
        rw [hcount p hp, List.count_append, List.count_singleton, hne]
        simp
    · rw [countVote_of_ne_proto _ v hproto]
      have hkey' := keys_setOwn (vs.foldl countVote []) v.candidateId
        (orZeroPlusOne (getProperty (vs.foldl countVote []) v.candidateId))
      refine ⟨?_, ?_, ?_⟩
      · rw [hkey']
        by_cases hin : v.candidateId ∈ (vs.foldl countVote []).map Prod.fst
        · rw [if_pos hin]
          exact List.Pairwise.imp_of_mem (fun {a b} ha hb hlt => hmono a b ha hb hlt) hord
        · rw [if_neg hin, List.pairwise_append]
          refine ⟨List.Pairwise.imp_of_mem (fun {a b} ha hb hlt => hmono a b ha hb hlt) hord,
            List.pairwise_singleton _ _, ?_⟩
          intro a ha b hb
          rw [List.mem_singleton] at hb
          subst hb
          have hnot : v.candidateId ∉ vs.map (·.candidateId) :=
            fun h => hin ((hkeys _).mpr ⟨h, hproto⟩)
          rw [List.indexOf_append_of_mem ((hkeys a).mp ha).1,
            List.indexOf_append_of_not_mem hnot]
          exact lt_of_lt_of_le (List.indexOf_lt_length.mpr ((hkeys a).mp ha).1)
            (Nat.le_add_right _ _)
      · intro c
        rw [hkey']
        by_cases hin : v.candidateId ∈ (vs.foldl countVote []).map Prod.fst
        · rw [if_pos hin, List.mem_append, List.mem_singleton, hkeys c]
          constructor
          · rintro ⟨h1, h2⟩
            exact ⟨Or.inl h1, h2⟩
          · rintro ⟨h1 | h1, h2⟩
            · exact ⟨h1, h2⟩
            · rw [h1]
              exact (hkeys _).mp hin
        · rw [if_neg hin, List.mem_append, List.mem_singleton, List.mem_append,
            List.mem_singleton, hkeys c]
          constructor
          · rintro (⟨h1, h2⟩ | h1)
            · exact ⟨Or.inl h1, h2⟩
            · exact ⟨Or.inr h1, h1 ▸ hproto⟩
          · rintro ⟨h1 | h1, h2⟩
            · exact Or.inl ⟨h1, h2⟩
            · exact Or.inr h1
      · intro p hp
        rw [List.count_append, List.count_singleton]
        rcases mem_setOwn _ _ _ hnd p hp with ⟨h1, h2⟩ | h1
        · have hne : (v.candidateId == p.1) = false := by
            simpa using fun h => h1 h.symm
          rw [hcount p h2, hne]
          simp
        · subst h1
          simp only [beq_self_eq_true, if_true]
          cases hl : (vs.foldl countVote []).lookup v.candidateId with
          | some w =>
            have hw := hcount _ (mem_of_lookup_eq_some _ _ _ hl)
            simp only at hw
            rw [getProperty_of_lookup_eq_some _ _ _ hl, hw]
            by_cases hc : objectPrototypeKeys.contains v.candidateId = true
            · simp only [hc, if_true, orZeroPlusOne]
            · simp only [hc, if_false, orZeroPlusOne]
              rfl
          | none =>
            have hnot : v.candidateId ∉ vs.map (·.candidateId) := fun h =>
              not_mem_keys_of_lookup_eq_none _ _ hl ((hkeys _).mpr ⟨h, hproto⟩)
            have hzero : (vs.map (·.candidateId)).count v.candidateId = 0 :=
              List.count_eq_zero.mpr hnot
            rw [getProperty_of_lookup_eq_none _ _ hl, hzero]
            by_cases hc : objectPrototypeKeys.contains v.candidateId = true
            · simp only [hc, if_true, orZeroPlusOne]
            · simp only [hc, if_false, orZeroPlusOne]
              rfl

/-- The keys of the dictionary of an election are the candidate ids of its votes, except
`__proto__`. -/
theorem mem_keys_candidateVotes (s : State) (electionId c : Id) :
    c ∈ (candidateVotes s electionId).map Prod.fst ↔
      (∃ v ∈ s.votes, v.electionId = electionId ∧ v.candidateId = c) ∧ c ≠ "__proto__" := by
  obtain ⟨-, hkeys, -⟩ :=
    foldl_countVote_invariant (s.votes.filter fun v => v.electionId == electionId)
  rw [candidateVotes, hkeys c]
  simp only [List.mem_map, List.mem_filter, beq_iff_eq]
  constructor
  · rintro ⟨⟨v, ⟨hv, he⟩, hc⟩, hp⟩
    exact ⟨⟨v, hv, he, hc⟩, hp⟩
  · rintro ⟨⟨v, hv, he, hc⟩, hp⟩
    exact ⟨⟨v, ⟨hv, he⟩, hc⟩, hp⟩

/-- The keys of the dictionary of an election stand in the order in which they first
appear among the votes of the election. -/
theorem keys_candidateVotes_pairwise (s : State) (electionId : Id) :
    ((candidateVotes s electionId).map Prod.fst).Pairwise fun a b =>
      firstAppearance s electionId a < firstAppearance s electionId b :=
  (foldl_countVote_invariant (s.votes.filter fun v => v.electionId == electionId)).1

/-- What the dictionary of an election holds under a key: a string when the key names a
method of `Object.prototype`, else the number of the election's votes for that key. -/
theorem value_candidateVotes (s : State) (electionId : Id) (p : Id × Value)
    (hp : p ∈ candidateVotes s electionId) :
    p.2 =
      if objectPrototypeKeys.contains p.1 then
        Value.text p.1 (s.votes.filter fun v =>
          v.electionId == electionId && v.candidateId == p.1).length
      else
        Value.number (s.votes.filter fun v =>
          v.electionId == electionId && v.candidateId == p.1).length := by
  obtain ⟨-, -, hcount⟩ :=
    foldl_countVote_invariant (s.votes.filter fun v => v.electionId == electionId)
  have hlen : ((s.votes.filter fun v => v.electionId == electionId).map
      (·.candidateId)).count p.1 =
      (s.votes.filter fun v => v.electionId == electionId && v.candidateId == p.1).length := by
    rw [List.count_eq_countP, List.countP_map, List.countP_eq_length_filter, List.filter_filter]
    congr 1
    apply List.filter_congr
    intro v _
    simp [Bool.and_comm]
  rw [hcount p hp, hlen]

theorem contains_objectPrototypeKeys (key : Id) :
    objectPrototypeKeys.contains key = true ↔
      key = "__proto__" ∨ key ∈ objectPrototypeMethods := by
  simp [objectPrototypeKeys]

/-- When no vote of the election names a method of `Object.prototype`, every key of the
dictionary holds the number of the election's votes for it. -/
theorem number_candidateVotes (s : State) (electionId : Id)
    (hkeys : ∀ v ∈ s.votes, v.electionId = electionId → v.candidateId ∉ objectPrototypeMethods)
    (p : Id × Value) (hp : p ∈ candidateVotes s electionId) :
    p.2 = Value.number (s.votes.filter fun v =>
      v.electionId == electionId && v.candidateId == p.1).length := by
  have hmem := (mem_keys_candidateVotes s electionId p.1).mp (List.mem_map.mpr ⟨p, hp, rfl⟩)
  obtain ⟨⟨v, hv, he, hc⟩, hproto⟩ := hmem
  have hno : ¬ objectPrototypeKeys.contains p.1 = true := by
    rw [contains_objectPrototypeKeys]
    rintro (h | h)
    · exact hproto h
    · exact hkeys v hv he (hc ▸ h)
  rw [value_candidateVotes s electionId p hp, if_neg hno]

theorem objectEntries_perm (obj : List (Id × Value)) : (objectEntries obj).Perm obj := by
  unfold objectEntries
  have h1 := List.perm_insertionSort indexAscending
    (obj.filter fun p => (arrayIndex p.1).isSome)
  have h2 : (obj.filter fun p => (arrayIndex p.1).isNone) =
      obj.filter (fun p => !(arrayIndex p.1).isSome) := by
    apply List.filter_congr
    intro p _
    cases arrayIndex p.1 <;> rfl
  rw [h2]
  exact (h1.append_right _).trans (List.filter_append_perm _ _)

/-- An array index is the number whose decimal numeral the key is. -/
theorem toString_of_arrayIndex (key : String) (n : Nat) (h : arrayIndex key = some n) :
    toString n = key := by
  unfold arrayIndex at h
  simp only at h
  split at h
  · rename_i hc
    simp only [Option.some.injEq] at h
    subst h
    simp only [Bool.and_eq_true, beq_iff_eq] at hc
    exact hc.1
  · simp at h

/-- The list `Object.entries` of the dictionary of an election stands in the order
`entriesBefore`. -/
theorem objectEntries_candidateVotes_pairwise (s : State) (electionId : Id) :
    (objectEntries (candidateVotes s electionId)).Pairwise fun p q =>
      entriesBefore s electionId p.1 q.1 := by
  have hord := keys_candidateVotes_pairwise s electionId
  have hnd : ((candidateVotes s electionId).map Prod.fst).Nodup :=
    nodup_of_pairwise_indexOf_lt hord
  rw [List.pairwise_map] at hord
  unfold objectEntries
  rw [List.pairwise_append]
  refine ⟨?_, ?_, ?_⟩
  · have hsorted := List.sorted_insertionSort indexAscending
      ((candidateVotes s electionId).filter fun p => (arrayIndex p.1).isSome)
    have hperm := List.perm_insertionSort indexAscending
      ((candidateVotes s electionId).filter fun p => (arrayIndex p.1).isSome)
    have hnd' : (((candidateVotes s electionId).filter
        fun p => (arrayIndex p.1).isSome).insertionSort indexAscending).Pairwise
        fun p q => p.1 ≠ q.1 := by
      rw [← List.pairwise_map]
      have hsub : ((candidateVotes s electionId).filter
          fun p => (arrayIndex p.1).isSome).map Prod.fst |>.Nodup :=
        hnd.sublist ((List.filter_sublist _).map _)
      exact (hperm.map Prod.fst).nodup_iff.mpr hsub
    refine List.Pairwise.imp_of_mem ?_ (List.Pairwise.and hsorted hnd')
    intro p q hp hq hpq
    have hp' := (List.mem_filter.mp (hperm.mem_iff.mp hp)).2
    have hq' := (List.mem_filter.mp (hperm.mem_iff.mp hq)).2
    obtain ⟨i, hi⟩ := Option.isSome_iff_exists.mp hp'
    obtain ⟨j, hj⟩ := Option.isSome_iff_exists.mp hq'
    have hle : i ≤ j := by
      have := hpq.1
      simpa [indexAscending, hi, hj] using this
    have hne : i ≠ j := by
      intro h
      apply hpq.2
      rw [← toString_of_arrayIndex _ _ hi, ← toString_of_arrayIndex _ _ hj, h]
    simp only [entriesBefore, hi, hj]
    omega
  · have hsub : ((candidateVotes s electionId).filter
        fun p => (arrayIndex p.1).isNone).Sublist (candidateVotes s electionId) :=
      List.filter_sublist _
    refine List.Pairwise.imp_of_mem ?_ (hord.sublist hsub)
    intro p q hp hq hpq
    have hp' := (List.mem_filter.mp hp).2
    have hq' := (List.mem_filter.mp hq).2
    simp only [Option.isNone_iff_eq_none] at hp' hq'
    simp only [entriesBefore, hp', hq']
    exact hpq
  · intro p hp q hq
    have hperm := List.perm_insertionSort indexAscending
      ((candidateVotes s electionId).filter fun p => (arrayIndex p.1).isSome)
    have hp' := (List.mem_filter.mp (hperm.mem_iff.mp hp)).2
    have hq' := (List.mem_filter.mp hq).2
    obtain ⟨i, hi⟩ := Option.isSome_iff_exists.mp hp'
    simp only [Option.isNone_iff_eq_none] at hq'
    simp only [entriesBefore, hi, hq']

/-- The results of an election depend on the users and on the votes of that election. -/
theorem getElectionResults_congr (s t : State) (electionId : Id) (hu : t.users = s.users)
    (hv : (t.votes.filter fun v => v.electionId == electionId) =
      s.votes.filter fun v => v.electionId == electionId) :
    getElectionResults t electionId = getElectionResults s electionId := by
  have hcv : candidateVotes t electionId = candidateVotes s electionId := by
    unfold candidateVotes
    rw [hv]
  have hentry : toResultEntry t = toResultEntry s := by
    funext p
    simp [toResultEntry, hu]
  unfold getElectionResults
  rw [hcv, hentry]

/-- The entries of the result list come from the entries of the dictionary. -/
theorem mem_getElectionResults (s : State) (electionId : Id) (r : ResultEntry) :
    r ∈ getElectionResults s electionId ↔
      ∃ p ∈ candidateVotes s electionId, toResultEntry s p = r := by
  unfold getElectionResults
  rw [(List.perm_insertionSort votesDescending _).mem_iff, List.mem_map]
  constructor
  · rintro ⟨p, hp, hr⟩
    exact ⟨p, (objectEntries_perm _).mem_iff.mp hp, hr⟩
  · rintro ⟨p, hp, hr⟩
    exact ⟨p, (objectEntries_perm _).mem_iff.mpr hp, hr⟩

theorem filter_insertionSort_count (l : List (Id × Nat)) (n : Nat) :
    (l.insertionSort countDescending).filter (fun p => p.2 == n) =
      l.filter (fun p => p.2 == n) := by
  have hsub : (l.filter fun p => p.2 == n).Sublist (l.insertionSort countDescending) := by
    apply List.sublist_insertionSort
    · rw [List.pairwise_iff_forall_sublist]
      intro a b hab
      have ha : a ∈ l.filter fun p => p.2 == n := hab.subset (by simp)
      have hb : b ∈ l.filter fun p => p.2 == n := hab.subset (by simp)
      simp only [List.mem_filter, beq_iff_eq] at ha hb
      simp [countDescending, ha.2, hb.2]
    · exact List.filter_sublist _
  have hsub' := hsub.filter (fun p => p.2 == n)
  rw [List.filter_filter] at hsub'
  simp only [Bool.and_self] at hsub'
  have hlen : (l.filter fun p => p.2 == n).length =
      ((l.insertionSort countDescending).filter fun p => p.2 == n).length :=
    (((List.perm_insertionSort countDescending l).filter _).length_eq).symm
  exact (hsub'.eq_of_length hlen).symm

/-- A stable sort by descending count: entries with equal counts keep the order they had
before the sort. -/
theorem insertionSort_countDescending_pairwise (l : List (Id × Nat)) (R : Id → Id → Prop)
    (hl : l.Pairwise fun a b => R a.1 b.1) :
    (l.insertionSort countDescending).Pairwise fun a b =>
      b.2 < a.2 ∨ (a.2 = b.2 ∧ R a.1 b.1) := by
  have hsorted := List.sorted_insertionSort countDescending l
  rw [List.pairwise_iff_forall_sublist]
  intro a b hab
  have hle : b.2 ≤ a.2 := (List.pairwise_iff_forall_sublist.mp hsorted) hab
  rcases Nat.lt_or_eq_of_le hle with hlt | heq
  · exact Or.inl hlt
  · right
    refine ⟨heq.symm, ?_⟩
    have hf := hab.filter (fun p => p.2 == a.2)
    rw [filter_insertionSort_count] at hf
    have hab' : [a, b].filter (fun p => p.2 == a.2) = [a, b] := by
      simp [heq]
    rw [hab'] at hf
    exact (List.pairwise_iff_forall_sublist.mp hl) (hf.trans (List.filter_sublist _))

/-- When no vote of the election names a method of `Object.prototype`, the result list is
the stable sort by descending count of the list `Object.entries` of the dictionary, read
as pairs of a key and a number. -/
theorem getElectionResults_eq_ranked (s : State) (electionId : Id)
    (hkeys : ∀ v ∈ s.votes, v.electionId = electionId →
      v.candidateId ∉ objectPrototypeMethods) :
    (((objectEntries (candidateVotes s electionId)).map
        fun p => (p.1, p.2.toNumber.getD 0)).map
        fun p : Id × Nat => (p.1, Value.number p.2)) =
        objectEntries (candidateVotes s electionId) ∧
      getElectionResults s electionId =
        (((objectEntries (candidateVotes s electionId)).map
          fun p => (p.1, p.2.toNumber.getD 0)).insertionSort countDescending).map
          fun p => toResultEntry s (p.1, Value.number p.2) := by
  have hnum : ∀ p ∈ objectEntries (candidateVotes s electionId),
      (p.1, Value.number (p.2.toNumber.getD 0)) = p := by
    intro p hp
    have hp' := (objectEntries_perm _).mem_iff.mp hp
    have := number_candidateVotes s electionId hkeys p hp'
    obtain ⟨k, c⟩ := p
    simp only at this
    subst this
    rfl
  have hmap : ((objectEntries (candidateVotes s electionId)).map
        fun p => (p.1, p.2.toNumber.getD 0)).map
        (fun p : Id × Nat => (p.1, Value.number p.2)) =
        objectEntries (candidateVotes s electionId) := by
    rw [List.map_map]
    conv_rhs => rw [← List.map_id (objectEntries (candidateVotes s electionId))]
    apply List.map_congr_left
    intro p hp
    exact hnum p hp
  refine ⟨hmap, ?_⟩
  rw [List.map_insertionSort countDescending votesDescending
    (fun p : Id × Nat => toResultEntry s (p.1, Value.number p.2)) _ (fun a _ b _ => Iff.rfl)]
  unfold getElectionResults
  congr 1
  rw [List.map_map]
  apply List.map_congr_left
  intro p hp
  simp only [Function.comp]
  rw [hnum p hp]

/-- The tally of an election none of whose votes names a property of `Object.prototype`:
the result list has one entry per entry of the dictionary, the dictionary has exactly one
key per distinct `candidateId` among the votes of the election, each with the number of
the election's votes for that candidate, and the counts sum to the number of votes of the
election. -/
theorem getElectionResults_tally_of_plain_keys (s : State) (electionId : Id)
    (hkeys : ∀ v ∈ s.votes, v.electionId = electionId →
      v.candidateId ∉ objectPrototypeKeys) :
    (getElectionResults s electionId).Perm
        ((candidateVotes s electionId).map (toResultEntry s)) ∧
      ((candidateVotes s electionId).map Prod.fst).Nodup ∧
      (∀ c, c ∈ (candidateVotes s electionId).map Prod.fst ↔
        ∃ v ∈ s.votes, v.electionId = electionId ∧ v.candidateId = c) ∧
      (∀ p ∈ candidateVotes s electionId,
        p.2 = Value.number (s.votes.filter fun v =>
          v.electionId == electionId && v.candidateId == p.1).length) ∧
      ((getElectionResults s electionId).map fun r => r.votes.toNumber.getD 0).sum =
        (s.votes.filter fun v => v.electionId == electionId).length := by
  obtain ⟨hord, hmem, hcount⟩ :=
    foldl_countVote_invariant (s.votes.filter fun v => v.electionId == electionId)
  have hnd : ((candidateVotes s electionId).map Prod.fst).Nodup :=
    nodup_of_pairwise_indexOf_lt hord
  have hperm : (getElectionResults s electionId).Perm
      ((candidateVotes s electionId).map (toResultEntry s)) :=
    (List.perm_insertionSort _ _).trans ((objectEntries_perm _).map _)
  have hmethods : ∀ v ∈ s.votes, v.electionId = electionId →
      v.candidateId ∉ objectPrototypeMethods := by
    intro v hv he h
    exact hkeys v hv he (List.mem_cons_of_mem _ h)
  have hin : ∀ c, c ∈ (candidateVotes s electionId).map Prod.fst ↔
      c ∈ (s.votes.filter fun v => v.electionId == electionId).map (·.candidateId) := by
    intro c
    rw [candidateVotes, hmem c]
    constructor
    · exact fun h => h.1
    · intro h
      refine ⟨h, ?_⟩
      obtain ⟨v, hv, hc⟩ := List.mem_map.mp h
      rw [List.mem_filter, beq_iff_eq] at hv
      intro hp
      exact hkeys v hv.1 hv.2 (by rw [hc, hp]; exact List.mem_cons_self _ _)
  refine ⟨hperm, hnd, ?_, number_candidateVotes s electionId hmethods, ?_⟩
  · intro c
    rw [hin c]
    simp only [List.mem_map, List.mem_filter, beq_iff_eq]
    constructor
    · rintro ⟨v, ⟨hv, he⟩, hc⟩
      exact ⟨v, hv, he, hc⟩
    · rintro ⟨v, hv, he, hc⟩
      exact ⟨v, ⟨hv, he⟩, hc⟩
  · rw [(hperm.map _).sum_eq, List.map_map]
    have hval : ∀ p ∈ candidateVotes s electionId,
        ((fun r : ResultEntry => r.votes.toNumber.getD 0) ∘ toResultEntry s) p =
          ((s.votes.filter fun v => v.electionId == electionId).map
            (·.candidateId)).count p.1 := by
      intro p hp
      have hno : ¬ objectPrototypeKeys.contains p.1 = true := by
        intro h
        have hp1 := (hin p.1).mp (List.mem_map.mpr ⟨p, hp, rfl⟩)
        obtain ⟨v, hv, hc⟩ := List.mem_map.mp hp1
        rw [List.mem_filter, beq_iff_eq] at hv
        apply hkeys v hv.1 hv.2
        rw [hc]
        simpa using h
      have := hcount p hp
      rw [if_neg hno] at this
      simp [toResultEntry, this, Value.toNumber]
    rw [List.map_congr_left hval]
    have hkeysPerm : ((candidateVotes s electionId).map Prod.fst).Perm
        ((s.votes.filter fun v => v.electionId == electionId).map (·.candidateId)).dedup := by
      rw [List.perm_ext_iff_of_nodup hnd (List.nodup_dedup _)]
      intro c
      rw [hin c, List.mem_dedup]
    have hsum := List.sum_map_count_dedup_eq_length
      ((s.votes.filter fun v => v.electionId == electionId).map (·.candidateId))
    rw [List.length_map] at hsum
    rw [← hsum, ← (hkeysPerm.map _).sum_eq, List.map_map]
    rfl

/-- C4 fails on the code. With `V2` having voted for `V1` in `E1`, the logged-in `V1`
casts a vote in `E1` for the candidate id `__proto__`: `castVote` stores it, and the result
list of `E1` has the one entry of `V1` with count 1, no entry for `__proto__`, so that the
counts sum to 1 with two votes in the election.  Cast for `constructor` instead, the vote
gets an entry whose count is a string. -/
theorem getElectionResults_misses_prototype_keys :
    ((castVote sampleEnv candidateSession "E1" "__proto__").1.votes.map
        fun v => (v.voterId, v.electionId, v.candidateId)) =
        [("V2", "E1", "V1"), ("V1", "E1", "__proto__")] ∧
      getElectionResults (castVote sampleEnv candidateSession "E1" "__proto__").1 "E1" =
        [{ candidate := some (sampleVoter "V1" "alice"), votes := Value.number 1 }] ∧
      ((getElectionResults (castVote sampleEnv candidateSession "E1" "__proto__").1 "E1").map
        fun r => r.votes.toNumber.getD 0).sum = 1 ∧
      getElectionResults (castVote sampleEnv candidateSession "E1" "constructor").1 "E1" =
        [{ candidate := some (sampleVoter "V1" "alice"), votes := Value.number 1 },
          { candidate := none, votes := Value.text "constructor" 1 }] := by
  refine ⟨by decide, by decide, by decide, by decide⟩

/-- C5 as stated fails on the code. In `E1` a vote for `10` is followed by a vote for `9`;
both entries have count 1, and the result list has the entry of `9` before the entry of
`10`, although `10` appears first among the votes of `E1`. -/
theorem getElectionResults_index_keys_first :
    firstAppearance indexIdsState "E1" "10" < firstAppearance indexIdsState "E1" "9" ∧
      getElectionResults indexIdsState "E1" =
        [{ candidate := some (sampleVoter "9" "nine"), votes := Value.number 1 },
          { candidate := some (sampleVoter "10" "ten"), votes := Value.number 1 }] := by
  refine ⟨by decide, by decide⟩

/-- C5, amended. When no vote of election `electionId` names a method of
`Object.prototype` as its candidate, the list `getElectionResults(electionId)` returns is
the image of the dictionary entries ranked by count: it is sorted by vote count in
descending order, and entries with equal counts stand in the order of `Object.entries`,
that is array indices first in ascending order, then the other ids in the order in which
they first appear among the votes of the election; when no candidate id of the election is
an array index, entries with equal counts stand in the order of first appearance. -/
theorem getElectionResults_order (s : State) (electionId : Id)
    (hkeys : ∀ v ∈ s.votes, v.electionId = electionId →
      v.candidateId ∉ objectPrototypeMethods) :
    ∃ ranked : List (Id × Nat),
      (ranked.map fun p => (p.1, Value.number p.2)).Perm (candidateVotes s electionId) ∧
      getElectionResults s electionId =
        ranked.map (fun p => toResultEntry s (p.1, Value.number p.2)) ∧
      ranked.Pairwise (fun a b => b.2 ≤ a.2) ∧
      ranked.Pairwise (fun a b =>
        b.2 < a.2 ∨ (a.2 = b.2 ∧ entriesBefore s electionId a.1 b.1)) ∧
      ((∀ v ∈ s.votes, v.electionId = electionId → arrayIndex v.candidateId = none) →
        ranked.Pairwise fun a b =>
          b.2 < a.2 ∨
            (a.2 = b.2 ∧
              firstAppearance s electionId a.1 < firstAppearance s electionId b.1)) := by
  obtain ⟨hmap, hres⟩ := getElectionResults_eq_ranked s electionId hkeys
  have hperm := List.perm_insertionSort countDescending
    ((objectEntries (candidateVotes s electionId)).map fun p => (p.1, p.2.toNumber.getD 0))
  have hentries : ((objectEntries (candidateVotes s electionId)).map
      fun p => (p.1, p.2.toNumber.getD 0)).Pairwise
      fun a b => entriesBefore s electionId a.1 b.1 := by
    rw [List.pairwise_map]
    exact objectEntries_candidateVotes_pairwise s electionId
  have hrank := insertionSort_countDescending_pairwise _ (entriesBefore s electionId) hentries
  refine ⟨_, ?_, hres, List.sorted_insertionSort countDescending _, hrank, ?_⟩
  · refine ((hperm.map _).trans ?_).trans (objectEntries_perm _)
    rw [hmap]
  · intro hno
    refine List.Pairwise.imp_of_mem ?_ hrank
    intro a b ha hb hab
    have hkey : ∀ p ∈ ((objectEntries (candidateVotes s electionId)).map
        fun p => (p.1, p.2.toNumber.getD 0)).insertionSort countDescending,
        arrayIndex p.1 = none := by
      intro p hp
      have hp' := hperm.mem_iff.mp hp
      obtain ⟨q, hq, hqp⟩ := List.mem_map.mp hp'
      have hq' := (objectEntries_perm _).mem_iff.mp hq
      obtain ⟨⟨v, hv, he, hc⟩, -⟩ :=
        (mem_keys_candidateVotes s electionId q.1).mp (List.mem_map.mpr ⟨q, hq', rfl⟩)
      rw [← hqp]
      simp only
      rw [← hc]
      exact hno v hv he
    rcases hab with hlt | ⟨heq, hbefore⟩
    · exact Or.inl hlt
    · right
      refine ⟨heq, ?_⟩
      simpa [entriesBefore, hkey a ha, hkey b hb] using hbefore

/-- C5, amended, at the store with four votes: no vote of `E1` names a method of
`Object.prototype` and no candidate id of `E1` is an array index, so the result list of
`E1` is ranked by count with ties in the order of first appearance. -/
theorem getElectionResults_order_witness :
    (∀ v ∈ tallyState.votes, v.electionId = "E1" →
        v.candidateId ∉ objectPrototypeMethods) ∧
      (∀ v ∈ tallyState.votes, v.electionId = "E1" → arrayIndex v.candidateId = none) ∧
      ∃ ranked : List (Id × Nat),
        getElectionResults tallyState "E1" =
          ranked.map (fun p => toResultEntry tallyState (p.1, Value.number p.2)) ∧
        ranked.Pairwise (fun a b => b.2 ≤ a.2) ∧
        ranked.Pairwise fun a b =>
          b.2 < a.2 ∨
            (a.2 = b.2 ∧
              firstAppearance tallyState "E1" a.1 < firstAppearance tallyState "E1" b.1) :=
  ⟨by decide, by decide,
    let ⟨ranked, _, hres, hsorted, _, hfirst⟩ :=
      getElectionResults_order tallyState "E1" (by decide)
    ⟨ranked, hres, hsorted, hfirst (by decide)⟩⟩

/-! ## Theorems: casting a vote -/

/-- C3. When the logged-in user already has a vote in election `electionId`, `castVote`
fails with the "Already Voted" error for every candidate id, leaves the whole store (so the
votes table) unchanged, and so leaves the results of every election unchanged. -/
theorem castVote_second_vote_fails (env : Env) (s : State) (currentUser : User)
    (electionId candidateId : Id) (hcu : s.currentUser = some currentUser)
    (hex : ∃ v ∈ s.votes, v.voterId = currentUser.id ∧ v.electionId = electionId) :
    castVote env s electionId candidateId = (s, .error "Already Voted") ∧
      (castVote env s electionId candidateId).1.votes = s.votes ∧
      ∀ e, getElectionResults (castVote env s electionId candidateId).1 e =
        getElectionResults s e := by
  have h := castVote_eq_of_vote env s currentUser electionId candidateId hcu hex
  rw [h]
  exact ⟨rfl, rfl, fun _ => rfl⟩

/-- C3 at the sample store: `V2`, who has voted for `V1` in `E1`, votes again in `E1` for
`none-of-above`. -/
theorem castVote_second_vote_fails_witness :
    sampleState.currentUser = some (sampleVoter "V2" "bob") ∧
      (∃ v ∈ sampleState.votes, v.voterId = (sampleVoter "V2" "bob").id ∧ v.electionId = "E1") ∧
      castVote sampleEnv sampleState "E1" "none-of-above" =
        (sampleState, .error "Already Voted") ∧
      (castVote sampleEnv sampleState "E1" "none-of-above").1.votes = sampleState.votes ∧
      getElectionResults (castVote sampleEnv sampleState "E1" "none-of-above").1 "E1" =
        getElectionResults sampleState "E1" :=
  have h := castVote_second_vote_fails sampleEnv sampleState (sampleVoter "V2" "bob") "E1"
    "none-of-above" rfl (by decide)
  ⟨rfl, by decide, h.1, h.2.1, h.2.2 "E1"⟩

/-- C10. When the logged-in user has no vote in election `electionId`, `castVote` appends
exactly one vote, with `voterId` the user's id and the given `electionId` and
`candidateId`, keeps every earlier vote in place and changes nothing else; no condition is
put on the candidate id or on the election. -/
theorem castVote_appends_vote (env : Env) (s : State) (currentUser : User)
    (electionId candidateId : Id) (hcu : s.currentUser = some currentUser)
    (hno : ∀ v ∈ s.votes, ¬ (v.voterId = currentUser.id ∧ v.electionId = electionId)) :
    ∃ vote : Vote,
      castVote env s electionId candidateId =
        ({ s with votes := s.votes ++ [vote] }, .success "Vote Cast Successfully") ∧
      vote.voterId = currentUser.id ∧ vote.electionId = electionId ∧
      vote.candidateId = candidateId :=
  ⟨newVote env currentUser electionId candidateId,
    castVote_eq_of_no_vote env s currentUser electionId candidateId hcu hno, rfl, rfl, rfl⟩

/-- C10 at a store where `E2` is closed: `V2` votes in `E2` for an id that is no user. -/
theorem castVote_appends_vote_witness :
    closedElectionState.currentUser = some (sampleVoter "V2" "bob") ∧
      (∀ v ∈ closedElectionState.votes,
        ¬ (v.voterId = (sampleVoter "V2" "bob").id ∧ v.electionId = "E2")) ∧
      ∃ vote : Vote,
        castVote sampleEnv closedElectionState "E2" "nobody" =
          ({ closedElectionState with votes := closedElectionState.votes ++ [vote] },
            .success "Vote Cast Successfully") ∧
        vote.voterId = "V2" ∧ vote.electionId = "E2" ∧ vote.candidateId = "nobody" :=
  ⟨rfl, by decide,
    castVote_appends_vote sampleEnv closedElectionState (sampleVoter "V2" "bob") "E2" "nobody"
      rfl (by decide)⟩

/-! ## Theorems: election lifecycle -/

theorem findIdx_of_find?_eq_some {α : Type} (p : α → Bool) :
    ∀ (l : List α) (x : α), l.find? p = some x → l[l.findIdx p]? = some x := by
  intro l
  induction l with
  | nil => intro x h; simp at h
  | cons a rest ih =>
    intro x h
    rw [List.find?_cons] at h
    rw [List.findIdx_cons]
    cases hp : p a with
    | true =>
      rw [hp] at h
      simp only [Option.some.injEq] at h
      simp [h]
    | false =>
      rw [hp] at h
      simp only [cond_false, List.getElem?_cons_succ]
      exact ih x h

theorem findIdx_lt_of_find?_eq_some {α : Type} (p : α → Bool) (l : List α) (x : α)
    (h : l.find? p = some x) : l.findIdx p < l.length := by
  have := findIdx_of_find?_eq_some p l x h
  exact (List.getElem?_eq_some_iff.mp this).1

theorem getElem_findIdx_of_find?_eq_some {α : Type} (p : α → Bool) (l : List α) (x : α)
    (h : l.find? p = some x) (hlt : l.findIdx p < l.length) : l[l.findIdx p] = x := by
  have := findIdx_of_find?_eq_some p l x h
  rw [List.getElem?_eq_getElem hlt] at this
  exact Option.some.inj this

/-- What `toggleElection` returns when the election the id designates is active. -/
theorem toggleElection_eq_of_active (env : Env) (s : State) (electionId : Id) (E : Election)
    (hfind : s.elections.find? (fun e => e.id == electionId) = some E)
    (hact : E.active = true) :
    toggleElection env s electionId =
      ({ s with
          elections := s.elections.modify
            (fun e => { e with active := !e.active, closedAt := some env.iso })
            (s.elections.findIdx fun e => e.id == electionId)
          applications := cleanupElectionCandidateStatus env s.applications electionId },
        .success "Election Updated") := by
  have hlt := findIdx_lt_of_find?_eq_some _ _ _ hfind
  have hget := getElem_findIdx_of_find?_eq_some _ _ _ hfind hlt
  unfold toggleElection
  simp only [hlt, dite_true, hget, hact, if_true]

/-- What `toggleElection` returns when the election the id designates is closed. -/
theorem toggleElection_eq_of_closed (env : Env) (s : State) (electionId : Id) (E : Election)
    (hfind : s.elections.find? (fun e => e.id == electionId) = some E)
    (hact : E.active = false) :
    toggleElection env s electionId =
      ({ s with
          elections := s.elections.modify
            (fun e => { e with active := !e.active, closedAt := none })
            (s.elections.findIdx fun e => e.id == electionId) },
        .success "Election Updated") := by
  have hlt := findIdx_lt_of_find?_eq_some _ _ _ hfind
  have hget := getElem_findIdx_of_find?_eq_some _ _ _ hfind hlt
  unfold toggleElection
  simp only [hlt, dite_true, hget, hact, Bool.false_eq_true, if_false]

theorem cleanup_getElem? (env : Env) (applications : List Application) (electionId : Id)
    (j : Nat) (a : Application) (h : applications[j]? = some a) :
    (cleanupElectionCandidateStatus env applications electionId)[j]? =
      some (if a.electionId = electionId then
          { a with active := some false, electionClosed := some true, closedAt := some env.iso }
        else a) := by
  unfold cleanupElectionCandidateStatus
  rw [List.getElem?_map, h]
  by_cases he : a.electionId = electionId <;> simp [he]

theorem cleanup_map_id (env : Env) (applications : List Application) (electionId : Id) :
    (cleanupElectionCandidateStatus env applications electionId).map (·.id) =
      applications.map (·.id) := by
  unfold cleanupElectionCandidateStatus
  rw [List.map_map]
  apply List.map_congr_left
  intro a _
  by_cases he : a.electionId = electionId <;> simp [he]

theorem modify_getElem? {α : Type} (f : α → α) (l : List α) (i j : Nat) (e : α)
    (h : l[j]? = some e) : (l.modify f i)[j]? = some (if j = i then f e else e) := by
  rw [List.getElem?_modify, h]
  by_cases hji : j = i
  · simp [hji]
  · have : ¬ i = j := fun h' => hji h'.symm
    simp [hji, this]

/-- C6. Closing an active election with `toggleElection` sets its `active` to `false` and
its `closedAt`, leaves every other election as it was, sets `active = false`,
`electionClosed = true` and `closedAt` on every application of that election, leaves every
other application as it was, and deletes no application: the applications keep their ids
in the same order. -/
theorem toggleElection_close (env : Env) (s : State) (electionId : Id) (E : Election)
    (hfind : s.elections.find? (fun e => e.id == electionId) = some E)
    (hact : E.active = true) :
    (toggleElection env s electionId).1.elections[s.elections.findIdx fun e => e.id == electionId]?
        = some { E with active := false, closedAt := some env.iso } ∧
      (toggleElection env s electionId).1.elections.length = s.elections.length ∧
      (∀ (j : Nat) (e : Election), s.elections[j]? = some e →
        j ≠ (s.elections.findIdx fun e => e.id == electionId) →
        (toggleElection env s electionId).1.elections[j]? = some e) ∧
      (toggleElection env s electionId).1.applications.map (·.id) = s.applications.map (·.id) ∧
      (∀ (j : Nat) (a : Application), s.applications[j]? = some a →
        (toggleElection env s electionId).1.applications[j]? =
          some (if a.electionId = electionId then
              { a with active := some false, electionClosed := some true, closedAt := some env.iso }
            else a)) := by
  rw [toggleElection_eq_of_active env s electionId E hfind hact]
  have hE := findIdx_of_find?_eq_some _ _ _ hfind
  refine ⟨?_, ?_, ?_, ?_, ?_⟩
  · have := modify_getElem? (fun e : Election => { e with active := !e.active, closedAt := some env.iso })
      s.elections (s.elections.findIdx fun e => e.id == electionId) _ E hE
    simpa [hact] using this
  · simp
  · intro j e hj hne
    have := modify_getElem? (fun e : Election => { e with active := !e.active, closedAt := some env.iso })
      s.elections (s.elections.findIdx fun e => e.id == electionId) j e hj
    simpa [hne] using this
  · exact cleanup_map_id env s.applications electionId
  · intro j a hj
    exact cleanup_getElem? env s.applications electionId j a hj

/-- C6 at the sample store: closing `E1`, in which `V1` is a candidate. -/
theorem toggleElection_close_witness :
    sampleState.elections.find? (fun e => e.id == "E1") = some (sampleElection "E1" "Council" true) ∧
      (sampleElection "E1" "Council" true).active = true ∧
      (toggleElection sampleEnv sampleState "E1").1.elections =
        [{ sampleElection "E1" "Council" false with closedAt := some sampleEnv.iso },
          sampleElection "E2" "Senate" true] ∧
      (toggleElection sampleEnv sampleState "E1").1.applications.map (·.id) = ["A1"] ∧
      (toggleElection sampleEnv sampleState "E1").1.applications[0]? =
        some { sampleCandidacy "A1" "V1" "E1" with
          active := some false, electionClosed := some true, closedAt := some sampleEnv.iso } :=
  have h := toggleElection_close sampleEnv sampleState "E1" (sampleElection "E1" "Council" true)
    rfl rfl
  ⟨rfl, rfl, by decide, h.2.2.2.1, h.2.2.2.2 0 (sampleCandidacy "A1" "V1" "E1") rfl⟩

theorem mem_cleanup (env : Env) (applications : List Application) (electionId : Id)
    (a' : Application) (h : a' ∈ cleanupElectionCandidateStatus env applications electionId) :
    ∃ a ∈ applications,
      a' = if a.electionId = electionId then
          { a with active := some false, electionClosed := some true, closedAt := some env.iso }
        else a := by
  unfold cleanupElectionCandidateStatus at h
  rw [List.mem_map] at h
  obtain ⟨a, ha, rfl⟩ := h
  refine ⟨a, ha, ?_⟩
  by_cases he : a.electionId = electionId <;> simp [he]

theorem mem_modify {α : Type} (f : α → α) (l : List α) (i : Nat) (x : α)
    (h : x ∈ l.modify f i) : x ∈ l ∨ ∃ e, l[i]? = some e ∧ x = f e := by
  rw [List.mem_iff_getElem?] at h
  obtain ⟨j, hj⟩ := h
  rw [List.getElem?_modify] at hj
  cases hl : l[j]? with
  | none => rw [hl] at hj; simp at hj
  | some e =>
    rw [hl] at hj
    simp only [Option.map_eq_map, Option.map_some', Option.some.injEq] at hj
    by_cases hij : i = j
    · right
      subst hij
      exact ⟨e, hl, by simpa using hj.symm⟩
    · left
      simp only [hij, if_false] at hj
      subst hj
      exact List.mem_iff_getElem?.mpr ⟨j, hl⟩

/-- After an active election has been closed, an application is an active candidacy only
if it was one before and belongs to another election. -/
theorem activeCandidacy_after_close (env : Env) (s : State) (electionId : Id) (E : Election)
    (hfind : s.elections.find? (fun e => e.id == electionId) = some E)
    (hact : E.active = true) (user : User) (app : Application)
    (hmem : app ∈ (toggleElection env s electionId).1.applications)
    (hcand : IsActiveCandidacy (toggleElection env s electionId).1 user app) :
    app ∈ s.applications ∧ IsActiveCandidacy s user app ∧ app.electionId ≠ electionId := by
  rw [toggleElection_eq_of_active env s electionId E hfind hact] at hmem hcand
  simp only at hmem hcand
  obtain ⟨a, ha, rfl⟩ := mem_cleanup env s.applications electionId app hmem
  obtain ⟨hu, happ, hactive, e', he'mem, he'id, he'act⟩ := hcand
  by_cases he : a.electionId = electionId
  · simp [he] at hactive
  · simp only [he, if_false] at hu happ hactive he'id ⊢
    refine ⟨ha, ⟨hu, happ, hactive, ?_⟩, he⟩
    rcases mem_modify _ _ _ _ he'mem with hin | ⟨e, hget, rfl⟩
    · exact ⟨e', hin, he'id, he'act⟩
    · have hE := findIdx_of_find?_eq_some _ _ _ hfind
      rw [hE] at hget
      simp only [Option.some.injEq] at hget
      subst hget
      simp [hact] at he'act

theorem not_hasActiveCandidacy_iff_filter_nil (s : State) (user : User) :
    getUserActiveCandidacies s user = [] ↔ ¬ HasActiveCandidacy s user := by
  unfold getUserActiveCandidacies HasActiveCandidacy
  rw [List.filter_eq_nil_iff]
  constructor
  · rintro h ⟨app, hmem, hc⟩
    exact h app hmem ((activeCandidacy_pred_iff s user app).mpr hc)
  · intro h app hmem hp
    exact h ⟨app, hmem, (activeCandidacy_pred_iff s user app).mp hp⟩

/-- C7. For a user who is neither `admin` nor `super-admin` and whose active candidacies
are all in the active election `electionId` (and who has one), `getEffectiveUserRole` is
`candidate` before the close and `user.role` right after `toggleElection` has closed the
election, and the close leaves the `users` table as it was. -/
theorem effectiveRole_reverts_on_close (env : Env) (s : State) (electionId : Id) (E : Election)
    (user : User)
    (hfind : s.elections.find? (fun e => e.id == electionId) = some E)
    (hact : E.active = true)
    (hadmin : user.role ≠ "admin") (hsuper : user.role ≠ "super-admin")
    (hcand : HasActiveCandidacy s user)
    (honly : ∀ app ∈ s.applications, IsActiveCandidacy s user app → app.electionId = electionId) :
    getEffectiveUserRole s (some user) = some "candidate" ∧
      getEffectiveUserRole (toggleElection env s electionId).1 (some user) = some user.role ∧
      (toggleElection env s electionId).1.users = s.users := by
  have hrole : ¬ (user.role = "admin" ∨ user.role = "super-admin") := by
    rintro (h | h)
    · exact hadmin h
    · exact hsuper h
  have hafter : ¬ HasActiveCandidacy (toggleElection env s electionId).1 user := by
    rintro ⟨app, hmem, hc⟩
    obtain ⟨hin, hbefore, hne⟩ :=
      activeCandidacy_after_close env s electionId E hfind hact user app hmem hc
    exact hne (honly app hin hbefore)
  refine ⟨?_, ?_, ?_⟩
  · rw [getEffectiveUserRole_some, if_neg hrole, if_pos hcand]
  · rw [getEffectiveUserRole_some, if_neg hrole, if_neg hafter]
  · rw [toggleElection_eq_of_active env s electionId E hfind hact]

/-- C7 at the sample store: `V1`, whose only candidacy is in `E1`, when `E1` is closed. -/
theorem effectiveRole_reverts_on_close_witness :
    sampleState.elections.find? (fun e => e.id == "E1") = some (sampleElection "E1" "Council" true) ∧
      HasActiveCandidacy sampleState (sampleVoter "V1" "alice") ∧
      (∀ app ∈ sampleState.applications,
        IsActiveCandidacy sampleState (sampleVoter "V1" "alice") app → app.electionId = "E1") ∧
      getEffectiveUserRole sampleState (some (sampleVoter "V1" "alice")) = some "candidate" ∧
      getEffectiveUserRole (toggleElection sampleEnv sampleState "E1").1
        (some (sampleVoter "V1" "alice")) = some "voter" ∧
      (toggleElection sampleEnv sampleState "E1").1.users = sampleState.users :=
  ⟨rfl, by decide, by decide,
    effectiveRole_reverts_on_close sampleEnv sampleState "E1" (sampleElection "E1" "Council" true)
      (sampleVoter "V1" "alice") rfl rfl (by decide) (by decide) (by decide) (by decide)⟩

theorem findIdx_modify {α : Type} (p : α → Bool) (f : α → α) (hp : ∀ x, p (f x) = p x) :
    ∀ (l : List α) (i : Nat), (l.modify f i).findIdx p = l.findIdx p := by
  intro l
  induction l with
  | nil => intro i; cases i <;> rfl
  | cons a rest ih =>
    intro i
    cases i with
    | zero =>
      show (f a :: rest).findIdx p = (a :: rest).findIdx p
      rw [List.findIdx_cons, List.findIdx_cons, hp]
    | succ i =>
      show (a :: rest.modify f i).findIdx p = (a :: rest).findIdx p
      rw [List.findIdx_cons, List.findIdx_cons, ih]

theorem find?_modify_findIdx {α : Type} (p : α → Bool) (f : α → α) (hp : ∀ x, p (f x) = p x) :
    ∀ l : List α, (l.modify f (l.findIdx p)).find? p = (l.find? p).map f := by
  intro l
  induction l with
  | nil => rfl
  | cons a rest ih =>
    rw [List.findIdx_cons, List.find?_cons]
    cases hpa : p a with
    | true =>
      show (f a :: rest).find? p = _
      rw [List.find?_cons, hp, hpa]
      rfl
    | false =>
      show (a :: rest.modify f (rest.findIdx p)).find? p = _
      rw [List.find?_cons, hpa]
      exact ih

/-- The store after an active election has been closed and then reopened. -/
theorem toggleElection_twice_eq (env₁ env₂ : Env) (s : State) (electionId : Id) (E : Election)
    (hfind : s.elections.find? (fun e => e.id == electionId) = some E)
    (hact : E.active = true) :
    (toggleElection env₂ (toggleElection env₁ s electionId).1 electionId).1 =
      { s with
        elections := (s.elections.modify
            (fun e => { e with active := !e.active, closedAt := some env₁.iso })
            (s.elections.findIdx fun e => e.id == electionId)).modify
          (fun e => { e with active := !e.active, closedAt := none })
          (s.elections.findIdx fun e => e.id == electionId)
        applications := cleanupElectionCandidateStatus env₁ s.applications electionId } := by
  rw [toggleElection_eq_of_active env₁ s electionId E hfind hact]
  have hfind₁ : (s.elections.modify
      (fun e => { e with active := !e.active, closedAt := some env₁.iso })
      (s.elections.findIdx fun e => e.id == electionId)).find? (fun e => e.id == electionId) =
      some { E with active := !E.active, closedAt := some env₁.iso } := by
    rw [find?_modify_findIdx (fun e : Election => e.id == electionId)
      (fun e => { e with active := !e.active, closedAt := some env₁.iso }) (fun _ => rfl), hfind]
    rfl
  rw [toggleElection_eq_of_closed env₂ _ electionId _ hfind₁ (by simp [hact])]
  simp only
  rw [findIdx_modify (fun e : Election => e.id == electionId)
    (fun e => { e with active := !e.active, closedAt := some env₁.iso }) (fun _ => rfl)]

theorem find?_modify_of_eq_findIdx {α : Type} (p : α → Bool) (f : α → α)
    (hp : ∀ x, p (f x) = p x) (l : List α) (i : Nat) (hi : i = l.findIdx p) :
    (l.modify f i).find? p = (l.find? p).map f := by
  subst hi
  exact find?_modify_findIdx p f hp l

/-- C8. Closing an active election and reopening it (`toggleElection` twice) leaves the
election active with `closedAt` cleared and every other field, `maxCandidates` and
`maxVoters` among them, as it was, and leaves every other election as it was; the
applications stay as the close left them, so every application of the election still has
`active = false` and no user has an active candidacy in that election. -/
theorem toggleElection_close_reopen (env₁ env₂ : Env) (s : State) (electionId : Id)
    (E : Election)
    (hfind : s.elections.find? (fun e => e.id == electionId) = some E)
    (hact : E.active = true) :
    (toggleElection env₂ (toggleElection env₁ s electionId).1 electionId).1.elections.find?
        (fun e => e.id == electionId) = some { E with active := true, closedAt := none } ∧
      (∀ (j : Nat) (e : Election), s.elections[j]? = some e →
        (toggleElection env₂ (toggleElection env₁ s electionId).1 electionId).1.elections[j]? =
          some (if j = (s.elections.findIdx fun e => e.id == electionId) then
            { e with closedAt := none } else e)) ∧
      (toggleElection env₂ (toggleElection env₁ s electionId).1 electionId).1.applications =
        (toggleElection env₁ s electionId).1.applications ∧
      (∀ a ∈ (toggleElection env₂ (toggleElection env₁ s electionId).1 electionId).1.applications,
        a.electionId = electionId → a.active = some false) ∧
      (∀ (user : User),
        ∀ a ∈ getUserActiveCandidacies
            (toggleElection env₂ (toggleElection env₁ s electionId).1 electionId).1 user,
          a.electionId ≠ electionId) := by
  rw [toggleElection_twice_eq env₁ env₂ s electionId E hfind hact]
  have hinactive : ∀ a ∈ cleanupElectionCandidateStatus env₁ s.applications electionId,
      a.electionId = electionId → a.active = some false := by
    intro a' ha' he'
    obtain ⟨a, _, rfl⟩ := mem_cleanup env₁ s.applications electionId a' ha'
    by_cases he : a.electionId = electionId
    · simp [he]
    · simp only [he, if_false] at he'
  refine ⟨?_, ?_, ?_, hinactive, ?_⟩
  · simp only
    rw [find?_modify_of_eq_findIdx (fun e : Election => e.id == electionId)
        (fun e => { e with active := !e.active, closedAt := none }) (fun _ => rfl) _ _
        (findIdx_modify (fun e : Election => e.id == electionId)
          (fun e => { e with active := !e.active, closedAt := some env₁.iso }) (fun _ => rfl)
          s.elections (s.elections.findIdx fun e => e.id == electionId)).symm,
      find?_modify_findIdx (fun e : Election => e.id == electionId)
        (fun e => { e with active := !e.active, closedAt := some env₁.iso }) (fun _ => rfl),
      hfind]
    simp [hact]
  · intro j e hj
    simp only
    have h₁ := modify_getElem?
      (fun e : Election => { e with active := !e.active, closedAt := some env₁.iso })
      s.elections (s.elections.findIdx fun e => e.id == electionId) j e hj
    have h₂ := modify_getElem?
      (fun e : Election => { e with active := !e.active, closedAt := none })
      _ (s.elections.findIdx fun e => e.id == electionId) j _ h₁
    rw [h₂]
    by_cases hji : j = s.elections.findIdx fun e => e.id == electionId
    · simp [hji]
    · simp [hji]
  · rw [toggleElection_eq_of_active env₁ s electionId E hfind hact]
  · intro user a ha hea
    unfold getUserActiveCandidacies at ha
    rw [List.mem_filter] at ha
    obtain ⟨hmem, hp⟩ := ha
    have hc := (activeCandidacy_pred_iff _ user a).mp hp
    exact hc.2.2.1 (hinactive a hmem hea)

/-- C8 at the sample store: `E1`, in which `V1` is a candidate, closed and reopened. -/
theorem toggleElection_close_reopen_witness :
    sampleState.elections.find? (fun e => e.id == "E1") = some (sampleElection "E1" "Council" true) ∧
      (sampleElection "E1" "Council" true).active = true ∧
      (toggleElection sampleEnv (toggleElection sampleEnv sampleState "E1").1 "E1").1.elections.find?
        (fun e => e.id == "E1") = some (sampleElection "E1" "Council" true) ∧
      getUserActiveCandidacies
        (toggleElection sampleEnv (toggleElection sampleEnv sampleState "E1").1 "E1").1
        (sampleVoter "V1" "alice") = [] ∧
      getEffectiveUserRole
        (toggleElection sampleEnv (toggleElection sampleEnv sampleState "E1").1 "E1").1
        (some (sampleVoter "V1" "alice")) = some "voter" :=
  have h := toggleElection_close_reopen sampleEnv sampleEnv sampleState "E1"
    (sampleElection "E1" "Council" true) rfl rfl
  ⟨rfl, rfl, h.1, by decide, by decide⟩

/-! ## Theorems: removing a candidate -/

/-- What `removeCandidateFromElection` returns for an existing application once the
removal is confirmed. -/
theorem removeCandidateFromElection_eq (env : Env) (s : State) (applicationId electionId : Id)
    (A : Application) (hconfirm : env.confirm = true)
    (hfind : s.applications.find? (fun a => a.id == applicationId) = some A) :
    removeCandidateFromElection env s applicationId electionId =
      ({ s with
          applications := s.applications.filter fun a => a.id != applicationId
          votes := s.votes.filter fun v =>
            !(v.candidateId == A.userId && v.electionId == electionId) },
        .success "Candidate Removed") := by
  simp [removeCandidateFromElection, hconfirm, hfind]

/-- C9. For an existing application `A` (the one its id designates), of user `A.userId`
in election `A.electionId`, a confirmed `removeCandidateFromElection` deletes application
`A` and no other, deletes the votes cast for `A.userId` in `A.electionId` and no others,
and touches nothing else; afterwards the tally of `A.electionId` holds no entry for
`A.userId`, and the tally of every other election is as before. -/
theorem removeCandidateFromElection_exact (env : Env) (s : State) (applicationId : Id)
    (A : Application) (hconfirm : env.confirm = true)
    (hfind : s.applications.find? (fun a => a.id == applicationId) = some A)
    (hid : ∀ a ∈ s.applications, a.id = applicationId → a = A) :
    (removeCandidateFromElection env s applicationId A.electionId).1.applications =
        s.applications.filter (fun a => decide (a ≠ A)) ∧
      (removeCandidateFromElection env s applicationId A.electionId).1.votes =
        s.votes.filter (fun v =>
          decide (¬ (v.candidateId = A.userId ∧ v.electionId = A.electionId))) ∧
      (removeCandidateFromElection env s applicationId A.electionId).1.users = s.users ∧
      (removeCandidateFromElection env s applicationId A.electionId).1.elections = s.elections ∧
      A.userId ∉ (candidateVotes
        (removeCandidateFromElection env s applicationId A.electionId).1 A.electionId).map
          Prod.fst ∧
      (∀ r ∈ getElectionResults
          (removeCandidateFromElection env s applicationId A.electionId).1 A.electionId,
        ∀ u : User, r.candidate = some u → u.id ≠ A.userId) ∧
      (∀ e : Id, e ≠ A.electionId →
        getElectionResults (removeCandidateFromElection env s applicationId A.electionId).1 e =
          getElectionResults s e) := by
  rw [removeCandidateFromElection_eq env s applicationId A.electionId A hconfirm hfind]
  dsimp only
  have hAid : A.id = applicationId := by
    have := List.find?_some hfind
    simpa using this
  have hvotes : (s.votes.filter fun v =>
      !(v.candidateId == A.userId && v.electionId == A.electionId)) =
      s.votes.filter (fun v =>
        decide (¬ (v.candidateId = A.userId ∧ v.electionId = A.electionId))) := by
    apply List.filter_congr
    intro v _
    by_cases h1 : v.candidateId = A.userId <;> by_cases h2 : v.electionId = A.electionId <;>
      simp [h1, h2]
  have hnokey : A.userId ∉ (candidateVotes
      { s with
        applications := s.applications.filter fun a => a.id != applicationId
        votes := s.votes.filter fun v =>
          !(v.candidateId == A.userId && v.electionId == A.electionId) } A.electionId).map
        Prod.fst := by
    rw [mem_keys_candidateVotes]
    rintro ⟨⟨v, hv, he, hc⟩, -⟩
    simp only [List.mem_filter] at hv
    simp [he, hc] at hv
  refine ⟨?_, hvotes, rfl, rfl, hnokey, ?_, ?_⟩
  · apply List.filter_congr
    intro a ha
    by_cases h : a = A
    · simp [h, hAid]
    · have : a.id ≠ applicationId := fun h' => h (hid a ha h')
      simp [h, this]
  · intro r hr u hu hid'
    obtain ⟨p, hp, rfl⟩ := (mem_getElectionResults _ _ r).mp hr
    have hfound := List.find?_some hu
    simp only [beq_iff_eq] at hfound
    have hpk : p.1 ∈ (candidateVotes
        { s with
          applications := s.applications.filter fun a => a.id != applicationId
          votes := s.votes.filter fun v =>
            !(v.candidateId == A.userId && v.electionId == A.electionId) } A.electionId).map
          Prod.fst := List.mem_map.mpr ⟨p, hp, rfl⟩
    have hpA : p.1 = A.userId := hfound.symm.trans hid'
    rw [hpA] at hpk
    exact hnokey hpk
  · intro e he
    refine getElectionResults_congr s _ e ?_ ?_
    · rfl
    simp only [List.filter_filter]
    apply List.filter_congr
    intro v _
    by_cases h2 : v.electionId = e
    · have : ¬ v.electionId = A.electionId := fun h' => he (h2.symm.trans h')
      simp [h2, he]
    · simp [h2]

/-- C9 at the store with four votes: removing `V1`, candidate `A1` of `E1`, deletes the
two votes for `V1` in `E1` and keeps the vote for `V1` in `E2`. -/
theorem removeCandidateFromElection_exact_witness :
    sampleEnv.confirm = true ∧
      tallyState.applications.find? (fun a => a.id == "A1") =
        some (sampleCandidacy "A1" "V1" "E1") ∧
      (∀ a ∈ tallyState.applications, a.id = "A1" → a = sampleCandidacy "A1" "V1" "E1") ∧
      (removeCandidateFromElection sampleEnv tallyState "A1" "E1").1.applications = [] ∧
      (removeCandidateFromElection sampleEnv tallyState "A1" "E1").1.votes =
        [sampleVote "vote-2" "V3" "E1" "none-of-above", sampleVote "vote-3" "V2" "E2" "V1"] ∧
      getElectionResults (removeCandidateFromElection sampleEnv tallyState "A1" "E1").1 "E2" =
        getElectionResults tallyState "E2" :=
  have h := removeCandidateFromElection_exact sampleEnv tallyState "A1"
    (sampleCandidacy "A1" "V1" "E1") rfl rfl (by decide)
  ⟨rfl, rfl, by decide, by decide, by decide, h.2.2.2.2.2.2 "E2" (by decide)⟩

/-! ## Theorems: creating applications -/

theorem handlePromoteVoter_eq_of_no_application (env : Env) (s : State) (currentUser : User)
    (voterId electionId : Id) (message : String) (hcu : s.currentUser = some currentUser)
    (hno : ∀ a ∈ s.applications, ¬ (a.userId = voterId ∧ a.electionId = electionId)) :
    handlePromoteVoter env s voterId electionId message =
      ({ s with applications := s.applications ++
          [promotedApplication env currentUser voterId electionId message] },
        if (s.users.find? fun u => u.id == voterId).isSome &&
            (s.elections.find? fun e => e.id == electionId).isSome
          then .success "Voter Promoted" else .typeError) := by
  have hfind : (s.applications.find? fun a =>
      a.userId == voterId && a.electionId == electionId) = none := by
    rw [List.find?_eq_none]
    intro a ha
    simpa using hno a ha
  simp only [handlePromoteVoter, hfind, Option.isSome_none, Bool.false_eq_true, if_false, hcu]

theorem handlePromoteVoter_fst_of_application (env : Env) (s : State)
    (voterId electionId : Id) (message : String)
    (hex : ∃ a ∈ s.applications, a.userId = voterId ∧ a.electionId = electionId) :
    handlePromoteVoter env s voterId electionId message =
      (s, if (s.users.find? fun u => u.id == voterId).isSome &&
            (s.elections.find? fun e => e.id == electionId).isSome
          then .error "Already a Candidate" else .typeError) := by
  have hfind : (s.applications.find? fun a =>
      a.userId == voterId && a.electionId == electionId).isSome = true := by
    rw [List.find?_isSome]
    obtain ⟨a, ha, h1, h2⟩ := hex
    exact ⟨a, ha, by simp [h1, h2]⟩
  simp only [handlePromoteVoter, hfind, if_true]

theorem applyToElection_of_no_application (env : Env) (s : State) (currentUser : User)
    (electionId : Id) (hcu : s.currentUser = some currentUser)
    (hno : ∀ a ∈ s.applications, ¬ (a.userId = currentUser.id ∧ a.electionId = electionId)) :
    ∃ a : Application,
      applyToElection env s electionId =
        ({ s with applications := s.applications ++ [a] }, .success "Application Submitted") ∧
      a.userId = currentUser.id ∧ a.electionId = electionId ∧ a.approved = false ∧
      a.promotedBy = none ∧ a.active = none ∧ a.rejected = none := by
  have hfind : (s.applications.find? fun a =>
      a.userId == currentUser.id && a.electionId == electionId) = none := by
    rw [List.find?_eq_none]
    intro a ha
    simpa using hno a ha
  simp only [applyToElection, hcu, hfind, Option.isSome_none, Bool.false_eq_true, if_false]
  exact ⟨_, rfl, rfl, rfl, rfl, rfl, rfl, rfl⟩

theorem applyToElection_eq_of_application (env : Env) (s : State) (currentUser : User)
    (electionId : Id) (hcu : s.currentUser = some currentUser)
    (hex : ∃ a ∈ s.applications, a.userId = currentUser.id ∧ a.electionId = electionId) :
    applyToElection env s electionId = (s, .error "Already Applied") := by
  have hfind : (s.applications.find? fun a =>
      a.userId == currentUser.id && a.electionId == electionId).isSome = true := by
    rw [List.find?_isSome]
    obtain ⟨a, ha, h1, h2⟩ := hex
    exact ⟨a, ha, by simp [h1, h2]⟩
  simp only [applyToElection, hcu, hfind, if_true]

theorem handleCandidateApplication_appends (env : Env) (s : State) (currentUser : User)
    (electionId : Id) (applicationMessage qualifications goals : String)
    (hcu : s.currentUser = some currentUser) :
    ∃ a : Application,
      handleCandidateApplication env s electionId applicationMessage qualifications goals =
        ({ s with applications := s.applications ++ [a] }, .success "Application Submitted") ∧
      a.userId = currentUser.id ∧ a.electionId = electionId ∧ a.approved = false ∧
      a.promotedBy = none ∧ a.active = none ∧ a.rejected = some false := by
  simp only [handleCandidateApplication, hcu]
  exact ⟨_, rfl, rfl, rfl, rfl, rfl, rfl, rfl⟩

/-- C11 as stated fails: `V1`, who already has application `A1` in `E1`, calls
`applyToElection` for `E1`; the self-application appends nothing. -/
theorem applyToElection_not_always_appends :
    (∃ a ∈ candidateSession.applications, a.userId = "V1" ∧ a.electionId = "E1") ∧
      (applyToElection sampleEnv candidateSession "E1").1.applications =
        candidateSession.applications ∧
      ¬ ∃ a : Application, (applyToElection sampleEnv candidateSession "E1").1.applications =
        candidateSession.applications ++ [a] := by
  have h : applyToElection sampleEnv candidateSession "E1" =
      (candidateSession, .error "Already Applied") :=
    applyToElection_eq_of_application sampleEnv candidateSession (sampleVoter "V1" "alice") "E1"
      rfl (by decide)
  refine ⟨by decide, by rw [h], ?_⟩
  rw [h]
  rintro ⟨a, ha⟩
  have := congrArg List.length ha
  simp at this

/-- C11, amended. With an acting user logged in: `handlePromoteVoter`, when no application
exists for the pair, appends exactly one application with `approved = true`,
`active = true` and `promotedBy` the acting user's id; `handleCandidateApplication` always
appends exactly one application with `approved = false`, no `promotedBy` and `active`
unset; `applyToElection` does the same when the user has no application for the election
and appends nothing when the user has one. -/
theorem created_application_flags (env : Env) (s : State) (currentUser : User)
    (voterId electionId : Id) (message applicationMessage qualifications goals : String)
    (hcu : s.currentUser = some currentUser) :
    ((∀ a ∈ s.applications, ¬ (a.userId = voterId ∧ a.electionId = electionId)) →
      ∃ a : Application,
        (handlePromoteVoter env s voterId electionId message).1 =
          { s with applications := s.applications ++ [a] } ∧
        a.userId = voterId ∧ a.electionId = electionId ∧ a.approved = true ∧
        a.active = some true ∧ a.promotedBy = some currentUser.id) ∧
    (∃ a : Application,
      handleCandidateApplication env s electionId applicationMessage qualifications goals =
        ({ s with applications := s.applications ++ [a] }, .success "Application Submitted") ∧
      a.userId = currentUser.id ∧ a.electionId = electionId ∧ a.approved = false ∧
      a.promotedBy = none ∧ a.active = none) ∧
    ((∀ a ∈ s.applications, ¬ (a.userId = currentUser.id ∧ a.electionId = electionId)) →
      ∃ a : Application,
        applyToElection env s electionId =
          ({ s with applications := s.applications ++ [a] }, .success "Application Submitted") ∧
        a.userId = currentUser.id ∧ a.electionId = electionId ∧ a.approved = false ∧
        a.promotedBy = none ∧ a.active = none) ∧
    ((∃ a ∈ s.applications, a.userId = currentUser.id ∧ a.electionId = electionId) →
      applyToElection env s electionId = (s, .error "Already Applied")) := by
  refine ⟨?_, ?_, ?_, ?_⟩
  · intro hno
    rw [handlePromoteVoter_eq_of_no_application env s currentUser voterId electionId message
      hcu hno]
    exact ⟨_, rfl, rfl, rfl, rfl, rfl, rfl⟩
  · obtain ⟨a, h, h1, h2, h3, h4, h5, -⟩ := handleCandidateApplication_appends env s currentUser
      electionId applicationMessage qualifications goals hcu
    exact ⟨a, h, h1, h2, h3, h4, h5⟩
  · intro hno
    obtain ⟨a, h, h1, h2, h3, h4, h5, -⟩ :=
      applyToElection_of_no_application env s currentUser electionId hcu hno
    exact ⟨a, h, h1, h2, h3, h4, h5⟩
  · exact applyToElection_eq_of_application env s currentUser electionId hcu

/-- C11, amended, at the admin store: the super admin promotes `V2` in `E1`, and the
application appended is approved, active and carries the admin's id. -/
theorem created_application_flags_witness :
    adminState.currentUser = some sampleAdmin ∧
      (∀ a ∈ adminState.applications, ¬ (a.userId = "V2" ∧ a.electionId = "E1")) ∧
      ∃ a : Application,
        (handlePromoteVoter sampleEnv adminState "V2" "E1" "").1 =
          { adminState with applications := adminState.applications ++ [a] } ∧
        a.userId = "V2" ∧ a.electionId = "E1" ∧ a.approved = true ∧
        a.active = some true ∧ a.promotedBy = some "super-admin-1" :=
  ⟨rfl, by decide,
    (created_application_flags sampleEnv adminState sampleAdmin "V2" "E1" "" "" "" "" rfl).1
      (by decide)⟩

/-- C12. For a user `V` of the store with role `voter` and an active election `E` of the
store for which no application (`V`, `E`) exists, `handlePromoteVoter` by a logged-in admin
succeeds, and right afterwards `getEffectiveUserRole(V)` is `candidate` and
`getUserActiveCandidacies(V)` holds the new application, while `users` is unchanged. -/
theorem promoted_voter_is_candidate (env : Env) (s : State) (admin V : User) (E : Election)
    (message : String) (hcu : s.currentUser = some admin) (hV : V ∈ s.users)
    (hrole : V.role = "voter") (hE : E ∈ s.elections) (hact : E.active = true)
    (hno : ∀ a ∈ s.applications, ¬ (a.userId = V.id ∧ a.electionId = E.id)) :
    (handlePromoteVoter env s V.id E.id message).2 = .success "Voter Promoted" ∧
      getEffectiveUserRole (handlePromoteVoter env s V.id E.id message).1 (some V) =
        some "candidate" ∧
      promotedApplication env admin V.id E.id message ∈
        getUserActiveCandidacies (handlePromoteVoter env s V.id E.id message).1 V ∧
      (handlePromoteVoter env s V.id E.id message).1.applications =
        s.applications ++ [promotedApplication env admin V.id E.id message] ∧
      (handlePromoteVoter env s V.id E.id message).1.users = s.users := by
  rw [handlePromoteVoter_eq_of_no_application env s admin V.id E.id message hcu hno]
  have hvoter : (s.users.find? fun u => u.id == V.id).isSome = true := by
    rw [List.find?_isSome]
    exact ⟨V, hV, by simp⟩
  have helection : (s.elections.find? fun e => e.id == E.id).isSome = true := by
    rw [List.find?_isSome]
    exact ⟨E, hE, by simp⟩
  have hcand : IsActiveCandidacy
      { s with applications := s.applications ++ [promotedApplication env admin V.id E.id message] }
      V (promotedApplication env admin V.id E.id message) :=
    ⟨rfl, rfl, by simp [promotedApplication], E, hE, rfl, hact⟩
  have hmem : promotedApplication env admin V.id E.id message ∈
      s.applications ++ [promotedApplication env admin V.id E.id message] := by
    simp
  refine ⟨by simp [hvoter, helection], ?_, ?_, rfl, rfl⟩
  · rw [getEffectiveUserRole_some]
    have hnot : ¬ (V.role = "admin" ∨ V.role = "super-admin") := by
      rw [hrole]; decide
    rw [if_neg hnot, if_pos ⟨_, hmem, hcand⟩]
  · unfold getUserActiveCandidacies
    rw [List.mem_filter]
    exact ⟨hmem, (activeCandidacy_pred_iff _ V _).mpr hcand⟩

/-- C12 at the admin store: the super admin promotes `V2` in `E1`. -/
theorem promoted_voter_is_candidate_witness :
    adminState.currentUser = some sampleAdmin ∧ sampleVoter "V2" "bob" ∈ adminState.users ∧
      (sampleVoter "V2" "bob").role = "voter" ∧
      sampleElection "E1" "Council" true ∈ adminState.elections ∧
      (∀ a ∈ adminState.applications, ¬ (a.userId = "V2" ∧ a.electionId = "E1")) ∧
      getEffectiveUserRole adminState (some (sampleVoter "V2" "bob")) = some "voter" ∧
      getEffectiveUserRole (handlePromoteVoter sampleEnv adminState "V2" "E1" "").1
        (some (sampleVoter "V2" "bob")) = some "candidate" ∧
      (handlePromoteVoter sampleEnv adminState "V2" "E1" "").1.users = adminState.users :=
  have h := promoted_voter_is_candidate sampleEnv adminState sampleAdmin (sampleVoter "V2" "bob")
    (sampleElection "E1" "Council" true) "" rfl (by decide) rfl (by decide) rfl (by decide)
  ⟨rfl, by decide, rfl, by decide, by decide, by decide, h.2.1, h.2.2.2.2⟩

/-- C14. When an application already exists for the pair (user, election), whatever its
state, `applyToElection` by that user reports "Already Applied" and `handlePromoteVoter`
for that user does not succeed (it reports "Already a Candidate", or throws while building
that message when the user or the election row is missing); both leave the whole store,
so the applications table, unchanged. -/
theorem duplicate_application_refused (env : Env) (s : State) (user : User) (electionId : Id)
    (message : String)
    (hex : ∃ a ∈ s.applications, a.userId = user.id ∧ a.electionId = electionId) :
    (s.currentUser = some user →
        applyToElection env s electionId = (s, .error "Already Applied")) ∧
      (handlePromoteVoter env s user.id electionId message).1 = s ∧
      ((handlePromoteVoter env s user.id electionId message).2 = .error "Already a Candidate" ∨
        (handlePromoteVoter env s user.id electionId message).2 = .typeError) ∧
      (user ∈ s.users → (∃ e ∈ s.elections, e.id = electionId) →
        (handlePromoteVoter env s user.id electionId message).2 =
          .error "Already a Candidate") := by
  rw [handlePromoteVoter_fst_of_application env s user.id electionId message hex]
  refine ⟨fun hcu => applyToElection_eq_of_application env s user electionId hcu hex, rfl, ?_, ?_⟩
  · by_cases h : ((s.users.find? fun u => u.id == user.id).isSome &&
        (s.elections.find? fun e => e.id == electionId).isSome) = true
    · left; simp only [h, if_true]
    · right; simp [h]
  · rintro hu ⟨e, he, hid⟩
    have hvoter : (s.users.find? fun u => u.id == user.id).isSome = true := by
      rw [List.find?_isSome]
      exact ⟨user, hu, by simp⟩
    have helection : (s.elections.find? fun e => e.id == electionId).isSome = true := by
      rw [List.find?_isSome]
      exact ⟨e, he, by simp [hid]⟩
    simp [hvoter, helection]

/-- C14 at the sample store with `V1` logged in: `V1` has application `A1` in `E1`. -/
theorem duplicate_application_refused_witness :
    (∃ a ∈ candidateSession.applications,
        a.userId = (sampleVoter "V1" "alice").id ∧ a.electionId = "E1") ∧
      applyToElection sampleEnv candidateSession "E1" =
        (candidateSession, .error "Already Applied") ∧
      handlePromoteVoter sampleEnv candidateSession "V1" "E1" "" =
        (candidateSession, .error "Already a Candidate") :=
  have h := duplicate_application_refused sampleEnv candidateSession (sampleVoter "V1" "alice")
    "E1" "" (by decide)
  ⟨by decide, h.1 rfl, Prod.ext h.2.1 (h.2.2.2 (by decide) (by decide))⟩

/-- C13 fails on the code. In the admin store `V1` has one application in `E1` and no pair
has two; `handleAddCandidate` for `V1` in `E1` appends a second application for the pair,
and so does `handleCandidateApplication` when `V1` submits the form for `E1`. -/
theorem duplicate_application_created :
    ApplicationsUnique adminState ∧
      ((handleAddCandidate sampleEnv adminState "E1" "V1" "").1.applications.filter
        fun a => a.userId == "V1" && a.electionId == "E1").length = 2 ∧
      ¬ ApplicationsUnique (handleAddCandidate sampleEnv adminState "E1" "V1" "").1 ∧
      ApplicationsUnique candidateSession ∧
      ¬ ApplicationsUnique
        (handleCandidateApplication sampleEnv candidateSession "E1" "" "" "").1 := by
  have hone : ∀ s : State, s.applications.length ≤ 1 → ApplicationsUnique s :=
    fun s h _ _ => le_trans (List.length_filter_le _ _) h
  refine ⟨hone _ (by decide), by decide, ?_, hone _ (by decide), ?_⟩
  · intro h
    exact absurd (h "V1" "E1") (by decide)
  · intro h
    exact absurd (h "V1" "E1") (by decide)

/-- C15 as stated fails: in the store where `E2` is closed, `V2` applies to `E2` with
`applyToElection` and with `handleCandidateApplication`; both report success and append
an application. -/
theorem self_application_to_closed_election :
    (∀ e ∈ closedElectionState.elections, e.id = "E2" → e.active = false) ∧
      (applyToElection sampleEnv closedElectionState "E2").2 =
        .success "Application Submitted" ∧
      ((applyToElection sampleEnv closedElectionState "E2").1.applications.map
        fun a => (a.userId, a.electionId)) = [("V1", "E1"), ("V2", "E2")] ∧
      (handleCandidateApplication sampleEnv closedElectionState "E2" "" "" "").2 =
        .success "Application Submitted" ∧
      ((handleCandidateApplication sampleEnv closedElectionState "E2" "" "" "").1.applications.map
        fun a => (a.userId, a.electionId)) = [("V1", "E1"), ("V2", "E2")] := by
  refine ⟨by decide, by decide, by decide, by decide, by decide⟩

/-- C15, amended. Self-application is not refused for an election that is not active: with
a user logged in, `applyToElection` (when the user has no application for the election)
and `handleCandidateApplication` report success and append one unapproved application for
the election, and what they do with the applications table does not depend on the
`elections` table at all. -/
theorem self_application_ignores_election_status (env : Env) (s : State) (currentUser : User)
    (electionId : Id) (applicationMessage qualifications goals : String)
    (hcu : s.currentUser = some currentUser)
    (hclosed : ∀ e ∈ s.elections, e.id = electionId → e.active = false) :
    ((∀ a ∈ s.applications, ¬ (a.userId = currentUser.id ∧ a.electionId = electionId)) →
      ∃ a : Application,
        applyToElection env s electionId =
          ({ s with applications := s.applications ++ [a] }, .success "Application Submitted") ∧
        a.userId = currentUser.id ∧ a.electionId = electionId ∧ a.approved = false) ∧
    (∃ a : Application,
      handleCandidateApplication env s electionId applicationMessage qualifications goals =
        ({ s with applications := s.applications ++ [a] }, .success "Application Submitted") ∧
      a.userId = currentUser.id ∧ a.electionId = electionId ∧ a.approved = false) ∧
    (∀ elections : List Election,
      (applyToElection env { s with elections := elections } electionId).1.applications =
        (applyToElection env s electionId).1.applications ∧
      (applyToElection env { s with elections := elections } electionId).2 =
        (applyToElection env s electionId).2 ∧
      (handleCandidateApplication env { s with elections := elections } electionId
          applicationMessage qualifications goals).1.applications =
        (handleCandidateApplication env s electionId
          applicationMessage qualifications goals).1.applications) := by
  have _ := hclosed
  refine ⟨?_, ?_, ?_⟩
  · intro hno
    obtain ⟨a, h, h1, h2, h3, -⟩ :=
      applyToElection_of_no_application env s currentUser electionId hcu hno
    exact ⟨a, h, h1, h2, h3⟩
  · obtain ⟨a, h, h1, h2, h3, -⟩ := handleCandidateApplication_appends env s currentUser
      electionId applicationMessage qualifications goals hcu
    exact ⟨a, h, h1, h2, h3⟩
  · intro elections
    refine ⟨?_, ?_, ?_⟩
    · simp only [applyToElection, hcu]
      split <;> rfl
    · simp only [applyToElection, hcu]
      split <;> rfl
    · simp only [handleCandidateApplication, hcu]

/-- C15, amended, at the store where `E2` is closed: `V2` applies to `E2`. -/
theorem self_application_ignores_election_status_witness :
    closedElectionState.currentUser = some (sampleVoter "V2" "bob") ∧
      (∀ e ∈ closedElectionState.elections, e.id = "E2" → e.active = false) ∧
      (∀ a ∈ closedElectionState.applications,
        ¬ (a.userId = (sampleVoter "V2" "bob").id ∧ a.electionId = "E2")) ∧
      ∃ a : Application,
        applyToElection sampleEnv closedElectionState "E2" =
          ({ closedElectionState with applications := closedElectionState.applications ++ [a] },
            .success "Application Submitted") ∧
        a.userId = "V2" ∧ a.electionId = "E2" ∧ a.approved = false :=
  ⟨rfl, by decide, by decide,
    (self_application_ignores_election_status sampleEnv closedElectionState
      (sampleVoter "V2" "bob") "E2" "" "" "" rfl (by decide)).1 (by decide)⟩

/-! ## Theorems: resolving applications -/

/-- What `approveVoterApplication` returns for an existing application when a user is
logged in. -/
theorem approveVoterApplication_eq (env : Env) (s : State) (admin : User) (applicationId : Id)
    (A : Application) (hcu : s.currentUser = some admin)
    (hfind : s.applications.find? (fun a => a.id == applicationId) = some A) :
    approveVoterApplication env s applicationId =
      ({ s with
          applications := s.applications.modify
            (fun a =>
              { a with
                approved := true, approvedAt := some env.iso
                approvedBy := some admin.id, active := some true })
            (s.applications.findIdx fun a => a.id == applicationId) },
        .success "Application Approved") := by
  have hlt := findIdx_lt_of_find?_eq_some _ _ _ hfind
  simp only [approveVoterApplication, hlt, if_true, hcu]

/-- What `rejectVoterApplication` returns for an existing application when a user is
logged in and the prompt was answered. -/
theorem rejectVoterApplication_eq (env : Env) (s : State) (admin : User) (applicationId : Id)
    (A : Application) (reason : String) (hcu : s.currentUser = some admin)
    (hprompt : env.prompt = some reason)
    (hfind : s.applications.find? (fun a => a.id == applicationId) = some A) :
    rejectVoterApplication env s applicationId =
      ({ s with
          applications := s.applications.modify
            (fun a =>
              { a with
                rejected := some true, rejectedAt := some env.iso
                rejectedBy := some admin.id, rejectionReason := some reason
                active := some false })
            (s.applications.findIdx fun a => a.id == applicationId) },
        .success "Application Rejected") := by
  have hlt := findIdx_lt_of_find?_eq_some _ _ _ hfind
  simp only [rejectVoterApplication, hprompt, hlt, if_true, hcu]

/-- C16 as stated fails: in the admin store application `A2` is rejected;
`approveVoterApplication` on `A2` succeeds and leaves it approved and rejected at once. -/
theorem approve_after_reject :
    (∃ a ∈ rejectedState.applications,
        a.id = "A2" ∧ a.approved = false ∧ a.rejected = some true) ∧
      (approveVoterApplication sampleEnv rejectedState "A2").2 =
        .success "Application Approved" ∧
      (approveVoterApplication sampleEnv rejectedState "A2").1.applications ≠
        rejectedState.applications ∧
      ∃ a ∈ (approveVoterApplication sampleEnv rejectedState "A2").1.applications,
        a.id = "A2" ∧ a.approved = true ∧ a.rejected = some true ∧ a.active = some true := by
  refine ⟨by decide, by decide, by decide, by decide⟩

/-- C16, amended. The handlers do not look at the state of the application: with a user
logged in, `approveVoterApplication` on an existing application, resolved or not, succeeds
and sets `approved = true`, `approvedAt`, `approvedBy` and `active = true`, leaving
`rejected` as it was; `rejectVoterApplication`, once the prompt is answered, succeeds and
sets `rejected = true`, `rejectedAt`, `rejectedBy`, `rejectionReason` and
`active = false`, leaving `approved` as it was; no other application changes. -/
theorem approve_reject_unguarded (env : Env) (s : State) (admin : User) (applicationId : Id)
    (A : Application) (reason : String) (hcu : s.currentUser = some admin)
    (hprompt : env.prompt = some reason)
    (hfind : s.applications.find? (fun a => a.id == applicationId) = some A) :
    (approveVoterApplication env s applicationId).2 = .success "Application Approved" ∧
      (approveVoterApplication env s applicationId).1.applications[
          s.applications.findIdx fun a => a.id == applicationId]? =
        some { A with
          approved := true, approvedAt := some env.iso
          approvedBy := some admin.id, active := some true } ∧
      (∀ (j : Nat) (a : Application), s.applications[j]? = some a →
        j ≠ (s.applications.findIdx fun a => a.id == applicationId) →
        (approveVoterApplication env s applicationId).1.applications[j]? = some a) ∧
      (rejectVoterApplication env s applicationId).2 = .success "Application Rejected" ∧
      (rejectVoterApplication env s applicationId).1.applications[
          s.applications.findIdx fun a => a.id == applicationId]? =
        some { A with
          rejected := some true, rejectedAt := some env.iso
          rejectedBy := some admin.id, rejectionReason := some reason
          active := some false } ∧
      (∀ (j : Nat) (a : Application), s.applications[j]? = some a →
        j ≠ (s.applications.findIdx fun a => a.id == applicationId) →
        (rejectVoterApplication env s applicationId).1.applications[j]? = some a) := by
  rw [approveVoterApplication_eq env s admin applicationId A hcu hfind,
    rejectVoterApplication_eq env s admin applicationId A reason hcu hprompt hfind]
  have hA := findIdx_of_find?_eq_some _ _ _ hfind
  refine ⟨rfl, ?_, ?_, rfl, ?_, ?_⟩
  · have := modify_getElem?
      (fun a : Application =>
        { a with
          approved := true, approvedAt := some env.iso
          approvedBy := some admin.id, active := some true })
      s.applications (s.applications.findIdx fun a => a.id == applicationId) _ A hA
    simpa using this
  · intro j a hj hne
    have := modify_getElem?
      (fun a : Application =>
        { a with
          approved := true, approvedAt := some env.iso
          approvedBy := some admin.id, active := some true })
      s.applications (s.applications.findIdx fun a => a.id == applicationId) j a hj
    simpa [hne] using this
  · have := modify_getElem?
      (fun a : Application =>
        { a with
          rejected := some true, rejectedAt := some env.iso
          rejectedBy := some admin.id, rejectionReason := some reason
          active := some false })
      s.applications (s.applications.findIdx fun a => a.id == applicationId) _ A hA
    simpa using this
  · intro j a hj hne
    have := modify_getElem?
      (fun a : Application =>
        { a with
          rejected := some true, rejectedAt := some env.iso
          rejectedBy := some admin.id, rejectionReason := some reason
          active := some false })
      s.applications (s.applications.findIdx fun a => a.id == applicationId) j a hj
    simpa [hne] using this

/-- C16, amended, at the admin store with the rejected application `A2`: approving it
keeps `rejected = true`. -/
theorem approve_reject_unguarded_witness :
    rejectedState.currentUser = some sampleAdmin ∧ sampleEnv.prompt = some "reason" ∧
      rejectedState.applications.find? (fun a => a.id == "A2") = some sampleRejected ∧
      (approveVoterApplication sampleEnv rejectedState "A2").1.applications[1]? =
        some { sampleRejected with
          approved := true, approvedAt := some sampleEnv.iso
          approvedBy := some "super-admin-1", active := some true } :=
  ⟨rfl, rfl, rfl,
    (approve_reject_unguarded sampleEnv rejectedState sampleAdmin "A2" sampleRejected "reason"
      rfl rfl rfl).2.1⟩

/-- C17 fails on the code. Application `A3` of `V2` in the active election `E2` is
approved and its `active` is unset, so it counts as active; `toggleCandidateAccess` writes
`active = true`, and the application still counts as active afterwards.  Such an
application arises when `V2` applies with `applyToElection` and the application is
approved with `approveApplication`. -/
theorem toggleCandidateAccess_unset_stays_active :
    sampleUnsetActive.approved = true ∧ sampleUnsetActive.active = none ∧
      sampleUnsetActive ∈ getUserActiveCandidacies unsetActiveState (sampleVoter "V2" "bob") ∧
      (toggleCandidateAccess unsetActiveState "A3" "E2").1.applications =
        [sampleCandidacy "A1" "V1" "E1", { sampleUnsetActive with active := some true }] ∧
      getUserActiveCandidacies (toggleCandidateAccess unsetActiveState "A3" "E2").1
        (sampleVoter "V2" "bob") = [{ sampleUnsetActive with active := some true }] ∧
      getEffectiveUserRole (toggleCandidateAccess unsetActiveState "A3" "E2").1
        (some (sampleVoter "V2" "bob")) = some "candidate" ∧
      ((approveApplication (applyToElection sampleEnv sampleState "E2").1
          ("application-" ++ toString sampleEnv.now)).1.applications.map
        fun a => (a.userId, a.electionId, a.approved, a.active)) =
        [("V1", "E1", true, some true), ("V2", "E2", true, none)] ∧
      ((toggleCandidateAccess
          (approveApplication (applyToElection sampleEnv sampleState "E2").1
            ("application-" ++ toString sampleEnv.now)).1
          ("application-" ++ toString sampleEnv.now) "E2").1.applications.map
        fun a => (a.userId, a.electionId, a.approved, a.active)) =
        [("V1", "E1", true, some true), ("V2", "E2", true, some true)] := by
  refine ⟨rfl, rfl, by decide, by decide, by decide, by decide, by decide, by decide⟩

/-! ## Theorems: votes are immutable -/

theorem castVote_votes (env : Env) (s : State) (electionId candidateId : Id) :
    (castVote env s electionId candidateId).1.votes = s.votes ∨
      ∃ v : Vote, (castVote env s electionId candidateId).1.votes = s.votes ++ [v] := by
  cases hcu : s.currentUser with
  | none => left; simp [castVote, hcu]
  | some currentUser =>
    by_cases hex : ∃ v ∈ s.votes, v.voterId = currentUser.id ∧ v.electionId = electionId
    · left
      rw [castVote_eq_of_vote env s currentUser electionId candidateId hcu hex]
    · right
      have hno : ∀ v ∈ s.votes, ¬ (v.voterId = currentUser.id ∧ v.electionId = electionId) :=
        fun v hv h => hex ⟨v, hv, h⟩
      rw [castVote_eq_of_no_vote env s currentUser electionId candidateId hcu hno]
      exact ⟨_, rfl⟩

/-- A handler that is neither `castVote` nor one of the three deleting handlers leaves
`votes` as it is. -/
theorem step_votes_eq (env : Env) (s : State) (op : Op) (hrem : op.removesVotes = false)
    (hcast : ∀ electionId candidateId, op ≠ .castVote electionId candidateId) :
    (step env s op).1.votes = s.votes := by
  cases op
  case castVote e c => exact absurd rfl (hcast e c)
  case deleteUser u => simp [Op.removesVotes] at hrem
  case deleteElection e => simp [Op.removesVotes] at hrem
  case removeCandidateFromElection a e => simp [Op.removesVotes] at hrem
  all_goals simp only [step, handleLogin, logout, loginWithFingerprint, verifyFace, handleRegister,
    captureFace, handlePhotoUpload, handleProfileUpdate, approveUser, rejectUser,
    handleCreateElection, toggleElection, updateElectionLimits,
    approveApplication, rejectApplication, applyToElection, handleCandidateApplication,
    handlePromoteVoter, handleAddCandidate, toggleCandidateAccess,
    approveVoterApplication, rejectVoterApplication]
  all_goals (repeat' split)
  all_goals rfl

/-- C18. For every handler and every store, the votes table afterwards is a sublist of the
table before followed by at most one new vote, so every surviving vote keeps all its
fields; a handler other than `deleteUser`, `deleteElection` and
`removeCandidateFromElection` removes no vote, and a handler other than `castVote` adds
none. -/
theorem votes_immutable (env : Env) (s : State) (op : Op) :
    (∃ kept added : List Vote,
        (step env s op).1.votes = kept ++ added ∧ kept.Sublist s.votes ∧ added.length ≤ 1) ∧
      (op.removesVotes = false →
        ∃ added : List Vote, (step env s op).1.votes = s.votes ++ added ∧ added.length ≤ 1) ∧
      ((∀ electionId candidateId, op ≠ .castVote electionId candidateId) →
        (step env s op).1.votes.Sublist s.votes) := by
  have hcastcase : ∀ e c, ∃ added : List Vote,
      (step env s (.castVote e c)).1.votes = s.votes ++ added ∧ added.length ≤ 1 := by
    intro e c
    rcases castVote_votes env s e c with h | ⟨v, h⟩
    · exact ⟨[], by simpa [step] using h, by simp⟩
    · exact ⟨[v], by simpa [step] using h, by simp⟩
  refine ⟨?_, ?_, ?_⟩
  · rcases step_votes_sublist env s op with ⟨e, c, rfl⟩ | hsub
    · obtain ⟨added, h, hlen⟩ := hcastcase e c
      exact ⟨s.votes, added, h, List.Sublist.refl _, hlen⟩
    · exact ⟨(step env s op).1.votes, [], by simp, hsub, by simp⟩
  · intro hrem
    by_cases hcast : ∃ e c, op = .castVote e c
    · obtain ⟨e, c, rfl⟩ := hcast
      exact hcastcase e c
    · have hcast' : ∀ e c, op ≠ .castVote e c := fun e c h => hcast ⟨e, c, h⟩
      exact ⟨[], by simpa using step_votes_eq env s op hrem hcast', by simp⟩
  · intro hcast
    rcases step_votes_sublist env s op with ⟨e, c, rfl⟩ | hsub
    · exact absurd rfl (hcast e c)
    · exact hsub

/-- C19 fails on the code. From the store without votes, `V2` casts a vote in `E1` and a
vote in `E2` while the clock and the random source give the same values; both calls
succeed, and the two votes carry the same `receiptId`. -/
theorem receiptId_repeats :
    ReceiptsDistinct noVotesState ∧
      (castVote sampleEnv noVotesState "E1" "V1").2 = .success "Vote Cast Successfully" ∧
      (castVote sampleEnv (castVote sampleEnv noVotesState "E1" "V1").1 "E2" "V1").2 =
        .success "Vote Cast Successfully" ∧
      ((castVote sampleEnv (castVote sampleEnv noVotesState "E1" "V1").1 "E2" "V1").1.votes.map
        fun v => (v.electionId, v.receiptId)) =
        [("E1", "RCP-1700000000000-ABCDEFGHI"), ("E2", "RCP-1700000000000-ABCDEFGHI")] ∧
      ¬ ReceiptsDistinct
        (castVote sampleEnv (castVote sampleEnv noVotesState "E1" "V1").1 "E2" "V1").1 := by
  refine ⟨by decide, by decide, by decide, by decide, by decide⟩

/-! ## Theorems: foreign keys -/

/-- C20 fails on the code. In the sample store no key dangles. `deleteUser` on `V1`
removes `V1` and `V1`'s application but keeps the vote that `V2` cast for `V1`, whose
`candidateId` then refers to no user; `rejectUser` on `V1` removes only the user row, so
`V1`'s application and the vote for `V1` refer to no user. -/
theorem dangling_key_after_user_removal :
    NoDanglingKey sampleState ∧
      (deleteUser sampleEnv sampleState "V1").2 = .success "User Deleted" ∧
      (deleteUser sampleEnv sampleState "V1").1.users = [sampleVoter "V2" "bob"] ∧
      (deleteUser sampleEnv sampleState "V1").1.votes = [sampleVote "vote-1" "V2" "E1" "V1"] ∧
      ¬ NoDanglingKey (deleteUser sampleEnv sampleState "V1").1 ∧
      (rejectUser sampleState "V1").1.users = [sampleVoter "V2" "bob"] ∧
      (rejectUser sampleState "V1").1.applications = [sampleCandidacy "A1" "V1" "E1"] ∧
      ¬ NoDanglingKey (rejectUser sampleState "V1").1 := by
  refine ⟨by decide, by decide, by decide, by decide, by decide, by decide, by decide, by decide⟩

/-! ## Theorems: deleting users and elections -/

theorem deleteUser_eq (env : Env) (s : State) (userId : Id) (u : User)
    (hconfirm : env.confirm = true)
    (hfind : s.users.find? (fun x => x.id == userId) = some u)
    (hrole : u.role ≠ "super-admin") :
    deleteUser env s userId =
      ({ s with
          users := s.users.filter fun x => x.id != userId
          applications := s.applications.filter fun a => a.userId != userId
          votes := s.votes.filter fun v => v.voterId != userId },
        .success "User Deleted") := by
  simp [deleteUser, hfind, hrole, hconfirm]

theorem deleteUser_eq_of_unknown (env : Env) (s : State) (userId : Id)
    (hno : ∀ x ∈ s.users, x.id ≠ userId) : deleteUser env s userId = (s, .silent) := by
  have hfind : s.users.find? (fun x => x.id == userId) = none := by
    rw [List.find?_eq_none]
    intro x hx
    simpa using hno x hx
  simp [deleteUser, hfind]

theorem deleteUser_eq_of_superAdmin (env : Env) (s : State) (userId : Id) (u : User)
    (hfind : s.users.find? (fun x => x.id == userId) = some u)
    (hrole : u.role = "super-admin") :
    deleteUser env s userId = (s, .error "Cannot Delete") := by
  simp [deleteUser, hfind, hrole]

theorem deleteElection_eq (env : Env) (s : State) (electionId : Id) (E : Election)
    (hconfirm : env.confirm = true)
    (hfind : s.elections.find? (fun e => e.id == electionId) = some E) :
    deleteElection env s electionId =
      ({ s with
          elections := s.elections.filter fun e => e.id != electionId
          applications := s.applications.filter fun a => a.electionId != electionId
          votes := s.votes.filter fun v => v.electionId != electionId },
        .success "Election Deleted") := by
  simp [deleteElection, hfind, hconfirm]

theorem deleteElection_eq_of_unknown (env : Env) (s : State) (electionId : Id)
    (hno : ∀ e ∈ s.elections, e.id ≠ electionId) :
    deleteElection env s electionId = (s, .silent) := by
  have hfind : s.elections.find? (fun e => e.id == electionId) = none := by
    rw [List.find?_eq_none]
    intro e he
    simpa using hno e he
  simp [deleteElection, hfind]

/-- C21. For an existing user `u` (the one its id designates) whose role is not
`super-admin`, a confirmed `deleteUser` removes `u` and no other user, the applications
with `userId = u.id` and no others, and the votes with `voterId = u.id` and no others, and
leaves `elections` as it was; for an id that no user has, the store is unchanged. -/
theorem deleteUser_exact (env : Env) (s : State) (userId : Id) (u : User)
    (hconfirm : env.confirm = true)
    (hfind : s.users.find? (fun x => x.id == userId) = some u)
    (hid : ∀ x ∈ s.users, x.id = userId → x = u)
    (hrole : u.role ≠ "super-admin") :
    (deleteUser env s userId).1.users = s.users.filter (fun x => decide (x ≠ u)) ∧
      (deleteUser env s userId).1.applications =
        s.applications.filter (fun a => decide (a.userId ≠ u.id)) ∧
      (deleteUser env s userId).1.votes = s.votes.filter (fun v => decide (v.voterId ≠ u.id)) ∧
      (deleteUser env s userId).1.elections = s.elections ∧
      (∀ unknownId : Id, (∀ x ∈ s.users, x.id ≠ unknownId) →
        deleteUser env s unknownId = (s, .silent)) := by
  rw [deleteUser_eq env s userId u hconfirm hfind hrole]
  have huid : u.id = userId := by
    have := List.find?_some hfind
    simpa using this
  refine ⟨?_, ?_, ?_, rfl, fun unknownId hno => deleteUser_eq_of_unknown env s unknownId hno⟩
  · apply List.filter_congr
    intro x hx
    by_cases h : x = u
    · simp [h, huid]
    · have : x.id ≠ userId := fun h' => h (hid x hx h')
      simp [h, this]
  · apply List.filter_congr
    intro a _
    rw [huid]
    by_cases h : a.userId = userId <;> simp [h, bne]
  · apply List.filter_congr
    intro v _
    rw [huid]
    by_cases h : v.voterId = userId <;> simp [h, bne]

/-- C21 at the sample store: deleting `V2`, who has cast the only vote. -/
theorem deleteUser_exact_witness :
    sampleEnv.confirm = true ∧
      sampleState.users.find? (fun x => x.id == "V2") = some (sampleVoter "V2" "bob") ∧
      (sampleVoter "V2" "bob").role ≠ "super-admin" ∧
      (deleteUser sampleEnv sampleState "V2").1.users = [sampleVoter "V1" "alice"] ∧
      (deleteUser sampleEnv sampleState "V2").1.applications = sampleState.applications ∧
      (deleteUser sampleEnv sampleState "V2").1.votes = [] ∧
      (deleteUser sampleEnv sampleState "V2").1.elections = sampleState.elections :=
  have h := deleteUser_exact sampleEnv sampleState "V2" (sampleVoter "V2" "bob") rfl rfl
    (by decide) (by decide)
  ⟨rfl, rfl, by decide, by decide, by decide, by decide, h.2.2.2.1⟩

/-- C22. For an existing election `E` (the one its id designates), a confirmed
`deleteElection` removes `E` and no other election, the applications with
`electionId = E.id` and no others, and the votes with `electionId = E.id` and no others,
and leaves `users` as it was; for an id that no election has, the store is unchanged. -/
theorem deleteElection_exact (env : Env) (s : State) (electionId : Id) (E : Election)
    (hconfirm : env.confirm = true)
    (hfind : s.elections.find? (fun e => e.id == electionId) = some E)
    (hid : ∀ e ∈ s.elections, e.id = electionId → e = E) :
    (deleteElection env s electionId).1.elections = s.elections.filter (fun e => decide (e ≠ E)) ∧
      (deleteElection env s electionId).1.applications =
        s.applications.filter (fun a => decide (a.electionId ≠ E.id)) ∧
      (deleteElection env s electionId).1.votes =
        s.votes.filter (fun v => decide (v.electionId ≠ E.id)) ∧
      (deleteElection env s electionId).1.users = s.users ∧
      (∀ unknownId : Id, (∀ e ∈ s.elections, e.id ≠ unknownId) →
        deleteElection env s unknownId = (s, .silent)) := by
  rw [deleteElection_eq env s electionId E hconfirm hfind]
  have heid : E.id = electionId := by
    have := List.find?_some hfind
    simpa using this
  refine ⟨?_, ?_, ?_, rfl,
    fun unknownId hno => deleteElection_eq_of_unknown env s unknownId hno⟩
  · apply List.filter_congr
    intro e he
    by_cases h : e = E
    · simp [h, heid]
    · have : e.id ≠ electionId := fun h' => h (hid e he h')
      simp [h, this]
  · apply List.filter_congr
    intro a _
    rw [heid]
    by_cases h : a.electionId = electionId <;> simp [h, bne]
  · apply List.filter_congr
    intro v _
    rw [heid]
    by_cases h : v.electionId = electionId <;> simp [h, bne]

/-- C22 at the store with four votes: deleting `E1` keeps the vote cast in `E2`. -/
theorem deleteElection_exact_witness :
    sampleEnv.confirm = true ∧
      tallyState.elections.find? (fun e => e.id == "E1") =
        some (sampleElection "E1" "Council" true) ∧
      (deleteElection sampleEnv tallyState "E1").1.elections =
        [sampleElection "E2" "Senate" true] ∧
      (deleteElection sampleEnv tallyState "E1").1.applications = [] ∧
      (deleteElection sampleEnv tallyState "E1").1.votes =
        [sampleVote "vote-3" "V2" "E2" "V1"] ∧
      (deleteElection sampleEnv tallyState "E1").1.users = tallyState.users :=
  have h := deleteElection_exact sampleEnv tallyState "E1" (sampleElection "E1" "Council" true)
    rfl rfl (by decide)
  ⟨rfl, rfl, by decide, by decide, by decide, h.2.2.2.1⟩

/-- C25. `toggleElection`, closing or reopening, leaves `votes` and `users` as they were,
so `getElectionResults` of every election returns the same list before and after. -/
theorem toggleElection_keeps_results (env : Env) (s : State) (electionId : Id) :
    (toggleElection env s electionId).1.votes = s.votes ∧
      (toggleElection env s electionId).1.users = s.users ∧
      ∀ e : Id, getElectionResults (toggleElection env s electionId).1 e =
        getElectionResults s e := by
  have h : (toggleElection env s electionId).1.votes = s.votes ∧
      (toggleElection env s electionId).1.users = s.users := by
    unfold toggleElection
    simp only
    split
    · split <;> exact ⟨rfl, rfl⟩
    · exact ⟨rfl, rfl⟩
  refine ⟨h.1, h.2, fun e => getElectionResults_congr s _ e h.2 ?_⟩
  rw [h.1]

/-! ## Theorems: election limits -/

/-- The write of `updateElectionLimits`: `elections[i][field] = Number.parseInt(value)`. -/
theorem updateElectionLimits_eq_of_pos (s : State) (electionId : Id) (field : LimitField)
    (value : String) (E : Election)
    (hfind : s.elections.find? (fun e => e.id == electionId) = some E)
    (hpos : (parseInt value).isPositive = true) :
    updateElectionLimits s electionId field value =
      ({ s with
          elections := s.elections.modify
            (fun e =>
              match field with
              | .maxCandidates => { e with maxCandidates := parseInt value }
              | .maxVoters => { e with maxVoters := parseInt value })
            (s.elections.findIdx fun e => e.id == electionId) },
        .success "Election Updated") := by
  have hlt := findIdx_lt_of_find?_eq_some _ _ _ hfind
  simp [updateElectionLimits, hlt, hpos]

theorem updateElectionLimits_eq_of_not_pos (s : State) (electionId : Id) (field : LimitField)
    (value : String) (hnot : (parseInt value).isPositive = false) :
    updateElectionLimits s electionId field value = (s, .silent) := by
  simp [updateElectionLimits, hnot]

/-! ## Theorems: reading integers -/

theorem digitValue_digitChar (d : Nat) (h : d < 10) :
    digitValue 10 (Nat.digitChar d) = some d := by
  interval_cases d <;> decide

theorem digitChar_props (d : Nat) (h : d < 10) :
    isJsWhiteSpace (Nat.digitChar d) = false ∧ Nat.digitChar d ≠ '-' ∧ Nat.digitChar d ≠ '+' ∧
      Nat.digitChar d ≠ 'x' ∧ Nat.digitChar d ≠ 'X' := by
  interval_cases d <;> decide

theorem toDigitsCore_digits : ∀ (fuel n : Nat) (ds : List Char), n < fuel →
    ∃ ks : List Nat, ks ≠ [] ∧ (∀ k ∈ ks, k < 10) ∧
      Nat.toDigitsCore 10 fuel n ds = ks.map Nat.digitChar ++ ds ∧
      ks.foldl (fun acc d => acc * 10 + d) 0 = n := by
  intro fuel
  induction fuel with
  | zero => intro n ds h; omega
  | succ fuel ih =>
    intro n ds h
    unfold Nat.toDigitsCore
    by_cases hq : n / 10 = 0
    · refine ⟨[n % 10], by simp, ?_, ?_, ?_⟩
      · intro k hk
        simp only [List.mem_singleton] at hk
        omega
      · simp [hq]
      · simp only [List.foldl_cons, List.foldl_nil]
        omega
    · have hlt : n / 10 < fuel := by omega
      obtain ⟨ks, hne, hks, heq, hval⟩ := ih (n / 10) (Nat.digitChar (n % 10) :: ds) hlt
      refine ⟨ks ++ [n % 10], by simp, ?_, ?_, ?_⟩
      · intro k hk
        rw [List.mem_append, List.mem_singleton] at hk
        rcases hk with hk | hk
        · exact hks k hk
        · omega
      · simp [hq, heq]
      · rw [List.foldl_append, hval]
        simp only [List.foldl_cons, List.foldl_nil]
        omega

theorem leadingDigits_map_digitChar (ks : List Nat) (h : ∀ k ∈ ks, k < 10) :
    leadingDigits 10 (ks.map Nat.digitChar) = ks := by
  induction ks with
  | nil => rfl
  | cons k ks ih =>
    have hk := h k (List.mem_cons_self _ _)
    simp only [List.map_cons, leadingDigits, digitValue_digitChar k hk]
    rw [ih (fun k' hk' => h k' (List.mem_cons_of_mem _ hk'))]

theorem parseInt_eq (string : String) :
    parseInt string =
      if (leadingDigits (stripHexMarker (stripSign
            (string.toList.dropWhile isJsWhiteSpace)).2).1
          (stripHexMarker (stripSign (string.toList.dropWhile isJsWhiteSpace)).2).2).isEmpty
      then JsNumber.nan
      else signedNumber (stripSign (string.toList.dropWhile isJsWhiteSpace)).1
        ((leadingDigits (stripHexMarker (stripSign
              (string.toList.dropWhile isJsWhiteSpace)).2).1
            (stripHexMarker (stripSign (string.toList.dropWhile isJsWhiteSpace)).2).2).foldl
              (fun acc d => acc * (stripHexMarker (stripSign
                (string.toList.dropWhile isJsWhiteSpace)).2).1 + d) 0) := by
  rfl

theorem stripSign_of_ne (c : Char) (rest : List Char) (hminus : c ≠ '-') (hplus : c ≠ '+') :
    stripSign (c :: rest) = (false, c :: rest) := by
  unfold stripSign
  split
  · rename_i r heq
    simp only [List.cons.injEq] at heq
    exact absurd heq.1 hminus
  · rename_i r heq
    simp only [List.cons.injEq] at heq
    exact absurd heq.1 hplus
  · rfl

theorem stripHexMarker_of_ne (c : Char) (rest : List Char)
    (hx : ∀ c' rest', rest = c' :: rest' → c' ≠ 'x' ∧ c' ≠ 'X') :
    stripHexMarker (c :: rest) = (10, c :: rest) := by
  unfold stripHexMarker
  split
  · rename_i r heq
    simp only [List.cons.injEq] at heq
    exact absurd rfl (hx 'x' r heq.2).1
  · rename_i r heq
    simp only [List.cons.injEq] at heq
    exact absurd rfl (hx 'X' r heq.2).2
  · rfl

theorem parseInt_digits (negative : Bool) (ks : List Nat) (hne : ks ≠ [])
    (hks : ∀ k ∈ ks, k < 10) :
    parseInt ⟨if negative then '-' :: ks.map Nat.digitChar else ks.map Nat.digitChar⟩ =
      signedNumber negative (ks.foldl (fun acc d => acc * 10 + d) 0) := by
  cases ks with
  | nil => exact absurd rfl hne
  | cons k ks' =>
    obtain ⟨hws, hminus, hplus, -, -⟩ := digitChar_props k (hks k (List.mem_cons_self _ _))
    have hx : ∀ c' rest', ks'.map Nat.digitChar = c' :: rest' → c' ≠ 'x' ∧ c' ≠ 'X' := by
      intro c' rest' h
      cases ks' with
      | nil => simp at h
      | cons k' ks'' =>
        simp only [List.map_cons, List.cons.injEq] at h
        obtain ⟨-, -, -, h1, h2⟩ := digitChar_props k'
          (hks k' (List.mem_cons_of_mem _ (List.mem_cons_self _ _)))
        rw [← h.1]
        exact ⟨h1, h2⟩
    have hlead := leadingDigits_map_digitChar (k :: ks') hks
    simp only [List.map_cons] at hlead
    have hsign : stripSign
        (if negative then '-' :: Nat.digitChar k :: ks'.map Nat.digitChar
          else Nat.digitChar k :: ks'.map Nat.digitChar) =
        (negative, Nat.digitChar k :: ks'.map Nat.digitChar) := by
      cases negative with
      | true => rfl
      | false => exact stripSign_of_ne _ _ hminus hplus
    have hdrop : List.dropWhile isJsWhiteSpace
        (if negative then '-' :: Nat.digitChar k :: ks'.map Nat.digitChar
          else Nat.digitChar k :: ks'.map Nat.digitChar) =
        (if negative then '-' :: Nat.digitChar k :: ks'.map Nat.digitChar
          else Nat.digitChar k :: ks'.map Nat.digitChar) := by
      cases negative with
      | true =>
        have : isJsWhiteSpace '-' = false := by decide
        simp [List.dropWhile_cons, this]
      | false => simp [List.dropWhile_cons, hws]
    rw [parseInt_eq]
    simp only [String.toList, List.map_cons, hdrop, hsign,
      stripHexMarker_of_ne _ _ hx, hlead]
    simp

theorem toString_nat_toList (n : Nat) : (toString n).toList = Nat.toDigits 10 n := rfl

/-- The decimal numeral of a natural number is read as the Number value of that number. -/
theorem parseInt_toString_nat (n : Nat) : parseInt (toString n) = signedNumber false n := by
  obtain ⟨ks, hne, hks, heq, hval⟩ := toDigitsCore_digits (n + 1) n [] (Nat.lt_succ_self n)
  have hstr : toString n = ⟨ks.map Nat.digitChar⟩ := by
    show Nat.repr n = _
    unfold Nat.repr Nat.toDigits
    rw [heq]
    simp [List.asString]
  rw [hstr]
  have := parseInt_digits false ks hne hks
  simp only [Bool.false_eq_true, if_false] at this
  rw [this, hval]

/-- The decimal numeral of a negative integer is read as the Number value of that
integer. -/
theorem parseInt_toString_negSucc (m : Nat) :
    parseInt (toString (Int.negSucc m)) = signedNumber true (m + 1) := by
  obtain ⟨ks, hne, hks, heq, hval⟩ :=
    toDigitsCore_digits (m + 1 + 1) (m + 1) [] (Nat.lt_succ_self _)
  have hstr : toString (Int.negSucc m) = ⟨'-' :: ks.map Nat.digitChar⟩ := by
    show "-" ++ Nat.repr (m + 1) = _
    unfold Nat.repr Nat.toDigits
    rw [heq]
    simp [List.asString]
    rfl
  rw [hstr]
  have := parseInt_digits true ks hne hks
  simp only [if_true] at this
  rw [this, hval]

/-- A number with a minus sign is not greater than 0. -/
theorem isPositive_signedNumber_true (n : Nat) :
    (signedNumber true n).isPositive = false := by
  unfold signedNumber
  cases roundToDouble n with
  | none => rfl
  | some m =>
    by_cases hm : m = 0
    · simp [hm, JsNumber.isPositive]
    · have : ¬ (0 : Int) < -(m : Int) := by omega
      simp [hm, JsNumber.isPositive, this]

/-- Integers up to `2^53` are their own Number value. -/
theorem roundToDouble_of_le (n : Nat) (h : n ≤ 2 ^ 53) : roundToDouble n = some n := by
  unfold roundToDouble
  rw [if_pos h]

theorem signedNumber_false_of_le (n : Nat) (h : n ≤ 2 ^ 53) :
    signedNumber false n = JsNumber.finite (n : Int) := by
  unfold signedNumber
  rw [roundToDouble_of_le n h]
  rfl

theorem signedNumber_true_of_le (n : Nat) (h : n + 1 ≤ 2 ^ 53) :
    signedNumber true (n + 1) = JsNumber.finite (Int.negSucc n) := by
  unfold signedNumber
  rw [roundToDouble_of_le (n + 1) h]
  rfl

/-- The decimal numeral of an integer between `-2^53` and `2^53` is read as that
integer. -/
theorem parseInt_toString_int (k : Int) (h : k.natAbs ≤ 2 ^ 53) :
    parseInt (toString k) = JsNumber.finite k := by
  cases k with
  | ofNat m =>
    have hm : m ≤ 2 ^ 53 := by simpa using h
    have := parseInt_toString_nat m
    rw [signedNumber_false_of_le m hm] at this
    exact this
  | negSucc m =>
    have hm : m + 1 ≤ 2 ^ 53 := by simpa [Int.natAbs] using h
    rw [parseInt_toString_negSucc, signedNumber_true_of_le m hm]

/-- The decimal numeral of an integer that is not positive is read as a number that is not
greater than 0. -/
theorem isPositive_parseInt_toString_of_nonpos (k : Int) (h : k ≤ 0) :
    (parseInt (toString k)).isPositive = false := by
  cases k with
  | ofNat m =>
    have hm : m = 0 := by
      have : (m : Int) ≤ 0 := h
      omega
    subst hm
    decide
  | negSucc m =>
    rw [parseInt_toString_negSucc]
    exact isPositive_signedNumber_true _

/-! ## Theorems: election limits, continued -/

/-- C23 as stated fails on the code. The values `1e3` and `1e+21` (how the number `10^21`
is written when it is turned into a string) denote positive integers and are stored as
`1`; the value `0.5e1` denotes `5` and is refused; the value `9007199254740993` is stored
as `9007199254740992`. -/
theorem updateElectionLimits_reads_leading_digits :
    ((updateElectionLimits sampleState "E2" .maxVoters "1e3").1.elections.map
        fun e => (e.id, e.maxVoters)) =
        [("E1", JsNumber.finite 100), ("E2", JsNumber.finite 1)] ∧
      ((updateElectionLimits sampleState "E2" .maxVoters "1e+21").1.elections.map
        fun e => (e.id, e.maxVoters)) =
        [("E1", JsNumber.finite 100), ("E2", JsNumber.finite 1)] ∧
      updateElectionLimits sampleState "E2" .maxVoters "0.5e1" = (sampleState, .silent) ∧
      ((updateElectionLimits sampleState "E2" .maxVoters "9007199254740993").1.elections.map
        fun e => (e.id, e.maxVoters)) =
        [("E1", JsNumber.finite 100), ("E2", JsNumber.finite 9007199254740992)] := by
  refine ⟨by decide, by decide, by decide, by decide⟩

/-- C23, amended. `updateElectionLimits` with field `maxCandidates` or `maxVoters` leaves
the whole store unchanged for every value that `Number.parseInt` does not read as a number
greater than 0, which is so for the decimal numeral of every integer that is not positive;
for every value that `Number.parseInt` reads as a number greater than 0 it sets that field
of the election to the number read, leaving the election's other fields, every other
election and the other tables as they were; the decimal numeral of an integer between
`-2^53` and `2^53` is read as that integer. -/
theorem updateElectionLimits_reads_parseInt (s : State) (electionId : Id) (field : LimitField)
    (E : Election) (hfind : s.elections.find? (fun e => e.id == electionId) = some E) :
    (∀ k : Int, k.natAbs ≤ 2 ^ 53 → parseInt (toString k) = JsNumber.finite k) ∧
      (∀ k : Int, k ≤ 0 →
        updateElectionLimits s electionId field (toString k) = (s, .silent)) ∧
      (∀ value : String, (parseInt value).isPositive = false →
        updateElectionLimits s electionId field value = (s, .silent)) ∧
      (∀ value : String, (parseInt value).isPositive = true →
        (updateElectionLimits s electionId field value).2 = .success "Election Updated" ∧
        (updateElectionLimits s electionId field value).1.elections[
            s.elections.findIdx fun e => e.id == electionId]? =
          some (match field with
            | .maxCandidates => { E with maxCandidates := parseInt value }
            | .maxVoters => { E with maxVoters := parseInt value }) ∧
        (∀ (j : Nat) (e : Election), s.elections[j]? = some e →
          j ≠ (s.elections.findIdx fun e => e.id == electionId) →
          (updateElectionLimits s electionId field value).1.elections[j]? = some e) ∧
        (updateElectionLimits s electionId field value).1.applications = s.applications ∧
        (updateElectionLimits s electionId field value).1.votes = s.votes ∧
        (updateElectionLimits s electionId field value).1.users = s.users) := by
  refine ⟨parseInt_toString_int, ?_, ?_, ?_⟩
  · intro k hk
    exact updateElectionLimits_eq_of_not_pos s electionId field _
      (isPositive_parseInt_toString_of_nonpos k hk)
  · intro value hnot
    exact updateElectionLimits_eq_of_not_pos s electionId field value hnot
  · intro value hpos
    rw [updateElectionLimits_eq_of_pos s electionId field value E hfind hpos]
    have hE := findIdx_of_find?_eq_some _ _ _ hfind
    refine ⟨rfl, ?_, ?_, rfl, rfl, rfl⟩
    · have := modify_getElem?
        (fun e : Election =>
          match field with
          | .maxCandidates => { e with maxCandidates := parseInt value }
          | .maxVoters => { e with maxVoters := parseInt value })
        s.elections (s.elections.findIdx fun e => e.id == electionId) _ E hE
      simpa using this
    · intro j e hj hne
      have := modify_getElem?
        (fun e : Election =>
          match field with
          | .maxCandidates => { e with maxCandidates := parseInt value }
          | .maxVoters => { e with maxVoters := parseInt value })
        s.elections (s.elections.findIdx fun e => e.id == electionId) j e hj
      simpa [hne] using this

/-- C23, amended, at the sample store: the value `0` is refused, and the value `250` is
read as 250 and stored as `maxVoters` of `E2`. -/
theorem updateElectionLimits_reads_parseInt_witness :
    sampleState.elections.find? (fun e => e.id == "E2") =
        some (sampleElection "E2" "Senate" true) ∧
      updateElectionLimits sampleState "E2" .maxVoters "0" = (sampleState, .silent) ∧
      parseInt "250" = JsNumber.finite 250 ∧
      (updateElectionLimits sampleState "E2" .maxVoters "250").1.elections[1]? =
        some { sampleElection "E2" "Senate" true with maxVoters := parseInt "250" } :=
  have h := updateElectionLimits_reads_parseInt sampleState "E2" .maxVoters
    (sampleElection "E2" "Senate" true) rfl
  ⟨rfl, h.2.1 0 (le_refl 0), h.1 250 (by decide), (h.2.2.2 "250" (by decide)).2.1⟩

/-- C24 fails on the code. Before any election exists the invariant holds; creating an
election with the form values `0` and an empty string, or `0.5e1` and `-3`, succeeds and
stores what `Number.parseInt` reads from them (`0` and `NaN`, `0` and `-3`) as
`maxCandidates` and `maxVoters`. -/
theorem handleCreateElection_stores_unchecked_limits :
    LimitsAtLeastOne noElectionsState ∧
      (handleCreateElection sampleEnv noElectionsState "Council" "" "0" "" true).2 =
        .success "Election Created" ∧
      ((handleCreateElection sampleEnv noElectionsState "Council" "" "0" "" true).1.elections.map
        fun e => (e.name, e.maxCandidates, e.maxVoters)) =
        [("Council", JsNumber.finite 0, JsNumber.nan)] ∧
      ¬ LimitsAtLeastOne
        (handleCreateElection sampleEnv noElectionsState "Council" "" "0" "" true).1 ∧
      ((handleCreateElection sampleEnv noElectionsState "Council" "" "0.5e1" "-3"
        true).1.elections.map fun e => (e.name, e.maxCandidates, e.maxVoters)) =
        [("Council", JsNumber.finite 0, JsNumber.finite (-3))] ∧
      ¬ LimitsAtLeastOne
        (handleCreateElection sampleEnv noElectionsState "Council" "" "0.5e1" "-3" true).1 := by
  refine ⟨by decide, by decide, by decide, by decide, by decide, by decide⟩

/-! ## Theorems: active candidacies and the effective role -/

theorem getUserActiveCandidacies_eq_filter (s : State) (user : User) :
    getUserActiveCandidacies s user =
      s.applications.filter (fun a => decide (IsActiveCandidacy s user a)) := by
  unfold getUserActiveCandidacies
  apply List.filter_congr
  intro a _
  by_cases h : IsActiveCandidacy s user a
  · rw [decide_eq_true h]
    exact (activeCandidacy_pred_iff s user a).mpr h
  · rw [decide_eq_false h]
    exact Bool.eq_false_iff.mpr fun hp => h ((activeCandidacy_pred_iff s user a).mp hp)

theorem getUserActiveCandidacies_ne_nil_iff (s : State) (user : User) :
    getUserActiveCandidacies s user ≠ [] ↔ HasActiveCandidacy s user := by
  rw [Ne, not_hasActiveCandidacy_iff_filter_nil, not_not]

/-- C26 as stated fails: a user who registered with the role `candidate` and has no
application has the effective role `candidate` while `getUserActiveCandidacies` is
empty. -/
theorem candidate_role_without_candidacy :
    sampleCandidateRole.role ≠ "admin" ∧ sampleCandidateRole.role ≠ "super-admin" ∧
      getEffectiveUserRole sampleState (some sampleCandidateRole) = some "candidate" ∧
      getUserActiveCandidacies sampleState sampleCandidateRole = [] := by
  refine ⟨by decide, by decide, by decide, by decide⟩

/-- C26, amended. `getUserActiveCandidacies(user)` is, in store order, the list of the
applications with `userId = user.id` that are approved, not switched off and refer to an
existing active election; for a user whose role is none of `admin`, `super-admin` and
`candidate`, `getEffectiveUserRole(user)` is `candidate` if and only if that list is
non-empty. -/
theorem activeCandidacies_decide_role (s : State) (user : User)
    (hadmin : user.role ≠ "admin") (hsuper : user.role ≠ "super-admin")
    (hcandidate : user.role ≠ "candidate") :
    getUserActiveCandidacies s user =
        s.applications.filter (fun a => decide (IsActiveCandidacy s user a)) ∧
      (getEffectiveUserRole s (some user) = some "candidate" ↔
        getUserActiveCandidacies s user ≠ []) := by
  refine ⟨getUserActiveCandidacies_eq_filter s user, ?_⟩
  have hrole : ¬ (user.role = "admin" ∨ user.role = "super-admin") := by
    rintro (h | h)
    · exact hadmin h
    · exact hsuper h
  rw [getUserActiveCandidacies_ne_nil_iff, getEffectiveUserRole_some, if_neg hrole]
  by_cases hc : HasActiveCandidacy s user
  · simp [hc]
  · simp [hc, hcandidate]

/-- C26, amended, at the sample store: the voter `V1` with candidacy `A1`. -/
theorem activeCandidacies_decide_role_witness :
    (sampleVoter "V1" "alice").role ≠ "admin" ∧ (sampleVoter "V1" "alice").role ≠ "super-admin" ∧
      (sampleVoter "V1" "alice").role ≠ "candidate" ∧
      getUserActiveCandidacies sampleState (sampleVoter "V1" "alice") =
        [sampleCandidacy "A1" "V1" "E1"] ∧
      (getEffectiveUserRole sampleState (some (sampleVoter "V1" "alice")) = some "candidate" ↔
        getUserActiveCandidacies sampleState (sampleVoter "V1" "alice") ≠ []) :=
  have h := activeCandidacies_decide_role sampleState (sampleVoter "V1" "alice")
    (by decide) (by decide) (by decide)
  ⟨by decide, by decide, by decide, by decide, h.2⟩

/-! ## Theorems: startup and registration -/

/-- C27. When no user is stored, `initializeData` leaves `users` with exactly one account,
the default super admin, whose role is `super-admin` and which is approved; when users are
stored, it loads them as they are and adds no account. -/
theorem initializeData_users (env : Env) (s : State) (stored : Persisted) :
    (initializeData env s stored).users =
        (if stored.users.getD [] = [] then [defaultSuperAdmin env] else stored.users.getD []) ∧
      (defaultSuperAdmin env).role = "super-admin" ∧ (defaultSuperAdmin env).approved = true ∧
      (initializeData env s stored).elections = stored.elections.getD [] ∧
      (initializeData env s stored).applications = stored.applications.getD [] ∧
      (initializeData env s stored).votes = stored.votes.getD [] := by
  unfold initializeData
  by_cases h : stored.users.getD [] = []
  · simp [h, defaultSuperAdmin]
  · have hlen : ¬ (stored.users.getD []).length = 0 := fun h' => h (List.length_eq_zero.mp h')
    simp [h, hlen, defaultSuperAdmin]

theorem handleRegister_eq_of_fresh (env : Env) (s : State)
    (username password confirmPassword prn branch role : String)
    (registrationFaceData registrationFingerprintData : Option String)
    (hpw : password = confirmPassword)
    (hfresh : ∀ u ∈ s.users, u.username ≠ username ∧ u.prn ≠ prn) :
    ∃ newUser : User,
      handleRegister env s username password confirmPassword prn branch role
          registrationFaceData registrationFingerprintData =
        ({ s with users := s.users ++ [newUser] }, .success "Registration Successful") ∧
      newUser.username = username ∧ newUser.prn = prn ∧ newUser.role = role ∧
      newUser.approved = false := by
  have hany : (s.users.any fun u => u.username == username || u.prn == prn) = false := by
    rw [List.any_eq_false]
    intro u hu
    have := hfresh u hu
    simp [this.1, this.2]
  simp only [handleRegister, hpw, bne_self_eq_false, Bool.false_eq_true, if_false, hany]
  exact ⟨_, rfl, rfl, rfl, rfl, rfl⟩

theorem handleRegister_eq_of_taken (env : Env) (s : State)
    (username password confirmPassword prn branch role : String)
    (registrationFaceData registrationFingerprintData : Option String)
    (h : password ≠ confirmPassword ∨ ∃ u ∈ s.users, u.username = username ∨ u.prn = prn) :
    handleRegister env s username password confirmPassword prn branch role
        registrationFaceData registrationFingerprintData =
      (s, .error "Registration Failed") := by
  unfold handleRegister
  by_cases hpw : password = confirmPassword
  · rcases h with h | ⟨u, hu, hdup⟩
    · exact absurd hpw h
    · have hany : (s.users.any fun u => u.username == username || u.prn == prn) = true := by
        rw [List.any_eq_true]
        exact ⟨u, hu, by simpa using hdup⟩
      simp [hpw, hany]
  · simp [hpw]

/-- C28. `handleRegister` fails and leaves the store unchanged when the two passwords
differ or the submitted username or prn belongs to a stored user; otherwise it appends
exactly one user, with the submitted username, prn and role and `approved = false`; so a
users table with pairwise distinct usernames and pairwise distinct prns stays so. -/
theorem handleRegister_keeps_unique (env : Env) (s : State)
    (username password confirmPassword prn branch role : String)
    (registrationFaceData registrationFingerprintData : Option String)
    (hunique : UsersUnique s) :
    ((password ≠ confirmPassword ∨ ∃ u ∈ s.users, u.username = username ∨ u.prn = prn) →
        handleRegister env s username password confirmPassword prn branch role
            registrationFaceData registrationFingerprintData =
          (s, .error "Registration Failed")) ∧
      (password = confirmPassword → (∀ u ∈ s.users, u.username ≠ username ∧ u.prn ≠ prn) →
        ∃ newUser : User,
          handleRegister env s username password confirmPassword prn branch role
              registrationFaceData registrationFingerprintData =
            ({ s with users := s.users ++ [newUser] }, .success "Registration Successful") ∧
          newUser.username = username ∧ newUser.prn = prn ∧ newUser.role = role ∧
          newUser.approved = false) ∧
      UsersUnique (handleRegister env s username password confirmPassword prn branch role
        registrationFaceData registrationFingerprintData).1 := by
  refine ⟨handleRegister_eq_of_taken env s username password confirmPassword prn branch role
      registrationFaceData registrationFingerprintData,
    handleRegister_eq_of_fresh env s username password confirmPassword prn branch role
      registrationFaceData registrationFingerprintData, ?_⟩
  by_cases h : password ≠ confirmPassword ∨ ∃ u ∈ s.users, u.username = username ∨ u.prn = prn
  · rw [handleRegister_eq_of_taken env s username password confirmPassword prn branch role
      registrationFaceData registrationFingerprintData h]
    exact hunique
  · rw [not_or, not_not] at h
    have hfresh : ∀ u ∈ s.users, u.username ≠ username ∧ u.prn ≠ prn := by
      intro u hu
      constructor
      · exact fun h' => h.2 ⟨u, hu, Or.inl h'⟩
      · exact fun h' => h.2 ⟨u, hu, Or.inr h'⟩
    obtain ⟨newUser, heq, h1, h2, -, -⟩ := handleRegister_eq_of_fresh env s username password
      confirmPassword prn branch role registrationFaceData registrationFingerprintData h.1 hfresh
    rw [heq]
    unfold UsersUnique at hunique ⊢
    simp only [List.map_append, List.map_cons, List.map_nil]
    constructor
    · rw [List.nodup_append]
      refine ⟨hunique.1, List.nodup_singleton _, ?_⟩
      intro x hx hx'
      rw [List.mem_singleton] at hx'
      rw [List.mem_map] at hx
      obtain ⟨u, hu, rfl⟩ := hx
      exact (hfresh u hu).1 (hx'.trans h1)
    · rw [List.nodup_append]
      refine ⟨hunique.2, List.nodup_singleton _, ?_⟩
      intro x hx hx'
      rw [List.mem_singleton] at hx'
      rw [List.mem_map] at hx
      obtain ⟨u, hu, rfl⟩ := hx
      exact (hfresh u hu).2 (hx'.trans h2)

/-- C28 at the sample store: registering `bob` again fails, registering `carol` with the
role `admin` appends her unapproved. -/
theorem handleRegister_keeps_unique_witness :
    UsersUnique sampleState ∧
      handleRegister sampleEnv sampleState "bob" "pw" "pw" "PRN-9" "CS" "voter" none none =
        (sampleState, .error "Registration Failed") ∧
      ((handleRegister sampleEnv sampleState "carol" "pw" "pw" "PRN-carol" "CS" "admin"
        none none).1.users.map fun u => (u.username, u.prn, u.role, u.approved)) =
        [("alice", "PRN-alice", "voter", true), ("bob", "PRN-bob", "voter", true),
          ("carol", "PRN-carol", "admin", false)] ∧
      UsersUnique (handleRegister sampleEnv sampleState "carol" "pw" "pw" "PRN-carol" "CS"
        "admin" none none).1 :=
  have h := handleRegister_keeps_unique sampleEnv sampleState "bob" "pw" "pw" "PRN-9" "CS"
    "voter" none none (by decide)
  have h' := handleRegister_keeps_unique sampleEnv sampleState "carol" "pw" "pw" "PRN-carol" "CS"
    "admin" none none (by decide)
  ⟨by decide, h.1 (Or.inr (by decide)), by decide, h'.2.2⟩

/-! ## Theorems: candidacies in other elections -/

/-- After `toggleElection` has closed an election, an active election with another id is
still there, and one that is there was there before. -/
theorem active_election_after_close (env : Env) (s : State) (electionId : Id) (E : Election)
    (hfind : s.elections.find? (fun e => e.id == electionId) = some E)
    (hact : E.active = true) (otherId : Id) (hne : otherId ≠ electionId) :
    (∃ e ∈ (toggleElection env s electionId).1.elections, e.id = otherId ∧ e.active = true) ↔
      ∃ e ∈ s.elections, e.id = otherId ∧ e.active = true := by
  rw [toggleElection_eq_of_active env s electionId E hfind hact]
  have hE := findIdx_of_find?_eq_some _ _ _ hfind
  have hEid : E.id = electionId := by
    have := List.find?_some hfind
    simpa using this
  constructor
  · rintro ⟨e', he', hid, hactive⟩
    rcases mem_modify _ _ _ _ he' with hin | ⟨e, hget, rfl⟩
    · exact ⟨e', hin, hid, hactive⟩
    · rw [hE] at hget
      simp only [Option.some.injEq] at hget
      subst hget
      exact absurd (hid.symm.trans hEid) hne
  · rintro ⟨e, he, hid, hactive⟩
    obtain ⟨j, hj⟩ := List.mem_iff_getElem?.mp he
    have hji : j ≠ s.elections.findIdx fun e => e.id == electionId := by
      intro h
      rw [h, hE] at hj
      simp only [Option.some.injEq] at hj
      subst hj
      exact hne (hid.symm.trans hEid)
    have := modify_getElem?
      (fun e : Election => { e with active := !e.active, closedAt := some env.iso })
      s.elections (s.elections.findIdx fun e => e.id == electionId) j e hj
    simp only [hji, if_false] at this
    exact ⟨e, List.mem_iff_getElem?.mpr ⟨j, this⟩, hid, hactive⟩

/-- After a close, the active candidacies of a user are the earlier ones that belong to
another election. -/
theorem getUserActiveCandidacies_after_close (env : Env) (s : State) (electionId : Id)
    (E : Election) (hfind : s.elections.find? (fun e => e.id == electionId) = some E)
    (hact : E.active = true) (user : User) :
    getUserActiveCandidacies (toggleElection env s electionId).1 user =
      (getUserActiveCandidacies s user).filter (fun a => decide (a.electionId ≠ electionId)) := by
  have hel := active_election_after_close env s electionId E hfind hact
  rw [getUserActiveCandidacies_eq_filter, getUserActiveCandidacies_eq_filter, List.filter_filter]
  have happs : (toggleElection env s electionId).1.applications =
      cleanupElectionCandidateStatus env s.applications electionId := by
    rw [toggleElection_eq_of_active env s electionId E hfind hact]
  rw [happs]
  unfold cleanupElectionCandidateStatus
  rw [List.filter_map]
  have hpred : ∀ a ∈ s.applications,
      ((fun a' => decide (IsActiveCandidacy (toggleElection env s electionId).1 user a')) ∘
        (fun app : Application =>
          if app.electionId == electionId then
            { app with active := some false, electionClosed := some true, closedAt := some env.iso }
          else app)) a =
      (decide (a.electionId ≠ electionId) && decide (IsActiveCandidacy s user a)) := by
    intro a _
    simp only [Function.comp]
    by_cases he : a.electionId = electionId
    · have hfalse : ∀ a' : Application, a'.active = some false →
          ¬ IsActiveCandidacy (toggleElection env s electionId).1 user a' :=
        fun a' h hc => hc.2.2.1 h
      have hbeq : (a.electionId == electionId) = true := by simp [he]
      have hl : decide (IsActiveCandidacy (toggleElection env s electionId).1 user
          (if (a.electionId == electionId) = true then
            { a with active := some false, electionClosed := some true, closedAt := some env.iso }
          else a)) = false :=
        decide_eq_false (by rw [if_pos hbeq]; exact hfalse _ rfl)
      rw [hl]
      simp [he]
    · have hiff : IsActiveCandidacy (toggleElection env s electionId).1 user a ↔
          IsActiveCandidacy s user a := by
        unfold IsActiveCandidacy
        rw [hel a.electionId he]
      simp [he, hiff]
  rw [List.filter_congr hpred]
  have hmap : ∀ a ∈ s.applications.filter
      (fun a => decide (a.electionId ≠ electionId) && decide (IsActiveCandidacy s user a)),
      (fun app : Application =>
        if app.electionId == electionId then
          { app with active := some false, electionClosed := some true, closedAt := some env.iso }
        else app) a = id a := by
    intro a ha
    rw [List.mem_filter] at ha
    have he : a.electionId ≠ electionId := by
      have := ha.2
      simp only [Bool.and_eq_true, decide_eq_true_eq] at this
      exact this.1
    simp [he]
  rw [List.map_congr_left hmap, List.map_id]

/-- C29. When `toggleElection` closes an active election, `getUserActiveCandidacies(user)`
afterwards is the previous list without the applications of that election; a user whose
effective role was `candidate` and who has an approved, active application in an active
election with another id is still `candidate`. -/
theorem candidacy_elsewhere_survives_close (env : Env) (s : State) (electionId : Id)
    (E : Election) (user : User) (other : Application)
    (hfind : s.elections.find? (fun e => e.id == electionId) = some E)
    (hact : E.active = true)
    (hbefore : getEffectiveUserRole s (some user) = some "candidate")
    (hmem : other ∈ s.applications) (hother : IsActiveCandidacy s user other)
    (hne : other.electionId ≠ electionId) :
    getEffectiveUserRole (toggleElection env s electionId).1 (some user) = some "candidate" ∧
      getUserActiveCandidacies (toggleElection env s electionId).1 user =
        (getUserActiveCandidacies s user).filter (fun a => decide (a.electionId ≠ electionId)) ∧
      other ∈ getUserActiveCandidacies (toggleElection env s electionId).1 user := by
  have hlist := getUserActiveCandidacies_after_close env s electionId E hfind hact user
  have hin : other ∈ getUserActiveCandidacies (toggleElection env s electionId).1 user := by
    rw [hlist, List.mem_filter, getUserActiveCandidacies_eq_filter, List.mem_filter]
    exact ⟨⟨hmem, decide_eq_true hother⟩, decide_eq_true hne⟩
  refine ⟨?_, hlist, hin⟩
  have hrole : ¬ (user.role = "admin" ∨ user.role = "super-admin") := by
    intro h
    rw [getEffectiveUserRole_some, if_pos h] at hbefore
    simp only [Option.some.injEq] at hbefore
    rcases h with h | h <;> rw [h] at hbefore <;> exact absurd hbefore (by decide)
  have hhas : HasActiveCandidacy (toggleElection env s electionId).1 user :=
    (getUserActiveCandidacies_ne_nil_iff _ user).mp (List.ne_nil_of_mem hin)
  rw [getEffectiveUserRole_some, if_neg hrole, if_pos hhas]

/-- C29 at the store where `V1` is a candidate in `E1` and in `E2`: closing `E1` leaves the
candidacy in `E2`. -/
theorem candidacy_elsewhere_survives_close_witness :
    twoCandidaciesState.elections.find? (fun e => e.id == "E1") =
        some (sampleElection "E1" "Council" true) ∧
      getEffectiveUserRole twoCandidaciesState (some (sampleVoter "V1" "alice")) =
        some "candidate" ∧
      IsActiveCandidacy twoCandidaciesState (sampleVoter "V1" "alice")
        (sampleCandidacy "A4" "V1" "E2") ∧
      getUserActiveCandidacies twoCandidaciesState (sampleVoter "V1" "alice") =
        [sampleCandidacy "A1" "V1" "E1", sampleCandidacy "A4" "V1" "E2"] ∧
      getEffectiveUserRole (toggleElection sampleEnv twoCandidaciesState "E1").1
        (some (sampleVoter "V1" "alice")) = some "candidate" ∧
      getUserActiveCandidacies (toggleElection sampleEnv twoCandidaciesState "E1").1
        (sampleVoter "V1" "alice") = [sampleCandidacy "A4" "V1" "E2"] :=
  have h := candidacy_elsewhere_survives_close sampleEnv twoCandidaciesState "E1"
    (sampleElection "E1" "Council" true) (sampleVoter "V1" "alice")
    (sampleCandidacy "A4" "V1" "E2") rfl rfl (by decide) (by decide) (by decide) (by decide)
  ⟨rfl, by decide, by decide, by decide, h.1, by decide⟩

/-! ## Theorems: the super admin -/

/-- C30 fails on the code. In the admin store `deleteUser` on the super admin's id reports
"Cannot Delete" and leaves the store unchanged, but `rejectUser` on the same id removes the
super admin from `users`, after which the store holds no super admin. -/
theorem rejectUser_removes_super_admin :
    (∃ u ∈ adminState.users, u.id = "super-admin-1" ∧ u.role = "super-admin") ∧
      deleteUser sampleEnv adminState "super-admin-1" = (adminState, .error "Cannot Delete") ∧
      (rejectUser adminState "super-admin-1").2 = .success "User Rejected" ∧
      (rejectUser adminState "super-admin-1").1.users =
        [sampleVoter "V1" "alice", sampleVoter "V2" "bob"] ∧
      ¬ ∃ u ∈ (rejectUser adminState "super-admin-1").1.users, u.role = "super-admin" := by
  refine ⟨by decide, by decide, by decide, by decide, by decide⟩

end SmartVote
